import Mathlib

/-!
# Lending engine of the library backend

A shallow embedding of the controllers that mutate the `books`, `borrow` and
`users` tables (`src/controllers/borrowController.js`,
`src/controllers/usersController.js`, `src/controllers/booksController.js`),
followed by the properties of the inventory-consistent lending engine.

Modelling conventions.

* A handler `async (req, res)` becomes a function from the database state and
  the parts of `req` it reads to the JSON response and the database state left
  behind.  Every handler runs its statements inside one transaction, so a
  `rollback` returns the state the handler started from.
* `books` and `users` are maps keyed by the primary key `id`.  `borrow` is the
  list of its rows, because the handlers enumerate it; `borrowSeq` is the last
  AUTO_INCREMENT value handed out for `borrow.id`.
* `available_count` and `total_count` are SQL integers (`Int`), as the
  specification declares them; the schema of `books` is not in the repository,
  so that a column has no largest value here.
* `NOW()` is the argument `now`.
* The schema helpers `ensure...Columns` alter columns and are omitted; their
  one row update (zero dates reset to NULL while `borrow.return_date` is still
  NOT NULL) cannot fire on the nullable column modelled here.
* The handlers of the first part of this file are the runs in which no SQL
  statement throws.  Throwing statements (the `catch` branches that answer 500)
  are modelled separately, by the `...WithFaults` runs on a connection with a
  committed and a working copy of the tables.
* `books.create` and `books.update` compute the counts as JavaScript Numbers
  (`JsNumber`: IEEE 754 doubles, round to nearest, ties to even) from the
  values of the form and hand them to the statement; an integer column stores
  the nearest integer (`intColumn`).  Columns of `books` that hold no count
  (title, author, publisher, date, price) are not part of a row here.
* Two transactions of `borrow.create` that run side by side are modelled call
  by call (`World`), with the row lock of `SELECT ... FOR UPDATE`.
* No file under `src/` declares a foreign key or a CHECK constraint, and none
  is modelled: an INSERT, UPDATE or DELETE is never refused by the database.
-/

namespace Library

/-- Row of table `books` (the columns the lending engine reads or writes). -/
structure Book where
  total_count : Int
  available_count : Int
  status : String
  cover_url : Option String
deriving DecidableEq

/-- Row of table `borrow`. -/
structure Loan where
  id : Nat
  book_id : Nat
  user_id : Nat
  borrow_date : Nat
  return_date : Option Nat
  status : String
deriving DecidableEq

/-- Row of table `users` (the column `users.remove` selects next to `id`). -/
structure User where
  role : String
deriving DecidableEq

/-- The three tables. -/
structure State where
  books : Nat → Option Book
  borrow : List Loan
  borrowSeq : Nat
  users : Nat → Option User

/-- Payload of the verified token, `req.user` (`middlewares/auth.js`). -/
structure AuthUser where
  id : Nat
  role : String
deriving DecidableEq

/-- JSON bodies the handlers send. -/
inductive Body where
  /-- The body `{ success: false, error }`. -/
  | error (msg : String)
  /-- The body `{ success: true, message }`. -/
  | message (msg : String)
  /-- The body `{ success: true, borrowId }`, `none` standing for `null`. -/
  | borrowCreated (borrowId : Option Nat)
  /-- The body `{ success: true, bookId }`, `none` standing for `null`. -/
  | bookCreated (bookId : Option Nat)
  /-- The body `{ success: true }`. -/
  | ok
  /-- The body `{ error }` of the middlewares in `middlewares/auth.js`. -/
  | authError (msg : String)
deriving DecidableEq

/-- What `res.status(..).json(..)` sends. -/
structure Response where
  status : Nat
  body : Body
deriving DecidableEq

/-- JavaScript truthiness of an id read from the request: `undefined` and `0`
are falsy. -/
def truthy : Option Nat → Bool
  | some n => n != 0
  | none => false

/-- The expression `newAvailable > 0 ? "在馆" : "已借出"`. -/
def stockStatus (newAvailable : Int) : String :=
  if newAvailable > 0 then "在馆" else "已借出"

/-- The statement `UPDATE books SET available_count = ?, status = ? WHERE id = ?`. -/
def updateBookCounts (books : Nat → Option Book) (bookId : Nat)
    (newAvailable : Int) (status : String) : Nat → Option Book :=
  fun i =>
    if i = bookId then
      (books i).map fun b => { b with available_count := newAvailable, status := status }
    else books i

/-- The statement `DELETE FROM books WHERE id = ?`. -/
def deleteBook (books : Nat → Option Book) (bookId : Nat) : Nat → Option Book :=
  fun i => if i = bookId then none else books i

/-- The statement `DELETE FROM users WHERE id = ?`. -/
def deleteUser (users : Nat → Option User) (userId : Nat) : Nat → Option User :=
  fun i => if i = userId then none else users i

/-- The statement `SELECT id, book_id, status FROM borrow WHERE id = ?`. -/
def selectBorrowById (borrow : List Loan) (borrowId : Nat) : List Loan :=
  borrow.filter fun l => l.id = borrowId

/-- The statement `SELECT id, book_id FROM borrow WHERE user_id = ? AND status = '借出'`. -/
def selectOpenBorrowByUser (borrow : List Loan) (userId : Nat) : List Loan :=
  borrow.filter fun l => l.user_id = userId ∧ l.status = "借出"

/-- The statement `UPDATE borrow SET return_date = NOW(), status = '已还' WHERE id = ?`. -/
def markReturned (borrow : List Loan) (now : Nat) (borrowId : Nat) : List Loan :=
  borrow.map fun l =>
    if l.id = borrowId then { l with return_date := some now, status := "已还" } else l

/-- The statement `DELETE FROM borrow WHERE id = ?`. -/
def deleteBorrowById (borrow : List Loan) (borrowId : Nat) : List Loan :=
  borrow.filter fun l => l.id ≠ borrowId

/-- The statement `DELETE FROM borrow WHERE book_id = ?`. -/
def deleteBorrowByBook (borrow : List Loan) (bookId : Nat) : List Loan :=
  borrow.filter fun l => l.book_id ≠ bookId

/-- The two statements shared by `borrow.return`, `borrow.remove` and
`users.remove`: `SELECT available_count, total_count ... FOR UPDATE` was
answered with `book`, then
`newAvailable = Math.min(available_count + 1, total_count)` is written back. -/
def restoreCopy (books : Nat → Option Book) (bookId : Nat) (book : Book) : Nat → Option Book :=
  let newAvailable := min (book.available_count + 1) book.total_count
  updateBookCounts books bookId newAvailable (stockStatus newAvailable)

namespace borrowController

/-- The parts of `req` that `borrow.create` reads. -/
structure CreateReq where
  user : Option AuthUser
  user_id : Option Nat
  book_id : Option Nat

/-- Lines 86-104 of `create`: the title id and the borrower id the request
stands for, or the 400 answer sent before any query. -/
def resolve (req : CreateReq) : Except Response (Nat × Nat) :=
  let requestedUserId := req.user_id
  let bookId := req.book_id
  if !truthy bookId then
    .error ⟨400, .error "图书ID为必填项"⟩
  else
    let userId :=
      if req.user.map (fun u => u.role) = some "admin" ∧ truthy requestedUserId = true then
        requestedUserId
      else req.user.map fun u => u.id
    if !truthy userId then
      .error ⟨400, .error "无法识别借阅用户"⟩
    else
      .ok (bookId.getD 0, userId.getD 0)

/-- Lines 106-147 of `create`: the transaction. -/
def createTx (s : State) (now : Nat) (bookId userId : Nat) : Response × State :=
  match s.books bookId with
  | none => (⟨404, .error "图书不存在"⟩, s)
  | some book =>
    let available := book.available_count
    if available ≤ 0 then
      (⟨400, .error "该书库存不足"⟩, s)
    else
      let insertId := s.borrowSeq + 1
      let s1 : State :=
        { s with
          borrow := s.borrow ++
            [{ id := insertId, book_id := bookId, user_id := userId,
               borrow_date := now, return_date := none, status := "借出" }]
          borrowSeq := insertId }
      let newAvailable := available - 1
      let s2 : State :=
        { s1 with
          books := updateBookCounts s1.books bookId newAvailable (stockStatus newAvailable) }
      (⟨201, .borrowCreated (if insertId = 0 then none else some insertId)⟩, s2)

/-- The handler `exports.create`. -/
def create (s : State) (now : Nat) (req : CreateReq) : Response × State :=
  match resolve req with
  | .error r => (r, s)
  | .ok (bookId, userId) => createTx s now bookId userId

/-- The handler `exports.return`; `borrowId` is `req.params.id`, `none` when it
is not a number. -/
def «return» (s : State) (now : Nat) (borrowId : Option Nat) : Response × State :=
  match borrowId with
  | none => (⟨400, .error "借阅记录ID无效"⟩, s)
  | some borrowId =>
    match selectBorrowById s.borrow borrowId with
    | [] => (⟨404, .error "借阅记录不存在"⟩, s)
    | record :: _ =>
      if record.status = "已还" then
        (⟨400, .error "该记录已归还"⟩, s)
      else
        let s1 : State := { s with borrow := markReturned s.borrow now borrowId }
        match s1.books record.book_id with
        | none => (⟨404, .error "图书不存在"⟩, s)
        | some book =>
          (⟨200, .message "还书成功"⟩,
            { s1 with books := restoreCopy s1.books record.book_id book })

/-- The handler `exports.remove` of the borrow controller; `borrowId` is
`req.params.id`, `none` when it is not a number. -/
def remove (s : State) (borrowId : Option Nat) : Response × State :=
  match borrowId with
  | none => (⟨400, .error "借阅记录ID无效"⟩, s)
  | some borrowId =>
    match selectBorrowById s.borrow borrowId with
    | [] => (⟨404, .error "借阅记录不存在"⟩, s)
    | record :: _ =>
      let needUpdateBook : Bool := record.status = "借出"
      let s1 : State := { s with borrow := deleteBorrowById s.borrow borrowId }
      let s2 : State :=
        if needUpdateBook then
          match s1.books record.book_id with
          | some book => { s1 with books := restoreCopy s1.books record.book_id book }
          | none => s1
        else s1
      (⟨200, .message "借阅记录已删除"⟩, s2)

end borrowController

namespace usersController

/-- Body of the loop `for (const borrowRecord of borrowRows)` in `remove`. -/
def autoReturn (now : Nat) (s : State) (borrowRecord : Loan) : State :=
  let s1 : State := { s with borrow := markReturned s.borrow now borrowRecord.id }
  match s1.books borrowRecord.book_id with
  | some book => { s1 with books := restoreCopy s1.books borrowRecord.book_id book }
  | none => s1

/-- The handler `exports.remove` of the users controller; `caller` is
`req.user`, `userId` is `req.params.id`. -/
def remove (s : State) (now : Nat) (caller : Option AuthUser) (userId : Nat) :
    Response × State :=
  if caller.map (fun u => u.id) = some userId then
    (⟨400, .error "不能删除当前登录用户"⟩, s)
  else
    match s.users userId with
    | none => (⟨404, .error "用户不存在"⟩, s)
    | some _ =>
      let borrowRows := selectOpenBorrowByUser s.borrow userId
      let s1 := borrowRows.foldl (autoReturn now) s
      let s2 : State := { s1 with users := deleteUser s1.users userId }
      (⟨200, .message
          ("用户已删除，已自动归还 " ++ toString borrowRows.length ++ " 本未还书籍")⟩, s2)

end usersController

/-! ## JavaScript numbers -/

/-- A JavaScript Number: `NaN`, an infinity, or a finite double given by its
value.  The two zeros are one value here: the handlers only compare them and
write them to integer columns. -/
inductive JsNumber where
  /-- The value `NaN`. -/
  | nan
  /-- The value `Infinity`, or `-Infinity` when `negative`. -/
  | inf (negative : Bool)
  /-- A finite double. -/
  | fin (q : ℚ)
deriving DecidableEq

namespace JsNumber

/-- Exponent of the spacing of the doubles around `q`: the doubles of magnitude
in `[2^e, 2^(e+1))` are the multiples of `2^(e-52)`, those below `2^-1022` the
multiples of `2^-1074`. -/
def ulpExp (q : ℚ) : Int := max (Int.log 2 |q| - 52) (-1074)

/-- The integer nearest to `x`, the even one of the two when `x` is half-way. -/
def roundHalfEven (x : ℚ) : Int :=
  let f := ⌊x⌋
  let r := x - f
  if r < 1 / 2 then f
  else if 1 / 2 < r then f + 1
  else if f % 2 = 0 then f else f + 1

/-- The Number nearest to the real `q` (IEEE 754 binary64, round to nearest,
ties to even; a magnitude that rounds to `2^1024` overflows to an infinity).
This is what `Number(text)` gives for a text that denotes `q`, and what an
arithmetic operation gives for the exact result `q`. -/
def ofRat (q : ℚ) : JsNumber :=
  let e := ulpExp q
  let r : ℚ := roundHalfEven (q / 2 ^ e) * 2 ^ e
  if (2 : ℚ) ^ (1024 : ℤ) ≤ |r| then .inf (decide (q < 0)) else .fin r

/-- The Number the driver hands over for the value `n` of an integer column. -/
def ofInt (n : Int) : JsNumber := ofRat n

/-- The test `Number.isFinite(x)`. -/
def isFinite : JsNumber → Bool
  | fin _ => true
  | _ => false

/-- The comparison `x > 0`. -/
def gtZero : JsNumber → Bool
  | fin q => decide (0 < q)
  | inf negative => !negative
  | nan => false

/-- The comparison `x <= 0`. -/
def leZero : JsNumber → Bool
  | fin q => decide (q ≤ 0)
  | inf negative => negative
  | nan => false

/-- The difference `x - y`. -/
def sub : JsNumber → JsNumber → JsNumber
  | fin a, fin b => ofRat (a - b)
  | fin _, inf negative => inf (!negative)
  | inf negative, fin _ => inf negative
  | inf n, inf m => if n = m then nan else inf n
  | nan, _ => nan
  | _, nan => nan

/-- The call `Math.max(x, y)`. -/
def mathMax : JsNumber → JsNumber → JsNumber
  | nan, _ => nan
  | _, nan => nan
  | inf false, _ => inf false
  | _, inf false => inf false
  | inf true, y => y
  | x, inf true => x
  | fin a, fin b => fin (max a b)

/-- The call `Math.min(x, y)`. -/
def mathMin : JsNumber → JsNumber → JsNumber
  | nan, _ => nan
  | _, nan => nan
  | inf true, _ => inf true
  | _, inf true => inf true
  | inf false, y => y
  | x, inf false => x
  | fin a, fin b => fin (min a b)

end JsNumber

/-- The integer an integer column stores when the statement assigns it the
number `q`: the nearest integer, a half-way value going away from zero. -/
def intColumn (q : ℚ) : Int := if 0 ≤ q then ⌊q + 1 / 2⌋ else -⌊-q + 1 / 2⌋

namespace booksController

/-- The handler `exports.remove` of the books controller; `bookId` is
`req.params.id`, `removeThrows` tells whether `storage.removeByUrl` throws.
The transaction is committed before the cover is removed, so the `rollback`
of the `catch` branch undoes nothing. -/
def remove (s : State) (bookId : Nat) (removeThrows : Bool) : Response × State :=
  match s.books bookId with
  | none => (⟨404, .error "图书不存在"⟩, s)
  | some row =>
    let coverUrl := row.cover_url
    let s1 : State := { s with borrow := deleteBorrowByBook s.borrow bookId }
    let s2 : State := { s1 with books := deleteBook s1.books bookId }
    if (coverUrl.isSome && coverUrl != some "") && removeThrows then
      (⟨500, .error "删除图书失败"⟩, s2)
    else
      (⟨200, .message "图书已删除"⟩, s2)

/-- A value of the submitted form as `Number(..)` sees it. -/
inductive Field where
  /-- The key is absent: `undefined`. -/
  | undefined
  /-- The empty string, which `Number` turns into `0`. -/
  | empty
  /-- A value that denotes the number `q` (`'2'`, `'2.5'`, `'1e3'`, `2`):
  `Number` gives the double nearest to `q`. -/
  | num (q : ℚ)
  /-- Any other value: `Number` gives `NaN` or an infinity. -/
  | other
deriving DecidableEq

/-- The call `Number(v)`, a result that is not finite given as `NaN`: the
handlers test every result with `Number.isFinite` first. -/
def Field.toNumber : Field → JsNumber
  | .undefined => .nan
  | .empty => .fin 0
  | .num q => .ofRat q
  | .other => .nan

/-- What becomes of `req.file`. -/
inductive Upload where
  /-- No file was sent. -/
  | absent
  /-- The call `storage.saveImage` returned, with `saved?.url` as given. -/
  | saved (url : Option String)
  /-- The call `storage.saveImage` threw an error with this message. -/
  | throws (message : String)
deriving DecidableEq

/-- JavaScript truthiness of a nullable string. -/
def truthyUrl (url : Option String) : Bool := url.isSome && url != some ""

/-- The parts of `req` that `books.create` reads, the title and the author
given as the handler has normalised them (`wrapTitle(titleStr)`, `authorStr`). -/
structure CreateReq where
  normalizedTitle : String
  authorStr : String
  total_count : Field
  available_count : Field
  file : Upload

/-- Lines 159-164 of `create`: the available count for a total `total`. -/
def createAvailable (available_count : Field) (total : JsNumber) : JsNumber :=
  let parsedAvailable :=
    if available_count ≠ .undefined ∧ available_count ≠ .empty then
      available_count.toNumber
    else total
  if parsedAvailable.isFinite then
    JsNumber.mathMin (JsNumber.mathMax parsedAvailable (.fin 0)) total
  else total

/-- The statement `INSERT INTO books (...) VALUES (...)`, the database having
assigned `insertId` to the new row. -/
def insertBook (books : Nat → Option Book) (insertId : Nat) (row : Book) : Nat → Option Book :=
  fun i => if i = insertId then some row else books i

/-- The handler `exports.create` of the books controller; `insertId` is the id
the database assigns to the new row.  The two counts reach the INSERT as
Numbers and the integer columns store `intColumn` of them.  A Number that is
not finite is no SQL literal and the statement would throw; past the test of
`parsedTotal` both Numbers are finite (`createAvailable_fin`), so that the
last branch is never taken. -/
def create (s : State) (req : CreateReq) (insertId : Nat) : Response × State :=
  if req.normalizedTitle = "" then
    (⟨400, .error "标题为必填项且不能为空"⟩, s)
  else if req.authorStr = "" then
    (⟨400, .error "作者为必填项且不能为空"⟩, s)
  else
    let parsedTotal := req.total_count.toNumber
    if !parsedTotal.isFinite || parsedTotal.leZero then
      (⟨400, .error "总数量必须大于 0"⟩, s)
    else
      let total := parsedTotal
      let available := createAvailable req.available_count total
      match req.file with
      | .throws message => (⟨500, .error ("保存封面图片失败: " ++ message)⟩, s)
      | file =>
        let coverUrl : Option String :=
          match file with
          | .saved url => if truthyUrl url then url else none
          | _ => none
        let status := if available.gtZero then "在馆" else "已借出"
        match total, available with
        | .fin t, .fin a =>
          (⟨201, .bookCreated (if insertId = 0 then none else some insertId)⟩,
            { s with
              books := insertBook s.books insertId
                ⟨intColumn t, intColumn a, status, coverUrl⟩ })
        | _, _ => (⟨500, .error "创建图书失败"⟩, s)

/-- The parts of `req` that `books.update` reads and that reach the counts or
the cover. -/
structure UpdateReq where
  total_count : Field
  available_count : Field
  file : Upload

/-- Lines 269-272 of `update`: the total. -/
def updateTotal (current : Book) (total_count : Field) : JsNumber :=
  let parsedTotal := total_count.toNumber
  if parsedTotal.isFinite && parsedTotal.gtZero then parsedTotal
  else JsNumber.ofInt current.total_count

/-- Lines 274-289 of `update`: the available count next to `total`. -/
def updateAvailable (current : Book) (available_count : Field) (total : JsNumber) :
    JsNumber :=
  let borrowedCount :=
    JsNumber.mathMax
      (JsNumber.sub (JsNumber.ofInt current.total_count)
        (JsNumber.ofInt current.available_count))
      (.fin 0)
  let minAvailable := JsNumber.mathMax (JsNumber.sub total borrowedCount) (.fin 0)
  if available_count ≠ .undefined then
    let parsedAvailable := available_count.toNumber
    let available :=
      if parsedAvailable.isFinite then parsedAvailable
      else JsNumber.ofInt current.available_count
    JsNumber.mathMax minAvailable (JsNumber.mathMin total available)
  else
    JsNumber.mathMin total minAvailable

/-- The handler `exports.update` of the books controller; `bookId` is
`req.params.id`, `removeThrows` tells whether `storage.removeByUrl` throws.
The handler opens no transaction: its one write is the final UPDATE, to which
the two counts go as Numbers; the integer columns store `intColumn` of them,
and a Number that is not finite is no SQL literal, so that the statement
throws. -/
def update (s : State) (bookId : Nat) (req : UpdateReq) (removeThrows : Bool) :
    Response × State :=
  match s.books bookId with
  | none => (⟨404, .error "图书不存在"⟩, s)
  | some current =>
    let cover : Except Unit (Option String) :=
      match req.file with
      | .absent => .ok current.cover_url
      | .throws _ => .error ()
      | .saved url =>
        if truthyUrl current.cover_url && removeThrows then .error ()
        else .ok (if truthyUrl url then url else current.cover_url)
    match cover with
    | .error _ => (⟨500, .error "更新图书失败"⟩, s)
    | .ok coverUrl =>
      let total := updateTotal current req.total_count
      let available := updateAvailable current req.available_count total
      let status := if available.gtZero then "在馆" else "已借出"
      match total, available with
      | .fin t, .fin a =>
        (⟨200, .ok⟩,
          { s with
            books := fun i =>
              if i = bookId then
                (s.books i).map fun _ => ⟨intColumn t, intColumn a, status, coverUrl⟩
              else s.books i })
      | _, _ => (⟨500, .error "更新图书失败"⟩, s)

end booksController

/-! ## Routes and middlewares -/

/-- What `authMiddleware` finds in the `Authorization` header. -/
inductive Credentials where
  /-- No header. -/
  | noHeader
  /-- A header that is not made of two parts. -/
  | malformed
  /-- A token that `jwt.verify` rejects. -/
  | invalid
  /-- A token that `jwt.verify` accepts, with its payload. -/
  | verified (payload : AuthUser)
deriving DecidableEq

/-- The middleware `authMiddleware`: the answer it sends, or `req.user`. -/
def authMiddleware : Credentials → Except Response AuthUser
  | .noHeader => .error ⟨401, .authError "未提供 token"⟩
  | .malformed => .error ⟨401, .authError "Token 格式错误"⟩
  | .invalid => .error ⟨401, .authError "无效或过期的 token"⟩
  | .verified payload => .ok payload

/-- The middleware `adminOnly`: the answer it sends, or `none` for `next()`. -/
def adminOnly (user : Option AuthUser) : Option Response :=
  match user with
  | none => some ⟨403, .authError "需要管理员权限"⟩
  | some u => if u.role ≠ "admin" then some ⟨403, .authError "需要管理员权限"⟩ else none

namespace borrowRoutes

/-- The route `DELETE /api/borrow/:id`: `authMiddleware` (mounted in
`index.js`), then `router.delete("/:id", borrowCtrl.remove)`. -/
def delete (s : State) (credentials : Credentials) (borrowId : Option Nat) :
    Response × State :=
  match authMiddleware credentials with
  | .error r => (r, s)
  | .ok _ => borrowController.remove s borrowId

end borrowRoutes

namespace booksRoutes

/-- The route `DELETE /api/books/:id`: `authMiddleware`, then
`router.delete("/:id", adminOnly, booksCtrl.remove)`. -/
def delete (s : State) (credentials : Credentials) (bookId : Nat) (removeThrows : Bool) :
    Response × State :=
  match authMiddleware credentials with
  | .error r => (r, s)
  | .ok user =>
    match adminOnly (some user) with
    | some r => (r, s)
    | none => booksController.remove s bookId removeThrows

end booksRoutes

namespace usersRoutes

/-- The route `DELETE /api/users/:id`: `authMiddleware`, then
`router.delete("/:id", adminOnly, usersController.remove)`. -/
def delete (s : State) (now : Nat) (credentials : Credentials) (userId : Nat) :
    Response × State :=
  match authMiddleware credentials with
  | .error r => (r, s)
  | .ok user =>
    match adminOnly (some user) with
    | some r => (r, s)
    | none => usersController.remove s now (some user) userId

end usersRoutes

/-! ## Runs in which a storage call throws -/

/-- A pooled connection inside a transaction: the tables as committed, and the
tables as the transaction sees them.  Writes that are neither committed nor
rolled back stay on the connection when it is released. -/
structure Conn where
  committed : State
  working : State

/-- The call `connection.beginTransaction()`. -/
def Conn.beginTransaction (s : State) : Conn := ⟨s, s⟩

/-- A writing `connection.query(..)`: only the working copy changes. -/
def Conn.query (c : Conn) (f : State → State) : Conn := { c with working := f c.working }

/-- The call `connection.commit()`. -/
def Conn.commit (c : Conn) : Conn := ⟨c.working, c.working⟩

/-- The call `connection.rollback()`, taken to succeed: the working copy is
dropped; the AUTO_INCREMENT counter is not transactional and keeps its value. -/
def Conn.rollback (c : Conn) : Conn :=
  ⟨{ c.committed with borrowSeq := c.working.borrowSeq },
   { c.committed with borrowSeq := c.working.borrowSeq }⟩

/-- What a run leaves: the answer, the tables as the connection holds them when
the handler releases it, and whether a `catch` branch ran because a storage
call threw. -/
structure Run where
  response : Response
  state : State
  threw : Bool

/-- A `catch` branch: `connection.rollback()`, then the 500 answer. -/
def Run.caught (msg : String) (c : Conn) : Run :=
  ⟨⟨500, .error msg⟩, c.rollback.working, true⟩

/-- An answer sent on a path where nothing threw. -/
def Run.sent (r : Response) (st : State) : Run := ⟨r, st, false⟩

namespace borrowController

/-- The handler `exports.create` when storage calls may throw: `fails k` tells
whether the `k`-th call of the run throws, the calls being
`beginTransaction` (0), the SELECT (1), the INSERT (2), the UPDATE (3) and
`commit` (4). -/
def createWithFaults (fails : Nat → Bool) (s : State) (now : Nat) (req : CreateReq) : Run :=
  match resolve req with
  | .error r => .sent r s
  | .ok (bookId, userId) =>
    let c0 := Conn.beginTransaction s
    if fails 0 then .caught "借书失败，请稍后重试" c0
    else if fails 1 then .caught "借书失败，请稍后重试" c0
    else
      match c0.working.books bookId with
      | none => .sent ⟨404, .error "图书不存在"⟩ c0.rollback.working
      | some book =>
        let available := book.available_count
        if available ≤ 0 then
          .sent ⟨400, .error "该书库存不足"⟩ c0.rollback.working
        else if fails 2 then .caught "借书失败，请稍后重试" c0
        else
          let insertId := c0.working.borrowSeq + 1
          let c1 := c0.query fun w =>
            { w with
              borrow := w.borrow ++
                [{ id := insertId, book_id := bookId, user_id := userId,
                   borrow_date := now, return_date := none, status := "借出" }]
              borrowSeq := insertId }
          if fails 3 then .caught "借书失败，请稍后重试" c1
          else
            let newAvailable := available - 1
            let c2 := c1.query fun w =>
              { w with
                books := updateBookCounts w.books bookId newAvailable (stockStatus newAvailable) }
            if fails 4 then .caught "借书失败，请稍后重试" c2
            else
              .sent ⟨201, .borrowCreated (if insertId = 0 then none else some insertId)⟩
                c2.commit.working

/-- The handler `exports.return` when storage calls may throw: the calls are
`beginTransaction` (0), the SELECT on `borrow` (1), the UPDATE of `borrow` (2),
the SELECT on `books` (3), the UPDATE of `books` (4) and `commit` (5). -/
def returnWithFaults (fails : Nat → Bool) (s : State) (now : Nat) (borrowId : Option Nat) :
    Run :=
  match borrowId with
  | none => .sent ⟨400, .error "借阅记录ID无效"⟩ s
  | some borrowId =>
    let c0 := Conn.beginTransaction s
    if fails 0 then .caught "还书失败，请稍后重试" c0
    else if fails 1 then .caught "还书失败，请稍后重试" c0
    else
      match selectBorrowById c0.working.borrow borrowId with
      | [] => .sent ⟨404, .error "借阅记录不存在"⟩ c0.rollback.working
      | record :: _ =>
        if record.status = "已还" then
          .sent ⟨400, .error "该记录已归还"⟩ c0.rollback.working
        else if fails 2 then .caught "还书失败，请稍后重试" c0
        else
          let c1 := c0.query fun w => { w with borrow := markReturned w.borrow now borrowId }
          if fails 3 then .caught "还书失败，请稍后重试" c1
          else
            match c1.working.books record.book_id with
            | none => .sent ⟨404, .error "图书不存在"⟩ c1.rollback.working
            | some book =>
              if fails 4 then .caught "还书失败，请稍后重试" c1
              else
                let c2 := c1.query fun w =>
                  { w with books := restoreCopy w.books record.book_id book }
                if fails 5 then .caught "还书失败，请稍后重试" c2
                else .sent ⟨200, .message "还书成功"⟩ c2.commit.working

/-- The handler `exports.remove` of the borrow controller when storage calls
may throw: the calls are `beginTransaction` (0), the SELECT on `borrow` (1),
the DELETE (2), then for a loan that was `'借出'` the SELECT on `books` (3) and,
if the title exists, its UPDATE (4), and last `commit`. -/
def removeWithFaults (fails : Nat → Bool) (s : State) (borrowId : Option Nat) : Run :=
  match borrowId with
  | none => .sent ⟨400, .error "借阅记录ID无效"⟩ s
  | some borrowId =>
    let c0 := Conn.beginTransaction s
    if fails 0 then .caught "删除借阅记录失败" c0
    else if fails 1 then .caught "删除借阅记录失败" c0
    else
      match selectBorrowById c0.working.borrow borrowId with
      | [] => .sent ⟨404, .error "借阅记录不存在"⟩ c0.rollback.working
      | record :: _ =>
        let needUpdateBook : Bool := record.status = "借出"
        if fails 2 then .caught "删除借阅记录失败" c0
        else
          let c1 := c0.query fun w => { w with borrow := deleteBorrowById w.borrow borrowId }
          if needUpdateBook then
            if fails 3 then .caught "删除借阅记录失败" c1
            else
              match c1.working.books record.book_id with
              | some book =>
                if fails 4 then .caught "删除借阅记录失败" c1
                else
                  let c2 := c1.query fun w =>
                    { w with books := restoreCopy w.books record.book_id book }
                  if fails 5 then .caught "删除借阅记录失败" c2
                  else .sent ⟨200, .message "借阅记录已删除"⟩ c2.commit.working
              | none =>
                if fails 4 then .caught "删除借阅记录失败" c1
                else .sent ⟨200, .message "借阅记录已删除"⟩ c1.commit.working
          else if fails 3 then .caught "删除借阅记录失败" c1
          else .sent ⟨200, .message "借阅记录已删除"⟩ c1.commit.working

/-- The number of storage calls `exports.create` issues when none throws:
none for a request the input guards answer, `beginTransaction` and the SELECT
for a missing or exhausted title, `beginTransaction` to `commit` otherwise. -/
def createCalls (s : State) (req : CreateReq) : Nat :=
  match resolve req with
  | .error _ => 0
  | .ok (bookId, _) =>
    match s.books bookId with
    | none => 2
    | some book => if book.available_count ≤ 0 then 2 else 5

/-- The number of storage calls `exports.return` issues when none throws. -/
def returnCalls (s : State) (borrowId : Option Nat) : Nat :=
  match borrowId with
  | none => 0
  | some borrowId =>
    match selectBorrowById s.borrow borrowId with
    | [] => 2
    | record :: _ =>
      if record.status = "已还" then 2
      else
        match s.books record.book_id with
        | none => 4
        | some _ => 6

/-- The number of storage calls `exports.remove` of the borrow controller
issues when none throws. -/
def removeCalls (s : State) (borrowId : Option Nat) : Nat :=
  match borrowId with
  | none => 0
  | some borrowId =>
    match selectBorrowById s.borrow borrowId with
    | [] => 2
    | record :: _ =>
      if record.status = "借出" then
        match s.books record.book_id with
        | some _ => 6
        | none => 5
      else 4

end borrowController

namespace usersController

/-- The loop `for (const borrowRecord of borrowRows)` of `remove` when storage
calls may throw, the next call being the `k`-th: per row the UPDATE of
`borrow`, the SELECT on `books` and, if the title exists, its UPDATE.  The
result is the connection at the throw, or the connection and the number of the
next call after the last row. -/
def autoReturnWithFaults (fails : Nat → Bool) (now : Nat) :
    Nat → Conn → List Loan → Except Conn (Conn × Nat)
  | k, c, [] => .ok (c, k)
  | k, c, borrowRecord :: borrowRows =>
    if fails k then .error c
    else
      let c1 := c.query fun w =>
        { w with borrow := markReturned w.borrow now borrowRecord.id }
      if fails (k + 1) then .error c1
      else
        match c1.working.books borrowRecord.book_id with
        | some book =>
          if fails (k + 2) then .error c1
          else
            autoReturnWithFaults fails now (k + 3)
              (c1.query fun w =>
                { w with books := restoreCopy w.books borrowRecord.book_id book })
              borrowRows
        | none => autoReturnWithFaults fails now (k + 2) c1 borrowRows

/-- The handler `exports.remove` of the users controller when storage calls may
throw: the calls are `beginTransaction` (0), the SELECT on `users` (1), the
SELECT on `borrow` (2), the calls of the loop (from 3), the DELETE and
`commit`. -/
def removeWithFaults (fails : Nat → Bool) (s : State) (now : Nat)
    (caller : Option AuthUser) (userId : Nat) : Run :=
  if caller.map (fun u => u.id) = some userId then
    .sent ⟨400, .error "不能删除当前登录用户"⟩ s
  else
    let c0 := Conn.beginTransaction s
    if fails 0 then .caught "删除用户失败" c0
    else if fails 1 then .caught "删除用户失败" c0
    else
      match c0.working.users userId with
      | none => .sent ⟨404, .error "用户不存在"⟩ c0.rollback.working
      | some _ =>
        if fails 2 then .caught "删除用户失败" c0
        else
          let borrowRows := selectOpenBorrowByUser c0.working.borrow userId
          match autoReturnWithFaults fails now 3 c0 borrowRows with
          | .error c => .caught "删除用户失败" c
          | .ok (c1, k) =>
            if fails k then .caught "删除用户失败" c1
            else
              let c2 := c1.query fun w => { w with users := deleteUser w.users userId }
              if fails (k + 1) then .caught "删除用户失败" c2
              else
                .sent ⟨200, .message
                    ("用户已删除，已自动归还 " ++ toString borrowRows.length ++ " 本未还书籍")⟩
                  c2.commit.working

/-- The number of storage calls the loop of `remove` issues over `borrowRows`
when none throws: three per row whose title exists, two per other row. -/
def autoReturnCalls (books : Nat → Option Book) (borrowRows : List Loan) : Nat :=
  (borrowRows.map fun r => if (books r.book_id).isSome then 3 else 2).sum

/-- The number of storage calls `exports.remove` of the users controller
issues when none throws. -/
def removeCalls (s : State) (caller : Option AuthUser) (userId : Nat) : Nat :=
  if caller.map (fun u => u.id) = some userId then 0
  else
    match s.users userId with
    | none => 2
    | some _ => 3 + autoReturnCalls s.books (selectOpenBorrowByUser s.borrow userId) + 2

end usersController

namespace booksController

/-- The handler `exports.remove` of the books controller when storage calls may
throw: the calls are `beginTransaction` (0), the SELECT (1), the two DELETEs
(2, 3), `commit` (4) and, for a title with a cover, `storage.removeByUrl` (5),
which runs after the commit. -/
def removeWithFaults (fails : Nat → Bool) (s : State) (bookId : Nat) : Run :=
  let c0 := Conn.beginTransaction s
  if fails 0 then .caught "删除图书失败" c0
  else if fails 1 then .caught "删除图书失败" c0
  else
    match c0.working.books bookId with
    | none => .sent ⟨404, .error "图书不存在"⟩ c0.rollback.working
    | some row =>
      let coverUrl := row.cover_url
      if fails 2 then .caught "删除图书失败" c0
      else
        let c1 := c0.query fun w => { w with borrow := deleteBorrowByBook w.borrow bookId }
        if fails 3 then .caught "删除图书失败" c1
        else
          let c2 := c1.query fun w => { w with books := deleteBook w.books bookId }
          if fails 4 then .caught "删除图书失败" c2
          else
            let c3 := c2.commit
            if truthyUrl coverUrl && fails 5 then .caught "删除图书失败" c3
            else .sent ⟨200, .message "图书已删除"⟩ c3.working

end booksController

/-! ## Two transactions of `borrow.create` side by side -/

namespace borrowController

/-- Where a transaction of `create` (lines 106-147) stands: the storage call it
issues next, with the values the handler holds at that point. -/
inductive Pc where
  /-- Before `connection.beginTransaction()`. -/
  | start
  /-- Before `SELECT available_count FROM books WHERE id = ? FOR UPDATE`. -/
  | began
  /-- No row was found: before the `rollback` of the 404 branch. -/
  | missing
  /-- The row is locked and `available <= 0`: before the `rollback` of the 400
  branch. -/
  | exhausted
  /-- The row is locked and `available` was read: before the INSERT. -/
  | selected (available : Int)
  /-- Before the UPDATE of `books`. -/
  | inserted (available : Int) (insertId : Nat)
  /-- Before `connection.commit()`. -/
  | updated (available : Int) (insertId : Nat)
  /-- The answer was sent. -/
  | done (r : Response)
deriving DecidableEq

/-- One transaction of `create`: the title and the borrower that `resolve`
gave, the reading of `NOW()` of its INSERT, and where it stands. -/
structure Tx where
  bookId : Nat
  userId : Nat
  now : Nat
  pc : Pc

/-- Whether the transaction holds the lock on the row of title `t`: from the
`SELECT ... FOR UPDATE` that found the row to its `commit` or `rollback`. -/
def Tx.holds (x : Tx) (t : Nat) : Bool :=
  decide (x.bookId = t) &&
    match x.pc with
    | .exhausted => true
    | .selected _ => true
    | .inserted _ _ => true
    | .updated _ _ => true
    | _ => false

/-- The answer the transaction has sent, if any. -/
def Tx.answer (x : Tx) : Option Response :=
  match x.pc with
  | .done r => some r
  | _ => none

/-- The next storage call of transaction `me`, issued next to transaction
`other` on the committed tables `db`: the tables and the transaction after the
call, or `none` when `me` has sent its answer or waits for a row lock.  The
SELECT reads the committed row; the INSERT takes its AUTO_INCREMENT value at
once; the rows written reach `db` at `commit`. -/
def Tx.step (db : State) (other me : Tx) : Option (State × Tx) :=
  match me.pc with
  | .start => some (db, { me with pc := .began })
  | .began =>
    if other.holds me.bookId then none
    else
      match db.books me.bookId with
      | none => some (db, { me with pc := .missing })
      | some book =>
        let available := book.available_count
        if available ≤ 0 then some (db, { me with pc := .exhausted })
        else some (db, { me with pc := .selected available })
  | .missing => some (db, { me with pc := .done ⟨404, .error "图书不存在"⟩ })
  | .exhausted => some (db, { me with pc := .done ⟨400, .error "该书库存不足"⟩ })
  | .selected available =>
    let insertId := db.borrowSeq + 1
    some ({ db with borrowSeq := insertId }, { me with pc := .inserted available insertId })
  | .inserted available insertId => some (db, { me with pc := .updated available insertId })
  | .updated available insertId =>
    let newAvailable := available - 1
    some
      ({ db with
          borrow := db.borrow ++
            [{ id := insertId, book_id := me.bookId, user_id := me.userId,
               borrow_date := me.now, return_date := none, status := "借出" }]
          books := updateBookCounts db.books me.bookId newAvailable (stockStatus newAvailable) },
        { me with
          pc := .done ⟨201, .borrowCreated (if insertId = 0 then none else some insertId)⟩ })
  | .done _ => none

/-- Two transactions of `create` in flight and the committed tables. -/
structure World where
  db : State
  first : Tx
  second : Tx

/-- The scheduler lets one of the two transactions issue its next storage
call: the second one when `second` is true. -/
def World.step (w : World) (second : Bool) : Option World :=
  if second then
    (Tx.step w.db w.first w.second).map fun p => { w with db := p.1, second := p.2 }
  else
    (Tx.step w.db w.second w.first).map fun p => { w with db := p.1, first := p.2 }

/-- Whether `schedule` is an interleaving of the two transactions from `w`:
every transaction it picks can issue its next call. -/
def World.admits (w : World) : List Bool → Bool
  | [] => true
  | second :: schedule =>
    match w.step second with
    | none => false
    | some w' => w'.admits schedule

/-- The tables and transactions after the calls of `schedule`. -/
def World.run (w : World) : List Bool → World
  | [] => w
  | second :: schedule =>
    match w.step second with
    | none => w
    | some w' => w'.run schedule

/-- Two requests of `create` that `resolve` turned into `(t, u₁)` and
`(t, u₂)` arrive together in state `s`. -/
def concurrentCreate (s : State) (t u₁ now₁ u₂ now₂ : Nat) : World :=
  ⟨s, ⟨t, u₁, now₁, .start⟩, ⟨t, u₂, now₂, .start⟩⟩

end borrowController

/-! ### Shapes of the runs of two borrows of a last copy -/

/-- Where a transaction stands, the values it holds left out. -/
inductive Stage where
  | start | began | exhausted | selected | inserted | updated | won | lost
deriving DecidableEq, Fintype

namespace Stage

/-- The stage holds the row lock. -/
def holds : Stage → Bool
  | exhausted | selected | inserted | updated => true
  | _ => false

/-- The next call of a transaction at stage `me` next to one at stage `other`,
on a title that had one copy left. -/
def step (other me : Stage) : Option Stage :=
  match me with
  | start => some began
  | began => if other.holds then none else if other = won then some exhausted else some selected
  | exhausted => some lost
  | selected => some inserted
  | inserted => some updated
  | updated => some won
  | won => none
  | lost => none

/-- Number of calls issued to reach the stage. -/
def rank : Stage → Nat
  | start => 0
  | began => 1
  | exhausted => 2
  | selected => 2
  | inserted => 3
  | updated => 4
  | won => 5
  | lost => 3

/-- The stages two borrows of a last copy can be in together. -/
def reachable (a b : Stage) : Bool :=
  let early (x : Stage) : Bool := x = start || x = began
  let writing (x : Stage) : Bool := x = selected || x = inserted || x = updated
  let late (x : Stage) : Bool := x = exhausted || x = lost
  (early a && (early b || writing b || b = won)) || (writing a && early b) ||
    (a = won && (early b || late b)) || (late a && b = won)

/-- The scheduler step on a pair of stages. -/
def stepPair (x : Stage × Stage) (second : Bool) : Option (Stage × Stage) :=
  if second then (step x.1 x.2).map fun b => (x.1, b)
  else (step x.2 x.1).map fun a => (a, x.2)

/-- The transaction at stage `x`, for a title that had one copy left and the
AUTO_INCREMENT value `seq` before the race. -/
def pc (seq : Nat) : Stage → borrowController.Pc
  | start => .start
  | began => .began
  | exhausted => .exhausted
  | selected => .selected 1
  | inserted => .inserted 1 (seq + 1)
  | updated => .updated 1 (seq + 1)
  | won => .done ⟨201, .borrowCreated (if seq + 1 = 0 then none else some (seq + 1))⟩
  | lost => .done ⟨400, .error "该书库存不足"⟩

/-- The tables when the two transactions are at stages `a` and `b`. -/
def db (s : State) (t u₁ now₁ u₂ now₂ : Nat) (a b : Stage) : State :=
  let s1 : State := { s with borrowSeq := s.borrowSeq + 1 }
  let committed (u now : Nat) : State :=
    { s1 with
      borrow := s1.borrow ++ [⟨s.borrowSeq + 1, t, u, now, none, "借出"⟩]
      books := updateBookCounts s1.books t (1 - 1) (stockStatus (1 - 1)) }
  if a = won then committed u₁ now₁
  else if b = won then committed u₂ now₂
  else if a = inserted ∨ a = updated ∨ b = inserted ∨ b = updated then s1
  else s

/-- The world when the two transactions are at stages `x.1` and `x.2`. -/
def world (s : State) (t u₁ now₁ u₂ now₂ : Nat) (x : Stage × Stage) : borrowController.World :=
  ⟨db s t u₁ now₁ u₂ now₂ x.1 x.2, ⟨t, u₁, now₁, pc s.borrowSeq x.1⟩,
    ⟨t, u₂, now₂, pc s.borrowSeq x.2⟩⟩

end Stage

/-! ## Title normalisation -/

namespace booksController

/-- The characters `String.prototype.trim` strips: the white space and line
terminator code points of ECMAScript. -/
def isWhiteSpace (c : Char) : Bool :=
  let n := c.toNat
  n = 0x9 || n = 0xA || n = 0xB || n = 0xC || n = 0xD || n = 0x20 || n = 0xA0 ||
  n = 0x1680 || (0x2000 ≤ n && n ≤ 0x200A) || n = 0x2028 || n = 0x2029 ||
  n = 0x202F || n = 0x205F || n = 0x3000 || n = 0xFEFF

/-- The method `trim` on the characters of a string. -/
def trim (cs : List Char) : List Char :=
  (cs.dropWhile isWhiteSpace).rdropWhile isWhiteSpace

/-- The function `wrapTitle` on the characters of `String(value || "")`. -/
def wrapTitleChars (value : List Char) : List Char :=
  let raw := trim value
  if raw = [] then []
  else
    let inner := raw
    let inner := if inner.head? = some '《' then inner.tail else inner
    let inner := if inner.getLast? = some '》' then inner.dropLast else inner
    let inner := trim inner
    if inner = [] then [] else '《' :: (inner ++ ['》'])

/-- The function `wrapTitle` of `booksController.js`. -/
def wrapTitle (value : String) : String := String.mk (wrapTitleChars value.data)

end booksController

/-! ## Sequences of operations -/

/-- One operation of the lending engine with its arguments. -/
inductive Op where
  /-- Borrow: `borrow.create`. -/
  | borrow (now : Nat) (req : borrowController.CreateReq)
  /-- Return: `borrow.return`. -/
  | giveBack (now : Nat) (borrowId : Option Nat)
  /-- AdminDeleteLoan: `borrow.remove`. -/
  | adminDeleteLoan (borrowId : Option Nat)
  /-- CascadeDeleteTitle: `books.remove`. -/
  | cascadeDeleteTitle (bookId : Nat) (removeThrows : Bool)
  /-- CascadeDeleteBorrower: `users.remove`. -/
  | cascadeDeleteBorrower (now : Nat) (caller : Option AuthUser) (userId : Nat)

/-- The state an operation leaves. -/
def Op.apply (s : State) : Op → State
  | .borrow now req => (borrowController.create s now req).2
  | .giveBack now borrowId => (borrowController.«return» s now borrowId).2
  | .adminDeleteLoan borrowId => (borrowController.remove s borrowId).2
  | .cascadeDeleteTitle bookId removeThrows =>
    (booksController.remove s bookId removeThrows).2
  | .cascadeDeleteBorrower now caller userId =>
    (usersController.remove s now caller userId).2

/-- The state a sequence of operations leaves. -/
def run (s : State) (ops : List Op) : State := ops.foldl Op.apply s

/-! ## Vocabulary of the specification -/

/-- A loan is OPEN when its status is `'借出'`. -/
def Loan.isOpen (l : Loan) : Prop := l.status = "借出"

/-- A loan is CLOSED when its status is `'已还'`. -/
def Loan.isClosed (l : Loan) : Prop := l.status = "已还"

instance (l : Loan) : Decidable l.isOpen := by unfold Loan.isOpen; infer_instance

instance (l : Loan) : Decidable l.isClosed := by unfold Loan.isClosed; infer_instance

/-- Number of OPEN loans that reference title `t`. -/
def openLoans (s : State) (t : Nat) : Nat :=
  s.borrow.countP fun l => l.book_id = t ∧ l.status = "借出"

/-- Every title has `available_copies = total_copies - (OPEN loans on it)`. -/
def Accounting (s : State) : Prop :=
  ∀ t b, s.books t = some b → b.available_count = b.total_count - (openLoans s t : Int)

/-- Every title has `0 ≤ available_copies ≤ total_copies`. -/
def InRange (s : State) : Prop :=
  ∀ t b, s.books t = some b → 0 ≤ b.available_count ∧ b.available_count ≤ b.total_count

/-- The column `borrow.id` is a primary key: no two rows share an id. -/
def PrimaryKey (s : State) : Prop := (s.borrow.map fun l => l.id).Nodup

/-- Every loan is OPEN or CLOSED: the two values the handlers ever store in
`borrow.status`. -/
def StatusTyped (s : State) : Prop := ∀ l ∈ s.borrow, l.isOpen ∨ l.isClosed

/-- The shape every stored state has: `borrow.id` is a primary key, every loan
is OPEN or CLOSED, and no id exceeds the last AUTO_INCREMENT value. -/
def WellFormed (s : State) : Prop :=
  PrimaryKey s ∧ StatusTyped s ∧ ∀ l ∈ s.borrow, l.id ≤ s.borrowSeq

/-- The row `restoreCopy` writes back for a title whose row was `b`: one
availability-restoring increment, clamped to `total_count`. -/
def Book.restored (b : Book) : Book :=
  { b with
    available_count := min (b.available_count + 1) b.total_count
    status := stockStatus (min (b.available_count + 1) b.total_count) }

/-- Every loan references an existing title. -/
def TitleRefs (s : State) : Prop := ∀ l ∈ s.borrow, (s.books l.book_id).isSome = true

/-- Every loan references an existing borrower. -/
def BorrowerRefs (s : State) : Prop := ∀ l ∈ s.borrow, (s.users l.user_id).isSome = true

instance (s : State) : Decidable (TitleRefs s) := by unfold TitleRefs; infer_instance

instance (s : State) : Decidable (BorrowerRefs s) := by unfold BorrowerRefs; infer_instance

/-- The status of a title row is derived from its available count:
ALL_LOANED (`'已借出'`) when it is 0, IN_STOCK (`'在馆'`) otherwise. -/
def DerivedStatus (b : Book) : Prop :=
  b.status = if b.available_count = 0 then "已借出" else "在馆"

/-- Every loan has `return_date` non-null exactly when it is CLOSED. -/
def DatesTyped (s : State) : Prop :=
  ∀ l ∈ s.borrow, (l.return_date ≠ none ↔ l.isClosed)

/-- Every loan that has a `return_date` has it at or after its `borrow_date`. -/
def Chronological (s : State) : Prop :=
  ∀ l ∈ s.borrow, ∀ d, l.return_date = some d → l.borrow_date ≤ d

/-- The clock reading `now` is not before the `borrow_date` of any loan. -/
def ClockAfter (s : State) (now : Nat) : Prop := ∀ l ∈ s.borrow, l.borrow_date ≤ now

/-- Typed failure `Unauthorized`: the middlewares answer 401 or 403. -/
def Unauthorized (r : Response) : Prop := r.status = 401 ∨ r.status = 403

instance (r : Response) : Decidable (Unauthorized r) := by unfold Unauthorized; infer_instance

/-- Two states hold the same titles, loans and borrowers. -/
def SameTables (s s' : State) : Prop :=
  s'.books = s.books ∧ s'.borrow = s.borrow ∧ s'.users = s.users

/-- A run with faults, started in `s`, agrees with what the handler does when
nothing throws: if a storage call threw, the answer is 500 and the titles,
loans and borrowers are those of `s`; if none threw, the answer and the state
are the handler's. -/
def Run.Refines (r : Run) (s : State) (plain : Response × State) : Prop :=
  (r.threw = true → r.response.status = 500 ∧ SameTables s r.state) ∧
  (r.threw = false → (r.response, r.state) = plain)

/-- The form value denotes an integer of magnitude at most `2^53`, the range in
which every integer is a double, or denotes no number. -/
def booksController.Field.IsSafe : booksController.Field → Prop
  | .num q => ∃ n : ℤ, q = n ∧ |n| ≤ 2 ^ 53
  | _ => True

/-- The integer a form value denotes, if it denotes one (`Number('')` is 0). -/
def booksController.Field.toInt : booksController.Field → Option Int
  | .empty => some 0
  | .num q => if q.den = 1 then some q.num else none
  | _ => none

/-- Lines 269-272 of `update` read over the integers: the total for a form
value that denotes an integer. -/
def booksController.exactTotal (current : Book) (total_count : booksController.Field) : Int :=
  match total_count.toInt with
  | some parsedTotal => if parsedTotal > 0 then parsedTotal else current.total_count
  | none => current.total_count

/-- Lines 274-289 of `update` read over the integers. -/
def booksController.exactAvailable (current : Book) (available_count : booksController.Field)
    (total : Int) : Int :=
  let borrowedCount := max (current.total_count - current.available_count) 0
  let minAvailable := max (total - borrowedCount) 0
  if available_count ≠ .undefined then
    let available :=
      match available_count.toInt with
      | some parsedAvailable => parsedAvailable
      | none => current.available_count
    max minAvailable (min total available)
  else
    min total minAvailable

/-- The Number is an integer, or is not finite. -/
def JsNumber.IsIntegral : JsNumber → Prop
  | .fin q => q.den = 1
  | _ => True

/-- The form value denotes an integer, or denotes no number. -/
def booksController.Field.IsIntegral : booksController.Field → Prop
  | .num q => q.den = 1
  | _ => True

/-- Typed failure `NotFound`: the handlers answer 404. -/
def NotFound (r : Response) : Prop := r.status = 404

/-- Typed failure `OutOfStock`: the 400 answer of `borrow.create` on an
exhausted title. -/
def OutOfStock (r : Response) : Prop := r = ⟨400, .error "该书库存不足"⟩

/-- Typed failure `AlreadyClosed`: the 400 answer of `borrow.return` on a
returned loan. -/
def AlreadyClosed (r : Response) : Prop := r = ⟨400, .error "该记录已归还"⟩

instance (r : Response) : Decidable (NotFound r) := by unfold NotFound; infer_instance

instance (r : Response) : Decidable (OutOfStock r) := by unfold OutOfStock; infer_instance

instance (r : Response) : Decidable (AlreadyClosed r) := by unfold AlreadyClosed; infer_instance

/-- Title status IN_STOCK. -/
def IN_STOCK : String := "在馆"

/-- Title status ALL_LOANED. -/
def ALL_LOANED : String := "已借出"

/-- A sequence of `borrow.create` calls, each with its own clock reading, run
one after the other: the answers in order and the final state. -/
def createMany (s : State) : List (Nat × borrowController.CreateReq) → List Response × State
  | [] => ([], s)
  | (now, req) :: calls =>
    let r := borrowController.create s now req
    let rs := createMany r.2 calls
    (r.1 :: rs.1, rs.2)

/-! ## Sample data -/

/-- A request of a plain user `u` for title `t`. -/
def userReq (u t : Nat) : borrowController.CreateReq :=
  { user := some ⟨u, "user"⟩, user_id := none, book_id := some t }

/-- A catalogue with title 1 (3 copies, 2 available) and title 2 (3 copies,
none available).  User 7 holds the OPEN loans 1 (title 1) and 2 (title 2) and
the CLOSED loan 3 (title 1); user 8 holds the OPEN loans 4 and 5 (title 2). -/
def sampleState : State where
  books := fun i =>
    if i = 1 then some ⟨3, 2, "在馆", none⟩
    else if i = 2 then some ⟨3, 0, "已借出", some "/uploads/books/2.jpg"⟩
    else none
  borrow :=
    [ ⟨1, 1, 7, 10, none, "借出"⟩,
      ⟨2, 2, 7, 11, none, "借出"⟩,
      ⟨3, 1, 7, 12, some 13, "已还"⟩,
      ⟨4, 2, 8, 14, none, "借出"⟩,
      ⟨5, 2, 8, 15, none, "借出"⟩ ]
  borrowSeq := 5
  users := fun i => if i = 7 ∨ i = 8 ∨ i = 9 then some ⟨"user"⟩ else none

/-- A catalogue whose only title, 1, has three copies, all available, and no
loan yet. -/
def threeCopies : State where
  books := fun i => if i = 1 then some ⟨3, 3, "在馆", none⟩ else none
  borrow := []
  borrowSeq := 0
  users := fun i => if i = 7 ∨ i = 8 ∨ i = 9 then some ⟨"user"⟩ else none

/-- Three borrow calls on title 1 of `threeCopies`, by users 7, 8 and 7 again. -/
def threeCalls : List (Nat × borrowController.CreateReq) :=
  [(1, userReq 7 1), (2, userReq 8 1), (3, userReq 7 1)]

/-- A catalogue with title 1 only and an OPEN loan of user 7 on title 5, which
does not exist. -/
def orphanState : State where
  books := fun i => if i = 1 then some ⟨3, 3, "在馆", none⟩ else none
  borrow := [⟨1, 5, 7, 10, none, "借出"⟩]
  borrowSeq := 1
  users := fun i => if i = 7 then some ⟨"user"⟩ else none

/-- A catalogue whose only title, 1, has one copy, available, and no loan. -/
def lastCopy : State where
  books := fun i => if i = 1 then some ⟨1, 1, "在馆", none⟩ else none
  borrow := []
  borrowSeq := 0
  users := fun i => if i = 7 ∨ i = 8 then some ⟨"user"⟩ else none

/-! ## Properties -/

section Helpers

open borrowController

theorem resolve_userReq (u t : Nat) (hu : u ≠ 0) (ht : t ≠ 0) :
    resolve (userReq u t) = .ok (t, u) := by
  simp [resolve, userReq, truthy, hu, ht]

theorem create_of_resolve {req : CreateReq} {t u : Nat} (h : resolve req = .ok (t, u))
    (s : State) (now : Nat) : create s now req = createTx s now t u := by
  simp [create, h]

theorem restoreCopy_self (books : Nat → Option Book) (t : Nat) (b : Book)
    (hb : books t = some b) :
    restoreCopy books t b t =
      some { b with
        available_count := min (b.available_count + 1) b.total_count
        status := stockStatus (min (b.available_count + 1) b.total_count) } := by
  simp [restoreCopy, updateBookCounts, hb]

theorem restoreCopy_other (books : Nat → Option Book) (t t' : Nat) (b : Book)
    (h : t' ≠ t) : restoreCopy books t b t' = books t' := by
  simp [restoreCopy, updateBookCounts, h]

theorem restoreCopy_inRange (books : Nat → Option Book) (t : Nat) (b : Book)
    (hb : books t = some b)
    (h : ∀ i c, books i = some c → 0 ≤ c.available_count ∧ c.available_count ≤ c.total_count) :
    ∀ i c, restoreCopy books t b i = some c →
      0 ≤ c.available_count ∧ c.available_count ≤ c.total_count := by
  intro i c hc
  by_cases hi : i = t
  · subst hi
    rw [restoreCopy_self books i b hb] at hc
    cases hc
    have := h i b hb
    simp only
    omega
  · rw [restoreCopy_other books t i b hi] at hc
    exact h i c hc

theorem autoReturn_inRange (now : Nat) (s : State) (r : Loan) (h : InRange s) :
    InRange (usersController.autoReturn now s r) := by
  unfold usersController.autoReturn
  simp only
  split
  · next book hb => exact restoreCopy_inRange _ _ _ hb h
  · exact h

theorem foldl_autoReturn_inRange (now : Nat) (rows : List Loan) (s : State) (h : InRange s) :
    InRange (rows.foldl (usersController.autoReturn now) s) := by
  induction rows generalizing s with
  | nil => exact h
  | cons r rows ih => exact ih _ (autoReturn_inRange now s r h)

theorem createTx_inRange (s : State) (now t u : Nat) (h : InRange s) :
    InRange (createTx s now t u).2 := by
  unfold createTx
  split
  · exact h
  · next book hb =>
    simp only
    split
    · exact h
    · next hav =>
      intro i c hc
      simp only [updateBookCounts] at hc
      by_cases hi : i = t
      · subst hi
        simp only [if_true, hb, Option.map_some', Option.some.injEq] at hc
        subst hc
        have := h i book hb
        simp only
        omega
      · simp only [hi, if_false] at hc
        exact h i c hc

theorem create_inRange (s : State) (now : Nat) (req : CreateReq) (h : InRange s) :
    InRange (create s now req).2 := by
  unfold create
  split
  · exact h
  · exact createTx_inRange s now _ _ h

theorem return_inRange (s : State) (now : Nat) (id : Option Nat) (h : InRange s) :
    InRange («return» s now id).2 := by
  unfold «return»
  split
  · exact h
  · split
    · exact h
    · simp only
      split
      · exact h
      · split
        · exact h
        · next book hb => exact restoreCopy_inRange _ _ _ hb h

theorem remove_inRange (s : State) (id : Option Nat) (h : InRange s) :
    InRange (remove s id).2 := by
  unfold remove
  split
  · exact h
  · split
    · exact h
    · simp only
      split
      · split
        · next book hb => exact restoreCopy_inRange _ _ _ hb h
        · exact h
      · exact h

theorem usersRemove_inRange (s : State) (now : Nat) (caller : Option AuthUser) (u : Nat)
    (h : InRange s) : InRange (usersController.remove s now caller u).2 := by
  unfold usersController.remove
  split
  · exact h
  · split
    · exact h
    · exact foldl_autoReturn_inRange now _ s h

theorem createTx_success (s : State) (now t u : Nat) (b : Book)
    (hb : s.books t = some b) (hav : 0 < b.available_count) :
    createTx s now t u =
      (⟨201, .borrowCreated (some (s.borrowSeq + 1))⟩,
        { books := updateBookCounts s.books t (b.available_count - 1)
            (stockStatus (b.available_count - 1))
          borrow := s.borrow ++ [⟨s.borrowSeq + 1, t, u, now, none, "借出"⟩]
          borrowSeq := s.borrowSeq + 1
          users := s.users }) := by
  have hna : ¬ b.available_count ≤ 0 := by omega
  simp [createTx, hb, hna]

theorem createTx_notFound (s : State) (now t u : Nat) (hb : s.books t = none) :
    createTx s now t u = (⟨404, .error "图书不存在"⟩, s) := by
  simp [createTx, hb]

theorem createTx_outOfStock (s : State) (now t u : Nat) (b : Book)
    (hb : s.books t = some b) (hav : b.available_count ≤ 0) :
    createTx s now t u = (⟨400, .error "该书库存不足"⟩, s) := by
  simp [createTx, hb, hav]

theorem resolve_error_status (req : CreateReq) (r : Response) (h : resolve req = .error r) :
    r = ⟨400, .error "图书ID为必填项"⟩ ∨ r = ⟨400, .error "无法识别借阅用户"⟩ := by
  unfold resolve at h
  simp only at h
  split_ifs at h <;> cases h <;> simp

theorem markReturned_ids (L : List Loan) (now x : Nat) :
    (markReturned L now x).map (fun l => l.id) = L.map fun l => l.id := by
  induction L with
  | nil => rfl
  | cons a L ih =>
    simp only [markReturned, List.map_cons] at ih ⊢
    rw [ih]
    by_cases ha : a.id = x <;> simp [ha]

theorem markReturned_absent (L : List Loan) (now x : Nat) (h : ∀ l ∈ L, l.id ≠ x) :
    markReturned L now x = L := by
  induction L with
  | nil => rfl
  | cons a L ih =>
    have ha : a.id ≠ x := h a (List.mem_cons_self _ _)
    have ih' := ih fun l hl => h l (List.mem_cons_of_mem _ hl)
    simp only [markReturned, List.map_cons] at ih' ⊢
    rw [ih']
    simp [ha]

theorem mem_markReturned_of_ne (L : List Loan) (now x : Nat) (l : Loan) (hl : l ∈ L)
    (hne : l.id ≠ x) : l ∈ markReturned L now x := by
  unfold markReturned
  rw [List.mem_map]
  exact ⟨l, hl, by simp [hne]⟩

theorem deleteBorrowById_absent (L : List Loan) (x : Nat) (h : ∀ l ∈ L, l.id ≠ x) :
    deleteBorrowById L x = L := by
  unfold deleteBorrowById
  rw [List.filter_eq_self]
  intro l hl
  simpa using h l hl

theorem ne_of_nodup_cons (a r : Loan) (L : List Loan)
    (hnd : ((a :: L).map fun l => l.id).Nodup) (hr : r ∈ L) : a.id ≠ r.id := by
  rw [List.map_cons, List.nodup_cons] at hnd
  intro h
  exact hnd.1 (h ▸ List.mem_map_of_mem (fun l => l.id) hr)

/-- Closing the OPEN row `r` by its id removes exactly one OPEN loan, on the
title `r` references. -/
theorem countP_markReturned (L : List Loan) (now t : Nat) (r : Loan)
    (hnd : (L.map fun l => l.id).Nodup) (hr : r ∈ L) (hopen : r.status = "借出") :
    (markReturned L now r.id).countP (fun l => l.book_id = t ∧ l.status = "借出")
        + (if r.book_id = t then 1 else 0)
      = L.countP fun l => l.book_id = t ∧ l.status = "借出" := by
  induction L with
  | nil => cases hr
  | cons a L ih =>
    have hnd' : (L.map fun l => l.id).Nodup := by
      rw [List.map_cons, List.nodup_cons] at hnd
      exact hnd.2
    rcases List.mem_cons.mp hr with rfl | hr'
    · have habs : ∀ l ∈ L, l.id ≠ r.id := fun l hl h =>
        ne_of_nodup_cons r l L hnd hl h.symm
      have htail : markReturned L now r.id = L := markReturned_absent L now r.id habs
      have hcons : markReturned (r :: L) now r.id
          = { r with return_date := some now, status := "已还" } :: markReturned L now r.id := by
        simp [markReturned]
      rw [hcons, htail, List.countP_cons, List.countP_cons]
      by_cases hbt : r.book_id = t <;> simp [hbt, hopen]
    · have hne : a.id ≠ r.id := ne_of_nodup_cons a r L hnd hr'
      have hcons : markReturned (a :: L) now r.id = a :: markReturned L now r.id := by
        simp [markReturned, hne]
      rw [hcons, List.countP_cons, List.countP_cons, ← ih hnd' hr']
      omega

/-- Deleting the row `r` by its id removes one OPEN loan on the title `r`
references when `r` is OPEN, and none otherwise. -/
theorem countP_deleteBorrowById (L : List Loan) (t : Nat) (r : Loan)
    (hnd : (L.map fun l => l.id).Nodup) (hr : r ∈ L) :
    (deleteBorrowById L r.id).countP (fun l => l.book_id = t ∧ l.status = "借出")
        + (if r.book_id = t ∧ r.status = "借出" then 1 else 0)
      = L.countP fun l => l.book_id = t ∧ l.status = "借出" := by
  induction L with
  | nil => cases hr
  | cons a L ih =>
    have hnd' : (L.map fun l => l.id).Nodup := by
      rw [List.map_cons, List.nodup_cons] at hnd
      exact hnd.2
    rcases List.mem_cons.mp hr with rfl | hr'
    · have habs : ∀ l ∈ L, l.id ≠ r.id := fun l hl h =>
        ne_of_nodup_cons r l L hnd hl h.symm
      have htail : deleteBorrowById L r.id = L := deleteBorrowById_absent L r.id habs
      have hcons : deleteBorrowById (r :: L) r.id = deleteBorrowById L r.id := by
        simp [deleteBorrowById]
      rw [hcons, htail, List.countP_cons]
      by_cases hp : r.book_id = t ∧ r.status = "借出" <;> simp [hp]
    · have hne : a.id ≠ r.id := ne_of_nodup_cons a r L hnd hr'
      have hcons : deleteBorrowById (a :: L) r.id = a :: deleteBorrowById L r.id := by
        simp [deleteBorrowById, hne]
      rw [hcons, List.countP_cons, List.countP_cons, ← ih hnd' hr']
      omega

theorem countP_deleteBorrowByBook (L : List Loan) (t t' : Nat) (h : t' ≠ t) :
    (deleteBorrowByBook L t).countP (fun l => l.book_id = t' ∧ l.status = "借出")
      = L.countP fun l => l.book_id = t' ∧ l.status = "借出" := by
  induction L with
  | nil => rfl
  | cons a L ih =>
    by_cases ha : a.book_id = t
    · have hnt : a.book_id ≠ t' := fun h' => h (h'.symm.trans ha)
      have hf : deleteBorrowByBook (a :: L) t = deleteBorrowByBook L t := by
        simp [deleteBorrowByBook, ha]
      rw [hf, ih, List.countP_cons]
      simp [hnt]
    · have hf : deleteBorrowByBook (a :: L) t = a :: deleteBorrowByBook L t := by
        simp [deleteBorrowByBook, ha]
      rw [hf, List.countP_cons, List.countP_cons, ih]

theorem selectBorrowById_head (L : List Loan) (x : Nat) (record : Loan) (rest : List Loan)
    (h : selectBorrowById L x = record :: rest) : record ∈ L ∧ record.id = x := by
  have hm : record ∈ selectBorrowById L x := by rw [h]; exact List.mem_cons_self _ _
  unfold selectBorrowById at hm
  rw [List.mem_filter] at hm
  exact ⟨hm.1, by simpa using hm.2⟩

theorem autoReturn_borrow (now : Nat) (s : State) (r : Loan) :
    (usersController.autoReturn now s r).borrow = markReturned s.borrow now r.id := by
  unfold usersController.autoReturn
  simp only
  split <;> rfl

theorem autoReturn_users (now : Nat) (s : State) (r : Loan) :
    (usersController.autoReturn now s r).users = s.users := by
  unfold usersController.autoReturn
  simp only
  split <;> rfl

theorem autoReturn_books_some (now : Nat) (s : State) (r : Loan) (book : Book)
    (hb : s.books r.book_id = some book) :
    (usersController.autoReturn now s r).books = restoreCopy s.books r.book_id book := by
  unfold usersController.autoReturn
  simp only [hb]

theorem autoReturn_books_none (now : Nat) (s : State) (r : Loan)
    (hb : s.books r.book_id = none) :
    (usersController.autoReturn now s r).books = s.books := by
  unfold usersController.autoReturn
  simp only [hb]

/-- The success branch of `borrow.return` leaves the state that one round of
the auto-return loop of `users.remove` leaves. -/
theorem return_eq_autoReturn (s : State) (now x : Nat) (record : Loan) (rest : List Loan)
    (book : Book) (hsel : selectBorrowById s.borrow x = record :: rest)
    (hst : record.status ≠ "已还") (hb : s.books record.book_id = some book) :
    «return» s now (some x) = (⟨200, .message "还书成功"⟩, usersController.autoReturn now s record) := by
  have hid : record.id = x := (selectBorrowById_head _ _ _ _ hsel).2
  unfold «return» usersController.autoReturn
  simp only [hsel, hst, if_false, hb, hid]

theorem accounting_autoReturn (now : Nat) (s : State) (r : Loan) (hpk : PrimaryKey s)
    (hr : r ∈ s.borrow) (hopen : r.status = "借出") (hacc : Accounting s) :
    Accounting (usersController.autoReturn now s r) := by
  intro t b hb
  have hcount : (openLoans (usersController.autoReturn now s r) t : Int)
      + (if r.book_id = t then 1 else 0) = openLoans s t := by
    have := countP_markReturned s.borrow now t r hpk hr hopen
    unfold openLoans
    rw [autoReturn_borrow]
    split_ifs at this ⊢ <;> omega
  cases hbook : s.books r.book_id with
  | none =>
    rw [autoReturn_books_none now s r hbook] at hb
    have hne : r.book_id ≠ t := by
      intro h
      rw [h] at hbook
      rw [hbook] at hb
      cases hb
    rw [if_neg hne] at hcount
    have := hacc t b hb
    omega
  | some book =>
    rw [autoReturn_books_some now s r book hbook] at hb
    by_cases ht : t = r.book_id
    · subst ht
      rw [restoreCopy_self _ _ _ hbook] at hb
      cases hb
      have := hacc _ book hbook
      rw [if_pos rfl] at hcount
      simp only
      omega
    · rw [restoreCopy_other _ _ _ _ ht] at hb
      rw [if_neg (Ne.symm ht)] at hcount
      have := hacc t b hb
      omega

theorem countP_append_open (L : List Loan) (l : Loan) (i : Nat) (hopen : l.status = "借出") :
    (L ++ [l]).countP (fun l => l.book_id = i ∧ l.status = "借出")
      = L.countP (fun l => l.book_id = i ∧ l.status = "借出")
        + (if l.book_id = i then 1 else 0) := by
  rw [List.countP_append, List.countP_cons, List.countP_nil]
  by_cases h : l.book_id = i <;> simp [h, hopen]

theorem accounting_createTx (s : State) (now t u : Nat) (hacc : Accounting s) :
    Accounting (createTx s now t u).2 := by
  cases hb : s.books t with
  | none => rw [createTx_notFound s now t u hb]; exact hacc
  | some b =>
    by_cases hav : b.available_count ≤ 0
    · rw [createTx_outOfStock s now t u b hb hav]; exact hacc
    · rw [createTx_success s now t u b hb (by omega)]
      intro i c hc
      have hcount := countP_append_open s.borrow ⟨s.borrowSeq + 1, t, u, now, none, "借出"⟩ i rfl
      simp only [openLoans] at hc ⊢
      rw [hcount]
      by_cases hi : i = t
      · subst hi
        simp only [updateBookCounts, if_true, hb, Option.map_some', Option.some.injEq] at hc
        subst hc
        have := hacc i b hb
        simp only [openLoans] at this
        simp only [if_true]
        omega
      · simp only [updateBookCounts, hi, if_false] at hc
        have := hacc i c hc
        simp only [openLoans] at this
        have hne : ¬ t = i := fun h => hi h.symm
        simp only [hne, if_false]
        omega

theorem accounting_return (s : State) (now : Nat) (id : Option Nat) (hpk : PrimaryKey s)
    (hty : StatusTyped s) (hacc : Accounting s) : Accounting («return» s now id).2 := by
  cases id with
  | none => exact hacc
  | some x =>
    cases hsel : selectBorrowById s.borrow x with
    | nil => simp only [«return», hsel]; exact hacc
    | cons record rest =>
      have hmem := (selectBorrowById_head _ _ _ _ hsel).1
      by_cases hst : record.status = "已还"
      · simp only [«return», hsel, hst, if_true]; exact hacc
      · cases hb : s.books record.book_id with
        | none => simp only [«return», hsel, hst, if_false, hb]; exact hacc
        | some book =>
          rw [return_eq_autoReturn s now x record rest book hsel hst hb]
          have hopen : record.status = "借出" := by
            rcases hty record hmem with h | h
            · exact h
            · exact absurd h hst
          exact accounting_autoReturn now s record hpk hmem hopen hacc

theorem accounting_remove (s : State) (id : Option Nat) (hpk : PrimaryKey s)
    (hacc : Accounting s) : Accounting (remove s id).2 := by
  cases id with
  | none => exact hacc
  | some x =>
    cases hsel : selectBorrowById s.borrow x with
    | nil => simp only [remove, hsel]; exact hacc
    | cons record rest =>
      obtain ⟨hmem, hid⟩ := selectBorrowById_head _ _ _ _ hsel
      subst hid
      have hcount := fun t => countP_deleteBorrowById s.borrow t record hpk hmem
      intro t b hb
      simp only [remove, hsel] at hb ⊢
      have hc := hcount t
      by_cases hopen : record.status = "借出"
      · simp only [hopen, decide_True, if_true] at hb ⊢
        simp only [hopen, and_true] at hc
        cases hbook : s.books record.book_id with
        | none =>
          simp only [hbook] at hb ⊢
          have hne : record.book_id ≠ t := by
            intro h
            rw [h] at hbook
            rw [hbook] at hb
            cases hb
          rw [if_neg hne] at hc
          have := hacc t b hb
          simp only [openLoans] at this ⊢
          omega
        | some book =>
          simp only [hbook] at hb ⊢
          by_cases ht : t = record.book_id
          · subst ht
            rw [restoreCopy_self _ _ _ hbook] at hb
            cases hb
            have := hacc _ book hbook
            rw [if_pos rfl] at hc
            simp only [openLoans] at this ⊢
            omega
          · rw [restoreCopy_other _ _ _ _ ht] at hb
            rw [if_neg (Ne.symm ht)] at hc
            have := hacc t b hb
            simp only [openLoans] at this ⊢
            omega
      · simp only [hopen, decide_False] at hb ⊢
        simp only [hopen, and_false, if_false] at hc
        have := hacc t b hb
        simp only [openLoans] at this ⊢
        simp only [Bool.false_eq_true, if_false] at hb ⊢
        omega

theorem accounting_foldl_autoReturn (now : Nat) (rows : List Loan) (s : State)
    (hpk : PrimaryKey s) (hrows : ∀ r ∈ rows, r ∈ s.borrow ∧ r.status = "借出")
    (hnd : (rows.map fun l => l.id).Nodup) (hacc : Accounting s) :
    Accounting (rows.foldl (usersController.autoReturn now) s) := by
  induction rows generalizing s with
  | nil => exact hacc
  | cons r rows ih =>
    obtain ⟨hr, hopen⟩ := hrows r (List.mem_cons_self _ _)
    rw [List.foldl_cons]
    apply ih
    · unfold PrimaryKey
      rw [autoReturn_borrow, markReturned_ids]
      exact hpk
    · intro r' hr'
      obtain ⟨hm, ho⟩ := hrows r' (List.mem_cons_of_mem _ hr')
      refine ⟨?_, ho⟩
      rw [autoReturn_borrow]
      exact mem_markReturned_of_ne _ _ _ _ hm (ne_of_nodup_cons r r' rows hnd hr').symm
    · rw [List.map_cons, List.nodup_cons] at hnd
      exact hnd.2
    · exact accounting_autoReturn now s r hpk hr hopen hacc

theorem selectOpenBorrowByUser_nodup (s : State) (u : Nat) (hpk : PrimaryKey s) :
    ((selectOpenBorrowByUser s.borrow u).map fun l => l.id).Nodup :=
  List.Nodup.sublist (List.Sublist.map _ (List.filter_sublist _)) hpk

theorem mem_selectOpenBorrowByUser (L : List Loan) (u : Nat) (r : Loan) :
    r ∈ selectOpenBorrowByUser L u ↔ r ∈ L ∧ r.user_id = u ∧ r.status = "借出" := by
  unfold selectOpenBorrowByUser
  rw [List.mem_filter]
  simp

theorem accounting_usersRemove (s : State) (now : Nat) (caller : Option AuthUser) (u : Nat)
    (hpk : PrimaryKey s) (hacc : Accounting s) :
    Accounting (usersController.remove s now caller u).2 := by
  unfold usersController.remove
  split
  · exact hacc
  · split
    · exact hacc
    · have h := accounting_foldl_autoReturn now (selectOpenBorrowByUser s.borrow u) s hpk
        (fun r hr => by
          rw [mem_selectOpenBorrowByUser] at hr
          exact ⟨hr.1, hr.2.2⟩)
        (selectOpenBorrowByUser_nodup s u hpk) hacc
      exact h

theorem accounting_booksRemove (s : State) (bookId : Nat) (removeThrows : Bool)
    (hacc : Accounting s) : Accounting (booksController.remove s bookId removeThrows).2 := by
  have key : ∀ s' : State, s'.borrow = deleteBorrowByBook s.borrow bookId →
      s'.books = deleteBook s.books bookId → Accounting s' := by
    intro s' hbor hbk t b hb
    rw [hbk] at hb
    unfold deleteBook at hb
    by_cases ht : t = bookId
    · simp [ht] at hb
    · simp only [ht, if_false] at hb
      have := hacc t b hb
      unfold openLoans at this ⊢
      rw [hbor, countP_deleteBorrowByBook _ _ _ ht]
      exact this
  unfold booksController.remove
  split
  · exact hacc
  · simp only
    split <;> exact key _ rfl rfl

theorem selectBorrowById_of_mem (s : State) (l : Loan) (hpk : PrimaryKey s)
    (hl : l ∈ s.borrow) : ∃ rest, selectBorrowById s.borrow l.id = l :: rest := by
  cases hsel : selectBorrowById s.borrow l.id with
  | nil =>
    have hm : l ∈ selectBorrowById s.borrow l.id := by
      unfold selectBorrowById
      rw [List.mem_filter]
      exact ⟨hl, by simp⟩
    rw [hsel] at hm
    cases hm
  | cons record rest =>
    obtain ⟨hmem, hid⟩ := selectBorrowById_head _ _ _ _ hsel
    have : record = l := List.inj_on_of_nodup_map hpk hmem hl hid
    exact ⟨rest, by rw [this]⟩

theorem selectBorrowById_markReturned (L : List Loan) (now x : Nat) :
    selectBorrowById (markReturned L now x) x
      = (selectBorrowById L x).map fun l =>
          { l with return_date := some now, status := "已还" } := by
  induction L with
  | nil => rfl
  | cons a L ih =>
    unfold selectBorrowById markReturned at ih ⊢
    by_cases ha : a.id = x
    · simp [List.filter_cons, ha, ih]
    · simp [List.filter_cons, ha, ih]

theorem mem_markReturned_closed (L : List Loan) (now x : Nat) (r : Loan)
    (hr : r ∈ markReturned L now x) (hid : r.id = x) :
    r.status = "已还" ∧ r.return_date = some now := by
  unfold markReturned at hr
  rw [List.mem_map] at hr
  obtain ⟨a, _, ha⟩ := hr
  by_cases hax : a.id = x
  · rw [if_pos hax] at ha
    subst ha
    exact ⟨rfl, rfl⟩
  · rw [if_neg hax] at ha
    subst ha
    exact absurd hid hax

theorem mem_deleteBorrowById (L : List Loan) (x : Nat) (r : Loan) :
    r ∈ deleteBorrowById L x ↔ r ∈ L ∧ r.id ≠ x := by
  unfold deleteBorrowById
  rw [List.mem_filter]
  simp

theorem return_success_of (s : State) (now : Nat) (borrowId : Option Nat)
    (h : («return» s now borrowId).1.status = 200) :
    ∃ x record rest book, borrowId = some x ∧
      selectBorrowById s.borrow x = record :: rest ∧ record.status ≠ "已还" ∧
      s.books record.book_id = some book := by
  cases borrowId with
  | none => simp [«return»] at h
  | some x =>
    cases hsel : selectBorrowById s.borrow x with
    | nil => simp [«return», hsel] at h
    | cons record rest =>
      by_cases hst : record.status = "已还"
      · simp [«return», hsel, hst] at h
      · cases hb : s.books record.book_id with
        | none => simp [«return», hsel, hst, hb] at h
        | some book => exact ⟨x, record, rest, book, rfl, hsel, hst, hb⟩

theorem remove_of_select (s : State) (x : Nat) (record : Loan) (rest : List Loan)
    (hsel : selectBorrowById s.borrow x = record :: rest) :
    (remove s (some x)).1 = ⟨200, .message "借阅记录已删除"⟩ ∧
    (remove s (some x)).2.borrow = deleteBorrowById s.borrow x ∧
    (remove s (some x)).2.users = s.users ∧
    (remove s (some x)).2.books =
      if record.status = "借出" then
        match s.books record.book_id with
        | some book => restoreCopy s.books record.book_id book
        | none => s.books
      else s.books := by
  simp only [remove, hsel]
  by_cases hopen : record.status = "借出"
  · simp only [hopen, decide_True, if_true]
    cases hb : s.books record.book_id <;> simp
  · simp [hopen]

theorem autoReturn_books_apply (now : Nat) (s : State) (r : Loan) (t : Nat) :
    (usersController.autoReturn now s r).books t
      = if r.book_id = t then (s.books t).map Book.restored else s.books t := by
  cases hb : s.books r.book_id with
  | none =>
    rw [autoReturn_books_none now s r hb]
    by_cases ht : r.book_id = t
    · rw [if_pos ht, ← ht, hb]; rfl
    · rw [if_neg ht]
  | some book =>
    rw [autoReturn_books_some now s r book hb]
    by_cases ht : r.book_id = t
    · rw [if_pos ht, ← ht, restoreCopy_self _ _ _ hb, hb]; rfl
    · rw [if_neg ht, restoreCopy_other _ _ _ _ (Ne.symm ht)]

theorem foldl_autoReturn_books (now : Nat) (rows : List Loan) (s : State) (t : Nat) :
    (rows.foldl (usersController.autoReturn now) s).books t
      = (s.books t).map (Book.restored^[rows.countP fun l => l.book_id = t]) := by
  induction rows generalizing s with
  | nil => simp
  | cons r rows ih =>
    rw [List.foldl_cons, ih, autoReturn_books_apply, List.countP_cons]
    by_cases ht : r.book_id = t
    · simp only [ht, decide_True, if_true, Option.map_map, Function.iterate_succ]
    · simp only [ht, decide_False, if_false, Bool.false_eq_true, Nat.add_zero]

theorem foldl_autoReturn_users (now : Nat) (rows : List Loan) (s : State) :
    (rows.foldl (usersController.autoReturn now) s).users = s.users := by
  induction rows generalizing s with
  | nil => rfl
  | cons r rows ih => rw [List.foldl_cons, ih, autoReturn_users]

theorem foldl_autoReturn_borrow (now : Nat) (rows : List Loan) (s : State) :
    (rows.foldl (usersController.autoReturn now) s).borrow
      = s.borrow.map fun l =>
          if l.id ∈ rows.map (fun r => r.id) then
            { l with return_date := some now, status := "已还" }
          else l := by
  induction rows generalizing s with
  | nil => simp
  | cons r rows ih =>
    rw [List.foldl_cons, ih, autoReturn_borrow, markReturned, List.map_map]
    apply List.map_congr_left
    intro l _
    simp only [Function.comp, List.map_cons, List.mem_cons]
    by_cases h1 : l.id = r.id
    · simp only [h1, if_true, true_or]
      split <;> rfl
    · simp only [h1, if_false, false_or]

theorem iterate_restored (n : Nat) (b : Book) (h : b.available_count ≤ b.total_count) :
    (Book.restored^[n] b).available_count = min (b.available_count + n) b.total_count ∧
    (Book.restored^[n] b).total_count = b.total_count := by
  induction n generalizing b with
  | zero => simp [h]
  | succ n ih =>
    rw [Function.iterate_succ_apply]
    have hr : b.restored.available_count ≤ b.restored.total_count := by
      simp only [Book.restored]
      omega
    obtain ⟨h1, h2⟩ := ih b.restored hr
    rw [h1, h2]
    simp only [Book.restored]
    constructor
    · push_cast
      omega
    · trivial

theorem usersRemove_of_user (s : State) (now : Nat) (caller : Option AuthUser) (u : Nat)
    (usr : User) (hu : s.users u = some usr)
    (hcaller : caller.map (fun c => c.id) ≠ some u) :
    usersController.remove s now caller u =
      (⟨200, .message ("用户已删除，已自动归还 "
          ++ toString (selectOpenBorrowByUser s.borrow u).length ++ " 本未还书籍")⟩,
        { ((selectOpenBorrowByUser s.borrow u).foldl (usersController.autoReturn now) s) with
          users := deleteUser
            ((selectOpenBorrowByUser s.borrow u).foldl (usersController.autoReturn now) s).users
            u }) := by
  unfold usersController.remove
  rw [if_neg hcaller]
  simp only [hu]

theorem createMany_exhaust (t : Nat) (calls : List (Nat × CreateReq)) (s : State) (b : Book)
    (hb : s.books t = some b) (hav : b.available_count = calls.length)
    (hcalls : ∀ c ∈ calls, ∃ u, resolve c.2 = .ok (t, u)) :
    (createMany s calls).1.length = calls.length ∧
    (∀ r ∈ (createMany s calls).1, r.status = 201) ∧
    ∃ b', (createMany s calls).2.books t = some b' ∧ b'.available_count = 0 ∧
      b'.total_count = b.total_count ∧
      b'.status = if calls.length = 0 then b.status else "已借出" := by
  induction calls generalizing s b with
  | nil => exact ⟨rfl, by simp [createMany], b, hb, by simpa using hav, rfl, rfl⟩
  | cons c calls ih =>
    obtain ⟨now, req⟩ := c
    obtain ⟨u, hreq⟩ := hcalls (now, req) (List.mem_cons_self _ _)
    have hpos : 0 < b.available_count := by
      rw [hav]
      simp
    have hcreate := createTx_success s now t u b hb hpos
    rw [← create_of_resolve hreq] at hcreate
    have hb1 : (create s now req).2.books t
        = some { b with available_count := b.available_count - 1
                        status := stockStatus (b.available_count - 1) } := by
      rw [hcreate]
      simp [updateBookCounts, hb]
    have hav1 : ({ b with available_count := b.available_count - 1
                          status := stockStatus (b.available_count - 1) } : Book).available_count
        = calls.length := by
      simp only [hav, List.length_cons]
      push_cast
      omega
    obtain ⟨hlen, hall, b', hb', h0, htot, hstat⟩ := ih (create s now req).2 _ hb1 hav1
      (fun c hc => hcalls c (List.mem_cons_of_mem _ hc))
    simp only [createMany]
    refine ⟨by simp [hlen], ?_, b', hb', h0, htot, ?_⟩
    · intro r hr
      rcases List.mem_cons.mp hr with rfl | hr
      · rw [hcreate]
      · exact hall r hr
    · rw [hstat]
      simp only [List.length_cons, Nat.succ_ne_zero, if_false]
      split
      · next hz =>
        have : b.available_count - 1 = 0 := by
          rw [hav, List.length_cons, hz]
          simp
        simp [stockStatus, this]
      · rfl

theorem wellFormed_of_sublist (s s' : State) (h : WellFormed s)
    (hsub : s'.borrow.Sublist s.borrow) (hseq : s'.borrowSeq = s.borrowSeq) :
    WellFormed s' := by
  obtain ⟨hpk, hty, hbd⟩ := h
  refine ⟨List.Nodup.sublist (List.Sublist.map _ hsub) hpk,
    fun l hl => hty l (hsub.subset hl), fun l hl => ?_⟩
  rw [hseq]
  exact hbd l (hsub.subset hl)

theorem wellFormed_of_markReturned (s s' : State) (now x : Nat) (h : WellFormed s)
    (hbor : s'.borrow = markReturned s.borrow now x) (hseq : s'.borrowSeq = s.borrowSeq) :
    WellFormed s' := by
  obtain ⟨hpk, hty, hbd⟩ := h
  refine ⟨?_, ?_, ?_⟩
  · unfold PrimaryKey
    rw [hbor, markReturned_ids]
    exact hpk
  · intro l hl
    rw [hbor, markReturned, List.mem_map] at hl
    obtain ⟨a, ha, hal⟩ := hl
    by_cases hax : a.id = x
    · rw [if_pos hax] at hal
      subst hal
      exact Or.inr rfl
    · rw [if_neg hax] at hal
      subst hal
      exact hty a ha
  · intro l hl
    rw [hbor, markReturned, List.mem_map] at hl
    obtain ⟨a, ha, hal⟩ := hl
    rw [hseq]
    by_cases hax : a.id = x
    · rw [if_pos hax] at hal
      subst hal
      exact hbd a ha
    · rw [if_neg hax] at hal
      subst hal
      exact hbd a ha

theorem wellFormed_autoReturn (now : Nat) (s : State) (r : Loan) (h : WellFormed s) :
    WellFormed (usersController.autoReturn now s r) := by
  apply wellFormed_of_markReturned s _ now r.id h (autoReturn_borrow now s r)
  unfold usersController.autoReturn
  simp only
  split <;> rfl

theorem wellFormed_foldl_autoReturn (now : Nat) (rows : List Loan) (s : State)
    (h : WellFormed s) : WellFormed (rows.foldl (usersController.autoReturn now) s) := by
  induction rows generalizing s with
  | nil => exact h
  | cons r rows ih => exact ih _ (wellFormed_autoReturn now s r h)

theorem wellFormed_createTx (s : State) (now t u : Nat) (h : WellFormed s) :
    WellFormed (createTx s now t u).2 := by
  cases hb : s.books t with
  | none => rw [createTx_notFound s now t u hb]; exact h
  | some b =>
    by_cases hav : b.available_count ≤ 0
    · rw [createTx_outOfStock s now t u b hb hav]; exact h
    · rw [createTx_success s now t u b hb (by omega)]
      obtain ⟨hpk, hty, hbd⟩ := h
      refine ⟨?_, ?_, ?_⟩
      · unfold PrimaryKey at hpk ⊢
        simp only [List.map_append, List.map_cons, List.map_nil]
        rw [List.nodup_append]
        refine ⟨hpk, List.nodup_singleton _, ?_⟩
        intro i hi hi'
        rw [List.mem_singleton] at hi'
        rw [List.mem_map] at hi
        obtain ⟨l, hl, hli⟩ := hi
        have := hbd l hl
        omega
      · intro l hl
        simp only [List.mem_append, List.mem_singleton] at hl
        rcases hl with hl | rfl
        · exact hty l hl
        · exact Or.inl rfl
      · intro l hl
        simp only [List.mem_append, List.mem_singleton] at hl
        rcases hl with hl | rfl
        · have := hbd l hl
          simp only
          omega
        · exact le_refl _

/-- Every handler of the lending engine keeps the stored state well formed, so
the shape assumed of a state below holds in every state the handlers reach. -/
theorem wellFormed_preserved (s : State) (h : WellFormed s) :
    (∀ now req, WellFormed (create s now req).2) ∧
    (∀ now borrowId, WellFormed («return» s now borrowId).2) ∧
    (∀ borrowId, WellFormed (remove s borrowId).2) ∧
    (∀ now caller userId, WellFormed (usersController.remove s now caller userId).2) ∧
    (∀ bookId removeThrows, WellFormed (booksController.remove s bookId removeThrows).2) := by
  refine ⟨?_, ?_, ?_, ?_, ?_⟩
  · intro now req
    unfold create
    split
    · exact h
    · exact wellFormed_createTx s now _ _ h
  · intro now id
    by_cases hok : («return» s now id).1.status = 200
    · obtain ⟨x, record, rest, book, rfl, hsel, hst, hb⟩ := return_success_of s now id hok
      rw [return_eq_autoReturn s now x record rest book hsel hst hb]
      exact wellFormed_autoReturn now s record h
    · have hs : («return» s now id).2 = s := by
        unfold «return» at hok ⊢
        split
        · rfl
        · split
          · rfl
          · simp only
            split
            · rfl
            · split
              · rfl
              · next x _ record rest _ hst book hb =>
                exfalso
                apply hok
                simp [*]
      rw [hs]
      exact h
  · intro id
    cases id with
    | none => exact h
    | some x =>
      cases hsel : selectBorrowById s.borrow x with
      | nil => simp only [remove, hsel]; exact h
      | cons record rest =>
        obtain ⟨_, hbor, _, _⟩ := remove_of_select s x record rest hsel
        apply wellFormed_of_sublist s _ h
        · rw [hbor]
          exact List.filter_sublist _
        · simp only [remove, hsel]
          split
          · split <;> rfl
          · rfl
  · intro now caller u
    unfold usersController.remove
    split
    · exact h
    · split
      · exact h
      · exact wellFormed_foldl_autoReturn now _ s h
  · intro t thr
    unfold booksController.remove
    split
    · exact h
    · simp only
      split <;>
        exact wellFormed_of_sublist s _ h (List.filter_sublist _) rfl

theorem sampleState_primaryKey : PrimaryKey sampleState := by
  unfold PrimaryKey sampleState
  decide

theorem sampleState_statusTyped : StatusTyped sampleState := by
  unfold StatusTyped sampleState Loan.isOpen Loan.isClosed
  decide

theorem sampleState_accounting : Accounting sampleState := by
  intro t b hb
  unfold openLoans
  simp only [sampleState] at hb ⊢
  split_ifs at hb with h1 h2
  · cases hb; subst h1; decide
  · cases hb; subst h2; decide

theorem sampleState_inRange : InRange sampleState := by
  intro t b hb
  simp only [sampleState] at hb
  split_ifs at hb <;> cases hb <;> decide

end Helpers

/-- C1. Accounting invariant: in a state whose `borrow.id` is a primary key and
whose loans are all OPEN or CLOSED, if every title has
`available_count = total_count - (OPEN loans on it)`, then the state left by
one `borrow.create`, `borrow.return`, `borrow.remove`, `users.remove` or
`books.remove`, on any arguments and whether the call succeeds or fails,
satisfies the same equation for every title that still exists. -/
theorem accounting_invariant_preserved (s : State) (hpk : PrimaryKey s)
    (hty : StatusTyped s) (h : Accounting s) :
    (∀ now req, Accounting (borrowController.create s now req).2) ∧
    (∀ now borrowId, Accounting (borrowController.«return» s now borrowId).2) ∧
    (∀ borrowId, Accounting (borrowController.remove s borrowId).2) ∧
    (∀ now caller userId, Accounting (usersController.remove s now caller userId).2) ∧
    (∀ bookId removeThrows,
      Accounting (booksController.remove s bookId removeThrows).2) := by
  refine ⟨?_, ?_, ?_, ?_, ?_⟩
  · intro now req
    unfold borrowController.create
    split
    · exact h
    · exact accounting_createTx s now _ _ h
  · exact fun now id => accounting_return s now id hpk hty h
  · exact fun id => accounting_remove s id hpk h
  · exact fun now caller u => accounting_usersRemove s now caller u hpk h
  · exact fun id thr => accounting_booksRemove s id thr h

/-- Witness of C1 on the sample catalogue. -/
theorem accounting_invariant_preserved_witness :
    (PrimaryKey sampleState ∧ StatusTyped sampleState ∧ Accounting sampleState) ∧
    ((∀ now req, Accounting (borrowController.create sampleState now req).2) ∧
    (∀ now borrowId, Accounting (borrowController.«return» sampleState now borrowId).2) ∧
    (∀ borrowId, Accounting (borrowController.remove sampleState borrowId).2) ∧
    (∀ now caller userId,
      Accounting (usersController.remove sampleState now caller userId).2) ∧
    (∀ bookId removeThrows,
      Accounting (booksController.remove sampleState bookId removeThrows).2)) :=
  ⟨⟨sampleState_primaryKey, sampleState_statusTyped, sampleState_accounting⟩,
   accounting_invariant_preserved sampleState sampleState_primaryKey
     sampleState_statusTyped sampleState_accounting⟩

/-- C2. Range invariant: from a state in which every title has
`0 ≤ available_count ≤ total_count`, the state left by one `borrow.create`,
`borrow.return`, `borrow.remove` or `users.remove`, on any arguments, has the
same bounds for every title. -/
theorem range_invariant_preserved (s : State) (h : InRange s) :
    (∀ now req, InRange (borrowController.create s now req).2) ∧
    (∀ now borrowId, InRange (borrowController.«return» s now borrowId).2) ∧
    (∀ borrowId, InRange (borrowController.remove s borrowId).2) ∧
    (∀ now caller userId, InRange (usersController.remove s now caller userId).2) :=
  ⟨fun now req => create_inRange s now req h,
   fun now id => return_inRange s now id h,
   fun id => remove_inRange s id h,
   fun now caller u => usersRemove_inRange s now caller u h⟩

/-- Witness of C2 on the sample catalogue. -/
theorem range_invariant_preserved_witness :
    InRange sampleState ∧
    ((∀ now req, InRange (borrowController.create sampleState now req).2) ∧
    (∀ now borrowId, InRange (borrowController.«return» sampleState now borrowId).2) ∧
    (∀ borrowId, InRange (borrowController.remove sampleState borrowId).2) ∧
    (∀ now caller userId, InRange (usersController.remove sampleState now caller userId).2)) :=
  ⟨sampleState_inRange, range_invariant_preserved sampleState sampleState_inRange⟩

/-- C3. Borrow success: when the request stands for title `t` and borrower `u`
and title `t` exists with `available_count > 0`, `borrow.create` answers 201
with the id of the new loan, lowers the title's `available_count` by exactly
one (and touches no other title), and appends exactly one loan, which
references `t` and `u`, is OPEN and has no `return_date`. -/
theorem create_success (s : State) (now : Nat) (req : borrowController.CreateReq)
    (t u : Nat) (b : Book)
    (hreq : borrowController.resolve req = .ok (t, u))
    (hb : s.books t = some b) (hav : 0 < b.available_count) :
    ∃ l : Loan,
      (borrowController.create s now req).1 = ⟨201, .borrowCreated (some l.id)⟩ ∧
      (borrowController.create s now req).2.borrow = s.borrow ++ [l] ∧
      l.book_id = t ∧ l.user_id = u ∧ l.isOpen ∧ l.return_date = none ∧
      (∃ b', (borrowController.create s now req).2.books t = some b' ∧
        b'.available_count = b.available_count - 1 ∧ b'.total_count = b.total_count) ∧
      (∀ t', t' ≠ t → (borrowController.create s now req).2.books t' = s.books t') ∧
      (borrowController.create s now req).2.users = s.users := by
  rw [create_of_resolve hreq, createTx_success s now t u b hb hav]
  refine ⟨⟨s.borrowSeq + 1, t, u, now, none, "借出"⟩, rfl, rfl, rfl, rfl, rfl, rfl, ?_, ?_, rfl⟩
  · exact ⟨{ b with available_count := b.available_count - 1
                    status := stockStatus (b.available_count - 1) },
      by simp [updateBookCounts, hb], rfl, rfl⟩
  · intro t' ht'
    simp [updateBookCounts, ht']

/-- Witness of C3: user 9 borrows title 1 of the sample catalogue. -/
theorem create_success_witness :
    ∃ l : Loan,
      (borrowController.create sampleState 20 (userReq 9 1)).1
        = ⟨201, .borrowCreated (some l.id)⟩ ∧
      (borrowController.create sampleState 20 (userReq 9 1)).2.borrow
        = sampleState.borrow ++ [l] ∧
      l.book_id = 1 ∧ l.user_id = 9 ∧ l.isOpen ∧ l.return_date = none ∧
      (∃ b', (borrowController.create sampleState 20 (userReq 9 1)).2.books 1 = some b' ∧
        b'.available_count = (⟨3, 2, "在馆", none⟩ : Book).available_count - 1 ∧
        b'.total_count = (⟨3, 2, "在馆", none⟩ : Book).total_count) ∧
      (∀ t', t' ≠ 1 →
        (borrowController.create sampleState 20 (userReq 9 1)).2.books t'
          = sampleState.books t') ∧
      (borrowController.create sampleState 20 (userReq 9 1)).2.users = sampleState.users :=
  create_success sampleState 20 (userReq 9 1) 1 9 ⟨3, 2, "在馆", none⟩
    (resolve_userReq 9 1 (by decide) (by decide)) (by simp [sampleState]) (by decide)

/-- C4. Borrow failure: for a request that stands for title `t`,
`borrow.create` answers NotFound when no title has id `t` and OutOfStock when
the title has `available_count ≤ 0`, and in both cases leaves the whole state
as it was; conversely, whatever the request, a NotFound answer means the
requested title does not exist and an OutOfStock answer means it exists with
`available_count ≤ 0`. -/
theorem create_failure (s : State) (now : Nat) (req : borrowController.CreateReq) :
    (∀ t u, borrowController.resolve req = .ok (t, u) → s.books t = none →
      NotFound (borrowController.create s now req).1 ∧
      (borrowController.create s now req).2 = s) ∧
    (∀ t u b, borrowController.resolve req = .ok (t, u) → s.books t = some b →
      b.available_count ≤ 0 →
      OutOfStock (borrowController.create s now req).1 ∧
      (borrowController.create s now req).2 = s) ∧
    (NotFound (borrowController.create s now req).1 →
      ∃ t u, borrowController.resolve req = .ok (t, u) ∧ s.books t = none) ∧
    (OutOfStock (borrowController.create s now req).1 →
      ∃ t u b, borrowController.resolve req = .ok (t, u) ∧ s.books t = some b ∧
        b.available_count ≤ 0) := by
  refine ⟨?_, ?_, ?_, ?_⟩
  · intro t u hreq hb
    rw [create_of_resolve hreq, createTx_notFound s now t u hb]
    exact ⟨rfl, rfl⟩
  · intro t u b hreq hb hav
    rw [create_of_resolve hreq, createTx_outOfStock s now t u b hb hav]
    exact ⟨rfl, rfl⟩
  · intro h
    cases hreq : borrowController.resolve req with
    | error r =>
      have hc : (borrowController.create s now req).1 = r := by
        simp [borrowController.create, hreq]
      rw [hc] at h
      rcases resolve_error_status req r hreq with hr | hr <;> subst hr <;>
        simp [NotFound] at h
    | ok p =>
      obtain ⟨t, u⟩ := p
      refine ⟨t, u, rfl, ?_⟩
      rw [create_of_resolve hreq] at h
      cases hb : s.books t with
      | none => rfl
      | some b =>
        exfalso
        by_cases hav : b.available_count ≤ 0
        · rw [createTx_outOfStock s now t u b hb hav] at h
          simp [NotFound] at h
        · rw [createTx_success s now t u b hb (by omega)] at h
          simp [NotFound] at h
  · intro h
    cases hreq : borrowController.resolve req with
    | error r =>
      have hc : (borrowController.create s now req).1 = r := by
        simp [borrowController.create, hreq]
      rw [hc] at h
      rcases resolve_error_status req r hreq with hr | hr <;> subst hr <;>
        simp [OutOfStock] at h
    | ok p =>
      obtain ⟨t, u⟩ := p
      rw [create_of_resolve hreq] at h
      cases hb : s.books t with
      | none =>
        rw [createTx_notFound s now t u hb] at h
        simp [OutOfStock] at h
      | some b =>
        refine ⟨t, u, b, rfl, hb, ?_⟩
        by_contra hav
        rw [createTx_success s now t u b hb (by omega)] at h
        simp [OutOfStock] at h

/-- Witness of C4: in the sample catalogue title 5 does not exist and title 2
has no copy left. -/
theorem create_failure_witness :
    (NotFound (borrowController.create sampleState 20 (userReq 9 5)).1 ∧
      (borrowController.create sampleState 20 (userReq 9 5)).2 = sampleState) ∧
    (OutOfStock (borrowController.create sampleState 20 (userReq 9 2)).1 ∧
      (borrowController.create sampleState 20 (userReq 9 2)).2 = sampleState) :=
  ⟨(create_failure sampleState 20 (userReq 9 5)).1 5 9
      (resolve_userReq 9 5 (by decide) (by decide)) (by simp [sampleState]),
   (create_failure sampleState 20 (userReq 9 2)).2.1 2 9
      ⟨3, 0, "已借出", some "/uploads/books/2.jpg"⟩
      (resolve_userReq 9 2 (by decide) (by decide)) (by simp [sampleState]) (by decide)⟩

/-- C5. Return success: for an OPEN loan `l` (in a table whose `id` is a primary
key) whose title exists with row `b`, `borrow.return` answers 200, leaves the
loan CLOSED with `return_date` set to the current time, and writes
`min(available_count + 1, total_count)` to the title together with the status
recomputed from it; from `available = 0, total = 3` the title ends with
`available = 1` and status IN_STOCK, and from `available ≥ total` it ends with
exactly `total`. -/
theorem return_success (s : State) (now : Nat) (l : Loan) (b : Book)
    (hpk : PrimaryKey s) (hl : l ∈ s.borrow) (hopen : l.isOpen)
    (hb : s.books l.book_id = some b) :
    (borrowController.«return» s now (some l.id)).1 = ⟨200, .message "还书成功"⟩ ∧
    ({ l with return_date := some now, status := "已还" } : Loan)
      ∈ (borrowController.«return» s now (some l.id)).2.borrow ∧
    (∀ r ∈ (borrowController.«return» s now (some l.id)).2.borrow, r.id = l.id →
      r.isClosed ∧ r.return_date = some now) ∧
    (∃ b', (borrowController.«return» s now (some l.id)).2.books l.book_id = some b' ∧
      b'.available_count = min (b.available_count + 1) b.total_count ∧
      b'.total_count = b.total_count ∧
      b'.status = (if b'.available_count > 0 then IN_STOCK else ALL_LOANED) ∧
      (b.available_count = 0 → b.total_count = 3 →
        b'.available_count = 1 ∧ b'.status = IN_STOCK) ∧
      (b.total_count ≤ b.available_count → b'.available_count = b.total_count)) := by
  obtain ⟨rest, hsel⟩ := selectBorrowById_of_mem s l hpk hl
  have hst : l.status ≠ "已还" := by
    unfold Loan.isOpen at hopen
    rw [hopen]
    decide
  rw [return_eq_autoReturn s now l.id l rest b hsel hst hb]
  refine ⟨rfl, ?_, ?_, ?_⟩
  · simp only [autoReturn_borrow, markReturned, List.mem_map]
    exact ⟨l, hl, by simp⟩
  · intro r hr hid
    simp only [autoReturn_borrow] at hr
    exact mem_markReturned_closed _ _ _ _ hr hid
  · simp only [autoReturn_books_some now s l b hb, restoreCopy_self _ _ _ hb]
    refine ⟨_, rfl, rfl, rfl, rfl, ?_, ?_⟩
    · intro h0 h3
      simp only [h0, h3, stockStatus, IN_STOCK]
      decide
    · intro hge
      simp only
      omega

/-- Witness of C5, the scenario of the specification: loan 2 of the sample
catalogue, on a title with `available = 0, total = 3`, is returned. -/
theorem return_success_witness :
    (borrowController.«return» sampleState 20 (some 2)).1 = ⟨200, .message "还书成功"⟩ ∧
    (⟨2, 2, 7, 11, some 20, "已还"⟩ : Loan)
      ∈ (borrowController.«return» sampleState 20 (some 2)).2.borrow ∧
    (∀ r ∈ (borrowController.«return» sampleState 20 (some 2)).2.borrow, r.id = 2 →
      r.isClosed ∧ r.return_date = some 20) ∧
    (∃ b', (borrowController.«return» sampleState 20 (some 2)).2.books 2 = some b' ∧
      b'.available_count = min ((0 : Int) + 1) 3 ∧
      b'.total_count = 3 ∧
      b'.status = (if b'.available_count > 0 then IN_STOCK else ALL_LOANED) ∧
      ((0 : Int) = 0 → (3 : Int) = 3 → b'.available_count = 1 ∧ b'.status = IN_STOCK) ∧
      ((3 : Int) ≤ 0 → b'.available_count = 3)) :=
  return_success sampleState 20 ⟨2, 2, 7, 11, none, "借出"⟩
    ⟨3, 0, "已借出", some "/uploads/books/2.jpg"⟩
    sampleState_primaryKey (by simp [sampleState]) rfl (by simp [sampleState])

/-- C6. Return is not repeatable: after a `borrow.return` that answered 200, a
second `borrow.return` on the same loan id (at any later time) answers
AlreadyClosed and leaves the state, titles and loans alike, exactly as the
first return left it. -/
theorem return_twice (s : State) (now now2 : Nat) (borrowId : Option Nat)
    (h : (borrowController.«return» s now borrowId).1.status = 200) :
    AlreadyClosed
      (borrowController.«return» (borrowController.«return» s now borrowId).2 now2 borrowId).1 ∧
    (borrowController.«return» (borrowController.«return» s now borrowId).2 now2 borrowId).2
      = (borrowController.«return» s now borrowId).2 := by
  obtain ⟨x, record, rest, book, rfl, hsel, hst, hb⟩ := return_success_of s now borrowId h
  rw [return_eq_autoReturn s now x record rest book hsel hst hb]
  have hid : record.id = x := (selectBorrowById_head _ _ _ _ hsel).2
  subst hid
  have hsel2 : selectBorrowById (usersController.autoReturn now s record).borrow record.id
      = { record with return_date := some now, status := "已还" }
        :: rest.map fun l => { l with return_date := some now, status := "已还" } := by
    rw [autoReturn_borrow, selectBorrowById_markReturned, hsel]
    rfl
  simp only [borrowController.«return», hsel2, if_true, AlreadyClosed, and_self]

/-- Witness of C6: loan 1 of the sample catalogue is returned twice. -/
theorem return_twice_witness :
    AlreadyClosed
      (borrowController.«return»
        (borrowController.«return» sampleState 20 (some 1)).2 21 (some 1)).1 ∧
    (borrowController.«return»
        (borrowController.«return» sampleState 20 (some 1)).2 21 (some 1)).2
      = (borrowController.«return» sampleState 20 (some 1)).2 :=
  return_twice sampleState 20 21 (some 1) (by decide)

/-- C7. AdminDeleteLoan: for an existing loan `l` (in a table whose `id` is a
primary key) `borrow.remove` answers 200 and removes exactly that row; when
`l` was CLOSED no title changes; when `l` was OPEN and its title exists with
row `b`, the title gets `min(available_count + 1, total_count)` and the status
recomputed from it, no other title changes, and the `books` table is the one
`borrow.return` on the same loan leaves. -/
theorem remove_loan (s : State) (l : Loan) (hpk : PrimaryKey s) (hl : l ∈ s.borrow) :
    (borrowController.remove s (some l.id)).1 = ⟨200, .message "借阅记录已删除"⟩ ∧
    (∀ r, r ∈ (borrowController.remove s (some l.id)).2.borrow ↔ r ∈ s.borrow ∧ r ≠ l) ∧
    (l.isClosed → (borrowController.remove s (some l.id)).2.books = s.books) ∧
    (l.isOpen → ∀ b, s.books l.book_id = some b →
      (∃ b', (borrowController.remove s (some l.id)).2.books l.book_id = some b' ∧
        b'.available_count = min (b.available_count + 1) b.total_count ∧
        b'.total_count = b.total_count ∧
        b'.status = (if b'.available_count > 0 then IN_STOCK else ALL_LOANED)) ∧
      (∀ t, t ≠ l.book_id → (borrowController.remove s (some l.id)).2.books t = s.books t) ∧
      (∀ now, (borrowController.remove s (some l.id)).2.books
        = (borrowController.«return» s now (some l.id)).2.books)) := by
  obtain ⟨rest, hsel⟩ := selectBorrowById_of_mem s l hpk hl
  obtain ⟨hresp, hbor, _, hbooks⟩ := remove_of_select s l.id l rest hsel
  refine ⟨hresp, ?_, ?_, ?_⟩
  · intro r
    rw [hbor, mem_deleteBorrowById]
    constructor
    · rintro ⟨hr, hne⟩
      exact ⟨hr, fun h => hne (by rw [h])⟩
    · rintro ⟨hr, hne⟩
      exact ⟨hr, fun h => hne (List.inj_on_of_nodup_map hpk hr hl h)⟩
  · intro hclosed
    unfold Loan.isClosed at hclosed
    have : l.status ≠ "借出" := by rw [hclosed]; decide
    rw [hbooks, if_neg this]
  · intro hopen b hb
    unfold Loan.isOpen at hopen
    have hst : l.status ≠ "已还" := by rw [hopen]; decide
    rw [hbooks, if_pos hopen]
    simp only [hb]
    refine ⟨?_, ?_, ?_⟩
    · rw [restoreCopy_self _ _ _ hb]
      exact ⟨_, rfl, rfl, rfl, rfl⟩
    · intro t ht
      exact restoreCopy_other _ _ _ _ ht
    · intro now
      rw [return_eq_autoReturn s now l.id l rest b hsel hst hb]
      simp only [autoReturn_books_some now s l b hb]

/-- Witness of C7: the OPEN loan 1 and the CLOSED loan 3 of the sample
catalogue are deleted. -/
theorem remove_loan_witness :
    ((borrowController.remove sampleState (some 1)).1 = ⟨200, .message "借阅记录已删除"⟩ ∧
      (∃ b', (borrowController.remove sampleState (some 1)).2.books 1 = some b' ∧
        b'.available_count = min ((2 : Int) + 1) 3 ∧
        b'.total_count = 3 ∧
        b'.status = (if b'.available_count > 0 then IN_STOCK else ALL_LOANED))) ∧
    ((borrowController.remove sampleState (some 3)).1 = ⟨200, .message "借阅记录已删除"⟩ ∧
      (borrowController.remove sampleState (some 3)).2.books = sampleState.books) :=
  ⟨⟨(remove_loan sampleState ⟨1, 1, 7, 10, none, "借出"⟩ sampleState_primaryKey
        (by simp [sampleState])).1,
    ((remove_loan sampleState ⟨1, 1, 7, 10, none, "借出"⟩ sampleState_primaryKey
        (by simp [sampleState])).2.2.2 rfl ⟨3, 2, "在馆", none⟩ (by simp [sampleState])).1⟩,
   ⟨(remove_loan sampleState ⟨3, 1, 7, 12, some 13, "已还"⟩ sampleState_primaryKey
        (by simp [sampleState])).1,
    (remove_loan sampleState ⟨3, 1, 7, 12, some 13, "已还"⟩ sampleState_primaryKey
        (by simp [sampleState])).2.2.1 rfl⟩⟩

/-- C8. CascadeDeleteBorrower: for an existing borrower `u` other than the
caller (in a table whose `id` is a primary key), `users.remove` answers 200
with the number `k` of `u`'s OPEN loans in its message, turns exactly those
loans into CLOSED ones with `return_date` set (every other loan, `u`'s CLOSED
ones included, is left as it was), applies to every title one clamped
increment per OPEN loan `u` held on it (for a title with
`available ≤ total` that is `min(available + n, total)`), and removes the
borrower's record and no other. -/
theorem usersRemove_cascade (s : State) (now : Nat) (caller : Option AuthUser) (u : Nat)
    (usr : User) (hpk : PrimaryKey s) (hu : s.users u = some usr)
    (hcaller : caller.map (fun c => c.id) ≠ some u) :
    (usersController.remove s now caller u).1
      = ⟨200, .message ("用户已删除，已自动归还 "
          ++ toString (s.borrow.countP fun l => l.user_id = u ∧ l.isOpen)
          ++ " 本未还书籍")⟩ ∧
    (usersController.remove s now caller u).2.borrow
      = s.borrow.map (fun l =>
          if l.user_id = u ∧ l.isOpen then
            { l with return_date := some now, status := "已还" }
          else l) ∧
    (∀ t, (usersController.remove s now caller u).2.books t
      = (s.books t).map
          (Book.restored^[s.borrow.countP fun l => l.user_id = u ∧ l.isOpen ∧ l.book_id = t])) ∧
    (∀ t b, s.books t = some b → b.available_count ≤ b.total_count →
      ∃ b', (usersController.remove s now caller u).2.books t = some b' ∧
        b'.available_count
          = min (b.available_count
              + (s.borrow.countP fun l => l.user_id = u ∧ l.isOpen ∧ l.book_id = t : Nat))
            b.total_count ∧
        b'.total_count = b.total_count) ∧
    (usersController.remove s now caller u).2.users u = none ∧
    (∀ v, v ≠ u → (usersController.remove s now caller u).2.users v = s.users v) := by
  rw [usersRemove_of_user s now caller u usr hu hcaller]
  have hbooks : ∀ t,
      ((selectOpenBorrowByUser s.borrow u).foldl (usersController.autoReturn now) s).books t
        = (s.books t).map
          (Book.restored^[s.borrow.countP fun l => l.user_id = u ∧ l.isOpen ∧ l.book_id = t]) := by
    intro t
    have hcount : (s.borrow.countP fun a =>
          decide (a.book_id = t) && decide (a.user_id = u ∧ a.status = "借出"))
        = s.borrow.countP fun l => l.user_id = u ∧ l.isOpen ∧ l.book_id = t := by
      apply List.countP_congr
      intro l _
      simp only [Loan.isOpen, Bool.and_eq_true, decide_eq_true_eq]
      tauto
    rw [foldl_autoReturn_books, selectOpenBorrowByUser, List.countP_filter, hcount]
  refine ⟨?_, ?_, hbooks, ?_, ?_, ?_⟩
  · simp only [selectOpenBorrowByUser, Loan.isOpen, List.countP_eq_length_filter]
  · simp only [foldl_autoReturn_borrow]
    apply List.map_congr_left
    intro l hl
    have hiff : l.id ∈ (selectOpenBorrowByUser s.borrow u).map (fun r => r.id)
        ↔ l.user_id = u ∧ l.isOpen := by
      rw [List.mem_map]
      constructor
      · rintro ⟨r, hr, hid⟩
        rw [mem_selectOpenBorrowByUser] at hr
        have : r = l := List.inj_on_of_nodup_map hpk hr.1 hl hid
        subst this
        exact hr.2
      · intro h
        exact ⟨l, (mem_selectOpenBorrowByUser _ _ _).mpr ⟨hl, h⟩, rfl⟩
    by_cases h : l.user_id = u ∧ l.isOpen
    · rw [if_pos (hiff.mpr h), if_pos h]
    · rw [if_neg (fun h' => h (hiff.mp h')), if_neg h]
  · intro t b hb hle
    simp only [hbooks t, hb, Option.map_some']
    exact ⟨_, rfl, iterate_restored _ b hle⟩
  · simp [deleteUser]
  · intro v hv
    simp [deleteUser, hv, foldl_autoReturn_users]

/-- Witness of C8, the scenario of the specification: user 7 of the sample
catalogue, who holds two OPEN loans and one CLOSED loan, is deleted by an
administrator with id 1. -/
theorem usersRemove_cascade_witness :
    (usersController.remove sampleState 20 (some ⟨1, "admin"⟩) 7).1
      = ⟨200, .message ("用户已删除，已自动归还 "
          ++ toString (sampleState.borrow.countP fun l => l.user_id = 7 ∧ l.isOpen)
          ++ " 本未还书籍")⟩ ∧
    (sampleState.borrow.countP fun l => l.user_id = 7 ∧ l.isOpen) = 2 ∧
    (∃ b', (usersController.remove sampleState 20 (some ⟨1, "admin"⟩) 7).2.books 1 = some b' ∧
      b'.available_count
        = min ((2 : Int)
            + (sampleState.borrow.countP fun l => l.user_id = 7 ∧ l.isOpen ∧ l.book_id = 1 : Nat))
          3 ∧
      b'.total_count = 3) ∧
    (usersController.remove sampleState 20 (some ⟨1, "admin"⟩) 7).2.users 7 = none :=
  ⟨(usersRemove_cascade sampleState 20 (some ⟨1, "admin"⟩) 7 ⟨"user"⟩
      sampleState_primaryKey (by simp [sampleState]) (by decide)).1,
   by decide,
   (usersRemove_cascade sampleState 20 (some ⟨1, "admin"⟩) 7 ⟨"user"⟩
      sampleState_primaryKey (by simp [sampleState]) (by decide)).2.2.2.1 1
      ⟨3, 2, "在馆", none⟩ (by simp [sampleState]) (by decide),
   (usersRemove_cascade sampleState 20 (some ⟨1, "admin"⟩) 7 ⟨"user"⟩
      sampleState_primaryKey (by simp [sampleState]) (by decide)).2.2.2.2.1⟩

/-- C9. CascadeDeleteTitle: for an existing title `t`, `books.remove` leaves a
state without the title in which the loans are exactly the old loans on other
titles (so none, OPEN or CLOSED, references `t`), with every other title and
every user as before; for an id that matches no title it answers NotFound and
leaves the state as it was. -/
theorem booksRemove_cascade (s : State) (t : Nat) (removeThrows : Bool) :
    (∀ b, s.books t = some b →
      (booksController.remove s t removeThrows).2.books t = none ∧
      (∀ l, l ∈ (booksController.remove s t removeThrows).2.borrow
        ↔ l ∈ s.borrow ∧ l.book_id ≠ t) ∧
      (∀ l ∈ (booksController.remove s t removeThrows).2.borrow, l.book_id ≠ t) ∧
      (∀ t', t' ≠ t → (booksController.remove s t removeThrows).2.books t' = s.books t') ∧
      (booksController.remove s t removeThrows).2.users = s.users) ∧
    (s.books t = none →
      NotFound (booksController.remove s t removeThrows).1 ∧
      (booksController.remove s t removeThrows).2 = s) := by
  constructor
  · intro b hb
    have hst : (booksController.remove s t removeThrows).2
        = { s with borrow := deleteBorrowByBook s.borrow t, books := deleteBook s.books t } := by
      simp only [booksController.remove, hb]
      split <;> rfl
    rw [hst]
    have hmem : ∀ l, l ∈ deleteBorrowByBook s.borrow t ↔ l ∈ s.borrow ∧ l.book_id ≠ t := by
      intro l
      simp [deleteBorrowByBook, List.mem_filter]
    refine ⟨by simp [deleteBook], hmem, fun l hl => ((hmem l).mp hl).2, ?_, rfl⟩
    intro t' ht'
    simp [deleteBook, ht']
  · intro hb
    simp only [booksController.remove, hb]
    exact ⟨rfl, trivial⟩

/-- Witness of C9: title 1 of the sample catalogue is deleted, title 5 does not
exist. -/
theorem booksRemove_cascade_witness :
    ((booksController.remove sampleState 1 false).2.books 1 = none ∧
      (∀ l ∈ (booksController.remove sampleState 1 false).2.borrow, l.book_id ≠ 1)) ∧
    (NotFound (booksController.remove sampleState 5 false).1 ∧
      (booksController.remove sampleState 5 false).2 = sampleState) :=
  ⟨⟨((booksRemove_cascade sampleState 1 false).1 ⟨3, 2, "在馆", none⟩
        (by simp [sampleState])).1,
    ((booksRemove_cascade sampleState 1 false).1 ⟨3, 2, "在馆", none⟩
        (by simp [sampleState])).2.2.1⟩,
   (booksRemove_cascade sampleState 5 false).2 (by simp [sampleState])⟩

/-- C10. Exhausting stock: for `n ≥ 1` and a title `t` with
`total_count = available_count = n`, when `n` calls of `borrow.create` that
stand for `t` (by any borrowers, at any times) are run in sequence, each
answers 201, the title ends with `available_count = 0` and status ALL_LOANED,
and one more `borrow.create` for `t` answers OutOfStock and changes
nothing. -/
theorem borrow_until_exhausted (n : Nat) (hn : 1 ≤ n) (s : State) (t : Nat) (b : Book)
    (calls : List (Nat × borrowController.CreateReq)) (now : Nat)
    (req : borrowController.CreateReq)
    (hb : s.books t = some b) (htot : b.total_count = n) (hav : b.available_count = n)
    (hlen : calls.length = n)
    (hcalls : ∀ c ∈ calls, ∃ u, borrowController.resolve c.2 = .ok (t, u))
    (hreq : ∃ u, borrowController.resolve req = .ok (t, u)) :
    (createMany s calls).1.length = n ∧
    (∀ r ∈ (createMany s calls).1, r.status = 201) ∧
    (∃ b', (createMany s calls).2.books t = some b' ∧ b'.available_count = 0 ∧
      b'.total_count = n ∧ b'.status = ALL_LOANED) ∧
    OutOfStock (borrowController.create (createMany s calls).2 now req).1 ∧
    (borrowController.create (createMany s calls).2 now req).2 = (createMany s calls).2 := by
  obtain ⟨h1, h2, b', hb', h0, ht', hs'⟩ :=
    createMany_exhaust t calls s b hb (by rw [hav, hlen]) hcalls
  obtain ⟨u, hu⟩ := hreq
  have hne : calls.length ≠ 0 := by omega
  rw [if_neg hne] at hs'
  refine ⟨by rw [h1, hlen], h2, ⟨b', hb', h0, by rw [ht', htot], hs'⟩, ?_⟩
  rw [create_of_resolve hu, createTx_outOfStock _ now t u b' hb' (by omega)]
  exact ⟨rfl, rfl⟩

section NumberHelpers

open JsNumber

theorem roundHalfEven_intCast (n : ℤ) : roundHalfEven (n : ℚ) = n := by
  unfold roundHalfEven
  simp

theorem roundHalfEven_le (x : ℚ) (n : ℤ) (h : x ≤ n) : roundHalfEven x ≤ n := by
  have hf : ⌊x⌋ ≤ n := by
    have := Int.floor_le x
    exact_mod_cast (this.trans h)
  have hf1 : ¬ x - ⌊x⌋ < 1 / 2 → ⌊x⌋ + 1 ≤ n := by
    intro hr
    have hlt : (⌊x⌋ : ℚ) < x := by linarith
    have : (⌊x⌋ : ℚ) < n := lt_of_lt_of_le hlt h
    have : ⌊x⌋ < n := by exact_mod_cast this
    omega
  unfold roundHalfEven
  simp only
  split_ifs with h1 h2 h3
  · exact hf
  · exact hf1 h1
  · exact hf
  · exact hf1 h1

theorem le_roundHalfEven (x : ℚ) (n : ℤ) (h : (n : ℚ) ≤ x) : n ≤ roundHalfEven x := by
  have hf : n ≤ ⌊x⌋ := Int.le_floor.mpr h
  unfold roundHalfEven
  simp only
  split_ifs <;> omega

theorem two_zpow_pos (k : ℤ) : (0 : ℚ) < 2 ^ k := zpow_pos (by norm_num) k

theorem cast_abs_lt_53 (N : ℤ) : |N| < 2 ^ 53 ↔ |(N : ℚ)| < 2 ^ (53 : ℤ) := by
  rw [← Int.cast_abs]
  have e : (2 : ℚ) ^ (53 : ℤ) = ((2 ^ 53 : ℤ) : ℚ) := by norm_num
  rw [e, Int.cast_lt]

theorem cast_abs_le_53 (N : ℤ) : |N| ≤ 2 ^ 53 ↔ |(N : ℚ)| ≤ 2 ^ (53 : ℤ) := by
  rw [← Int.cast_abs]
  have e : (2 : ℚ) ^ (53 : ℤ) = ((2 ^ 53 : ℤ) : ℚ) := by norm_num
  rw [e, Int.cast_le]

theorem ulpExp_ge (q : ℚ) : -1074 ≤ ulpExp q := le_max_right _ _

theorem abs_lt_ulp (q : ℚ) : |q| < 2 ^ (ulpExp q + 53) := by
  have h1 : |q| < (2 : ℚ) ^ (Int.log 2 |q| + 1) := by
    have := Int.lt_zpow_succ_log_self (b := 2) (by norm_num) |q|
    exact_mod_cast this
  have h2 : Int.log 2 |q| + 1 ≤ ulpExp q + 53 := by
    have := le_max_left (Int.log 2 |q| - 52) (-1074)
    unfold ulpExp
    omega
  exact lt_of_lt_of_le h1 (zpow_le_zpow_right₀ (by norm_num) h2)


/-- The value `ofRat` rounds to, before the overflow test. -/
theorem ofRat_fin (q r : ℚ) (h : ofRat q = .fin r) :
    r = roundHalfEven (q / 2 ^ ulpExp q) * 2 ^ ulpExp q ∧ |r| < 2 ^ (1024 : ℤ) := by
  unfold ofRat at h
  simp only at h
  split_ifs at h with hov
  cases h
  exact ⟨rfl, not_le.mp hov⟩

theorem ofRat_grid (q r : ℚ) (h : ofRat q = .fin r) :
    ∃ N : ℤ, r = N * 2 ^ ulpExp q ∧ |N| ≤ 2 ^ 53 := by
  obtain ⟨hr, _⟩ := ofRat_fin q r h
  refine ⟨roundHalfEven (q / 2 ^ ulpExp q), hr, ?_⟩
  have hpos := two_zpow_pos (ulpExp q)
  have habs : |q / 2 ^ ulpExp q| < 2 ^ (53 : ℤ) := by
    rw [abs_div, abs_of_pos hpos, div_lt_iff₀ hpos, ← zpow_add₀ (by norm_num : (2 : ℚ) ≠ 0)]
    have := abs_lt_ulp q
    rwa [add_comm] at this
  have h53 : ((2 ^ 53 : ℤ) : ℚ) = 2 ^ (53 : ℤ) := by norm_num
  rw [abs_le]
  constructor
  · apply le_roundHalfEven
    have := (abs_lt.mp habs).1
    push_cast
    rw [h53] at *
    linarith
  · apply roundHalfEven_le
    have := (abs_lt.mp habs).2
    rw [h53]
    linarith

/-- A value on a grid of doubles is on the grid of its own magnitude. -/
theorem grid_ulpExp (r : ℚ) (N k : ℤ) (hr : r = N * 2 ^ k) (hN : |N| ≤ 2 ^ 53)
    (hk : -1074 ≤ k) : ∃ M : ℤ, r = M * 2 ^ ulpExp r := by
  by_cases h0 : N = 0
  · refine ⟨0, ?_⟩
    rw [hr, h0]
    simp
  have hNpos : (0 : ℚ) < |(N : ℚ)| := abs_pos.mpr (by exact_mod_cast h0)
  have hrabs : |r| = |(N : ℚ)| * 2 ^ k := by
    rw [hr, abs_mul, abs_of_pos (two_zpow_pos k)]
  have hrpos : 0 < |r| := by
    rw [hrabs]
    exact mul_pos hNpos (two_zpow_pos k)
  by_cases hlt : |N| < 2 ^ 53
  · have hlt' : |(N : ℚ)| < 2 ^ (53 : ℤ) := (cast_abs_lt_53 N).mp hlt
    have hb : |r| < 2 ^ (53 + k) := by
      rw [hrabs, zpow_add₀ (by norm_num : (2 : ℚ) ≠ 0)]
      exact mul_lt_mul_of_pos_right hlt' (two_zpow_pos k)
    have hlog : Int.log 2 |r| < 53 + k := by
      have := (Int.lt_zpow_iff_log_lt (b := 2) (by norm_num) hrpos).mp (by exact_mod_cast hb)
      exact this
    have hu : ulpExp r ≤ k := by
      unfold ulpExp
      exact max_le (by omega) hk
    obtain ⟨d, hd⟩ := Int.le.dest hu
    refine ⟨N * 2 ^ d, ?_⟩
    conv_lhs => rw [hr, ← hd, zpow_add₀ (by norm_num : (2 : ℚ) ≠ 0)]
    push_cast
    rw [zpow_natCast]
    ring
  · have heq : |N| = 2 ^ 53 := le_antisymm hN (not_lt.mp hlt)
    have heq' : |(N : ℚ)| = 2 ^ (53 : ℤ) :=
      le_antisymm ((cast_abs_le_53 N).mp hN)
        (not_lt.mp (fun h => hlt ((cast_abs_lt_53 N).mpr h)))
    have hb : |r| = 2 ^ (53 + k) := by
      rw [hrabs, heq', zpow_add₀ (by norm_num : (2 : ℚ) ≠ 0)]
    have hlog : Int.log 2 |r| = 53 + k := by
      rw [hb]
      have := Int.log_zpow (R := ℚ) (b := 2) (by norm_num) (53 + k)
      exact_mod_cast this
    have hu : ulpExp r = k + 1 := by
      unfold ulpExp
      rw [hlog]
      have : 53 + k - 52 = k + 1 := by ring
      rw [this]
      exact max_eq_left (by omega)
    rcases abs_eq (by norm_num : (0 : ℤ) ≤ 2 ^ 53) |>.mp heq with hN1 | hN1
    · refine ⟨2 ^ 52, ?_⟩
      rw [hu]
      conv_lhs => rw [hr, hN1]
      rw [zpow_add₀ (by norm_num : (2 : ℚ) ≠ 0)]
      push_cast
      ring
    · refine ⟨-2 ^ 52, ?_⟩
      rw [hu]
      conv_lhs => rw [hr, hN1]
      rw [zpow_add₀ (by norm_num : (2 : ℚ) ≠ 0)]
      push_cast
      ring

/-- A value on its own grid and below the overflow threshold is a double. -/
theorem ofRat_of_grid (r : ℚ) (M : ℤ) (hr : r = M * 2 ^ ulpExp r)
    (hlt : |r| < 2 ^ (1024 : ℤ)) : ofRat r = .fin r := by
  have hdiv : r / 2 ^ ulpExp r = (M : ℚ) := by
    rw [div_eq_iff (ne_of_gt (two_zpow_pos _))]
    exact hr
  unfold ofRat
  simp only
  rw [hdiv, roundHalfEven_intCast, ← hr, if_neg (not_le.mpr hlt)]

/-- The values of `ofRat` are doubles: `ofRat` fixes them. -/
theorem ofRat_idem (q r : ℚ) (h : ofRat q = .fin r) : ofRat r = .fin r := by
  obtain ⟨N, hN, hNb⟩ := ofRat_grid q r h
  obtain ⟨M, hM⟩ := grid_ulpExp r N (ulpExp q) hN hNb (ulpExp_ge q)
  exact ofRat_of_grid r M hM (ofRat_fin q r h).2

theorem ulpExp_mono (x y : ℚ) (hx : 0 < x) (hxy : x ≤ y) : ulpExp x ≤ ulpExp y := by
  unfold ulpExp
  rw [abs_of_pos hx, abs_of_pos (lt_of_lt_of_le hx hxy)]
  have := Int.log_mono_right (b := 2) hx hxy
  exact max_le_max (by omega) (le_refl _)

theorem ofRat_nonneg (x r : ℚ) (h : ofRat x = .fin r) (hx : 0 ≤ x) : 0 ≤ r := by
  rw [(ofRat_fin x r h).1]
  apply mul_nonneg _ (le_of_lt (two_zpow_pos _))
  have : (0 : ℤ) ≤ roundHalfEven (x / 2 ^ ulpExp x) :=
    le_roundHalfEven _ 0 (by
      push_cast
      exact div_nonneg hx (le_of_lt (two_zpow_pos _)))
  exact_mod_cast this

theorem ofRat_nonpos (x r : ℚ) (h : ofRat x = .fin r) (hx : x ≤ 0) : r ≤ 0 := by
  rw [(ofRat_fin x r h).1]
  apply mul_nonpos_of_nonpos_of_nonneg _ (le_of_lt (two_zpow_pos _))
  have : roundHalfEven (x / 2 ^ ulpExp x) ≤ (0 : ℤ) :=
    roundHalfEven_le _ 0 (by
      push_cast
      exact div_nonpos_of_nonpos_of_nonneg hx (le_of_lt (two_zpow_pos _)))
  exact_mod_cast this

/-- Rounding never crosses a double: below the double `T ≥ 0` it stays at or
below `T`. -/
theorem ofRat_le_of_le (T x r : ℚ) (hT : ofRat T = .fin T) (hT0 : 0 ≤ T) (hx : x ≤ T)
    (h : ofRat x = .fin r) : r ≤ T := by
  by_cases hx0 : x ≤ 0
  · exact le_trans (ofRat_nonpos x r h hx0) hT0
  have hxpos : 0 < x := not_le.mp hx0
  obtain ⟨N, hN, _⟩ := ofRat_grid T T hT
  have hu := ulpExp_mono x T hxpos hx
  obtain ⟨d, hd⟩ := Int.le.dest hu
  have hTgrid : T / 2 ^ ulpExp x = ((N * 2 ^ d : ℤ) : ℚ) := by
    rw [div_eq_iff (ne_of_gt (two_zpow_pos _))]
    conv_lhs => rw [hN, ← hd, zpow_add₀ (by norm_num : (2 : ℚ) ≠ 0)]
    push_cast
    rw [zpow_natCast]
    ring
  have hle : x / 2 ^ ulpExp x ≤ ((N * 2 ^ d : ℤ) : ℚ) := by
    rw [← hTgrid]
    exact div_le_div_of_nonneg_right hx (le_of_lt (two_zpow_pos _))
  have hr := roundHalfEven_le _ _ hle
  rw [(ofRat_fin x r h).1]
  have : (roundHalfEven (x / 2 ^ ulpExp x) : ℚ) ≤ ((N * 2 ^ d : ℤ) : ℚ) := by exact_mod_cast hr
  calc (roundHalfEven (x / 2 ^ ulpExp x) : ℚ) * 2 ^ ulpExp x
      ≤ ((N * 2 ^ d : ℤ) : ℚ) * 2 ^ ulpExp x :=
        mul_le_mul_of_nonneg_right this (le_of_lt (two_zpow_pos _))
    _ = T := by
        rw [← hTgrid]
        exact div_mul_cancel₀ _ (ne_of_gt (two_zpow_pos _))

/-- Integers of magnitude at most `2^53` are doubles. -/
theorem ofRat_intCast (n : ℤ) (h : |n| ≤ 2 ^ 53) : ofRat (n : ℚ) = .fin n := by
  obtain ⟨M, hM⟩ := grid_ulpExp (n : ℚ) n 0 (by simp) h (by norm_num)
  apply ofRat_of_grid _ M hM
  exact lt_of_le_of_lt ((cast_abs_le_53 n).mp h) (by norm_num)

/-- Rounding an integer gives an integer. -/
theorem ofRat_intCast_isInt (n : ℤ) (r : ℚ) (h : ofRat (n : ℚ) = .fin r) : ∃ m : ℤ, r = m := by
  obtain ⟨hr, _⟩ := ofRat_fin _ r h
  by_cases he : 0 ≤ ulpExp (n : ℚ)
  · obtain ⟨d, hd⟩ := Int.le.dest he
    refine ⟨roundHalfEven ((n : ℚ) / 2 ^ ulpExp (n : ℚ)) * 2 ^ d, ?_⟩
    rw [hr]
    simp only [zero_add] at hd
    rw [← hd]
    push_cast
    rw [zpow_natCast]
  · obtain ⟨d, hd⟩ := Int.le.dest (le_of_lt (not_le.mp he))
    have hdiv : (n : ℚ) / 2 ^ ulpExp (n : ℚ) = ((n * 2 ^ d : ℤ) : ℚ) := by
      rw [div_eq_iff (ne_of_gt (two_zpow_pos _))]
      have : ulpExp (n : ℚ) = -(d : ℤ) := by omega
      rw [this, zpow_neg]
      push_cast
      rw [zpow_natCast]
      field_simp
    refine ⟨n, ?_⟩
    rw [hr, hdiv, roundHalfEven_intCast, ← hdiv]
    exact div_mul_cancel₀ _ (ne_of_gt (two_zpow_pos _))

/-- A value `N * 2^k` with `|N| ≤ 2^53`, `k ≥ -1074`, below the overflow
threshold, is a double. -/
theorem ofRat_of_repr (r : ℚ) (N k : ℤ) (hr : r = N * 2 ^ k) (hN : |N| ≤ 2 ^ 53)
    (hk : -1074 ≤ k) (hlt : |r| < 2 ^ (1024 : ℤ)) : ofRat r = .fin r := by
  obtain ⟨M, hM⟩ := grid_ulpExp r N k hr hN hk
  exact ofRat_of_grid r M hM hlt

theorem ofInt_safe (n : ℤ) (h : |n| ≤ 2 ^ 53) : ofInt n = .fin n := ofRat_intCast n h

theorem sub_safe (a b : ℤ) (h : |a - b| ≤ 2 ^ 53) :
    JsNumber.sub (.fin a) (.fin b) = .fin ((a - b : ℤ) : ℚ) := by
  have := ofRat_intCast (a - b) h
  simp only [JsNumber.sub]
  push_cast at this ⊢
  exact this

theorem intColumn_intCast (n : ℤ) : intColumn n = n := by
  unfold intColumn
  by_cases h : (0 : ℚ) ≤ n
  · rw [if_pos h, Int.floor_eq_iff]
    constructor <;> linarith
  · rw [if_neg h]
    have : ⌊-(n : ℚ) + 1 / 2⌋ = -n := by
      rw [Int.floor_eq_iff]
      push_cast
      constructor <;> linarith
    omega

theorem intColumn_mono (x y : ℚ) (h : x ≤ y) : intColumn x ≤ intColumn y := by
  unfold intColumn
  by_cases hx : 0 ≤ x
  · have hy : 0 ≤ y := le_trans hx h
    rw [if_pos hx, if_pos hy]
    exact Int.floor_mono (by linarith)
  · rw [if_neg hx]
    have hx' : (0 : ℤ) ≤ ⌊-x + 1 / 2⌋ := Int.floor_nonneg.mpr (by linarith)
    by_cases hy : 0 ≤ y
    · rw [if_pos hy]
      have hy' : (0 : ℤ) ≤ ⌊y + 1 / 2⌋ := Int.floor_nonneg.mpr (by linarith)
      omega
    · rw [if_neg hy]
      have : ⌊-y + 1 / 2⌋ ≤ ⌊-x + 1 / 2⌋ := Int.floor_mono (by linarith)
      omega

theorem intColumn_zero : intColumn 0 = 0 := by
  have := intColumn_intCast 0
  simpa using this

theorem intColumn_nonneg (x : ℚ) (h : 0 ≤ x) : 0 ≤ intColumn x := by
  have := intColumn_mono 0 x h
  rwa [intColumn_zero] at this

/-- The shapes of `Math.max(x, 0)`. -/
theorem mathMax_zero_cases (x : JsNumber) :
    mathMax x (.fin 0) = .nan ∨ mathMax x (.fin 0) = .inf false ∨
      ∃ m, mathMax x (.fin 0) = .fin m ∧ 0 ≤ m ∧ ∀ v, x = .fin v → m = max v 0 := by
  cases x with
  | nan => exact Or.inl rfl
  | inf negative =>
    cases negative
    · exact Or.inr (Or.inl rfl)
    · exact Or.inr (Or.inr ⟨0, rfl, le_refl 0, fun v h => by cases h⟩)
  | fin q =>
    refine Or.inr (Or.inr ⟨max q 0, rfl, le_max_right _ _, fun v h => ?_⟩)
    cases h
    rfl

/-- The shapes of `minAvailable = Math.max(total - borrowedCount, 0)` for a
total `T ≥ 0` and a `borrowedCount` that came out of `Math.max(.., 0)`. -/
theorem minAvailable_cases (T : ℚ) (hT : ofRat T = .fin T) (hT0 : 0 ≤ T) (y : JsNumber) :
    mathMax (JsNumber.sub (.fin T) (mathMax y (.fin 0))) (.fin 0) = .nan ∨
    mathMax (JsNumber.sub (.fin T) (mathMax y (.fin 0))) (.fin 0) = .inf false ∨
    ∃ m, mathMax (JsNumber.sub (.fin T) (mathMax y (.fin 0))) (.fin 0) = .fin m ∧
      0 ≤ m ∧ m ≤ T := by
  rcases mathMax_zero_cases y with h | h | ⟨β, h, hβ, _⟩
  · rw [h]
    exact Or.inl rfl
  · rw [h]
    exact Or.inr (Or.inr ⟨0, rfl, le_refl 0, hT0⟩)
  · rw [h]
    simp only [JsNumber.sub]
    cases hx : ofRat (T - β) with
    | nan => exact Or.inl rfl
    | inf negative =>
      cases negative
      · exact Or.inr (Or.inl rfl)
      · exact Or.inr (Or.inr ⟨0, rfl, le_refl 0, hT0⟩)
    | fin r =>
      refine Or.inr (Or.inr ⟨max r 0, rfl, le_max_right _ _, max_le ?_ hT0⟩)
      exact ofRat_le_of_le T (T - β) r hT hT0 (by linarith) hx

theorem mathMax_mathMin_fin (T m A : ℚ) (x : JsNumber) (hm0 : 0 ≤ m) (hmT : m ≤ T)
    (h : mathMax (.fin m) (mathMin (.fin T) x) = .fin A) : 0 ≤ A ∧ A ≤ T := by
  cases x with
  | nan => cases h
  | inf negative =>
    cases negative
    · simp only [mathMin, mathMax] at h
      cases h
      exact ⟨le_trans hm0 (le_max_left _ _), max_le hmT (le_refl T)⟩
    · simp only [mathMin, mathMax] at h
      cases h
      exact ⟨hm0, hmT⟩
  | fin v =>
    simp only [mathMin, mathMax] at h
    cases h
    exact ⟨le_trans hm0 (le_max_left _ _), max_le hmT (min_le_left _ _)⟩

theorem mathMax_nan_left (y : JsNumber) : mathMax .nan y = .nan := by
  cases y with
  | nan => rfl
  | inf negative => cases negative <;> rfl
  | fin q => rfl

theorem mathMax_inf_left (y : JsNumber) :
    mathMax (.inf false) y = .nan ∨ mathMax (.inf false) y = .inf false := by
  cases y with
  | nan => exact Or.inl rfl
  | inf negative => cases negative <;> exact Or.inr rfl
  | fin q => exact Or.inr rfl

end NumberHelpers

section CatalogHelpers

open booksController JsNumber

theorem toNumber_fin (f : Field) (T : ℚ) (h : f.toNumber = .fin T) : ofRat T = .fin T := by
  cases f with
  | undefined => cases h
  | empty =>
    cases h
    exact ofRat_of_repr 0 0 0 (by simp) (by norm_num) (by norm_num) (by norm_num)
  | num q => exact ofRat_idem q T h
  | other => cases h

/-- The total `books.update` computes is a double, and not negative when the
stored total is not. -/
theorem updateTotal_fin (current : Book) (f : Field) (T : ℚ)
    (h0 : 0 ≤ current.total_count) (h : updateTotal current f = .fin T) :
    0 ≤ T ∧ ofRat T = .fin T := by
  unfold updateTotal at h
  simp only at h
  split_ifs at h with hc
  · rw [h] at hc
    simp only [isFinite, gtZero, Bool.true_and, decide_eq_true_eq] at hc
    exact ⟨le_of_lt hc, toNumber_fin f T h⟩
  · unfold ofInt at h
    exact ⟨ofRat_nonneg _ T h (by exact_mod_cast h0), ofRat_idem _ T h⟩

/-- The available count `books.update` computes lies between 0 and the
total. -/
theorem updateAvailable_fin (current : Book) (f : Field) (T A : ℚ)
    (hT : ofRat T = .fin T) (hT0 : 0 ≤ T)
    (h : updateAvailable current f (.fin T) = .fin A) : 0 ≤ A ∧ A ≤ T := by
  unfold updateAvailable at h
  simp only at h
  by_cases hu : f ≠ .undefined
  · rw [if_pos hu] at h
    generalize (if f.toNumber.isFinite = true then f.toNumber
      else ofInt current.available_count) = x at h
    rcases minAvailable_cases T hT hT0
        (JsNumber.sub (ofInt current.total_count) (ofInt current.available_count))
      with hm | hm | ⟨m, hm, hm0, hmT⟩
    · rw [hm, mathMax_nan_left] at h
      cases h
    · rw [hm] at h
      rcases mathMax_inf_left (mathMin (.fin T) x) with h' | h'
      · rw [h'] at h
        cases h
      · rw [h'] at h
        cases h
    · rw [hm] at h
      exact mathMax_mathMin_fin T m A x hm0 hmT h
  · rw [if_neg hu] at h
    rcases minAvailable_cases T hT hT0
        (JsNumber.sub (ofInt current.total_count) (ofInt current.available_count))
      with hm | hm | ⟨m, hm, hm0, hmT⟩
    · rw [hm] at h
      simp only [mathMin] at h
      cases h
    · rw [hm] at h
      simp only [mathMin] at h
      cases h
      exact ⟨hT0, le_refl _⟩
    · rw [hm] at h
      simp only [mathMin] at h
      cases h
      exact ⟨le_min hT0 hm0, min_le_left _ _⟩

/-- What a `books.update` on an existing title with a total that is not
negative does: it answers 500 and changes nothing, or it answers 200 and
writes the row of two Numbers `0 ≤ A ≤ T`. -/
theorem update_written (s : State) (bookId : Nat) (req : UpdateReq) (removeThrows : Bool)
    (current : Book) (hb : s.books bookId = some current)
    (h0 : 0 ≤ current.total_count) :
    ((update s bookId req removeThrows).1.status = 500 ∧
      (update s bookId req removeThrows).2 = s) ∨
    ((update s bookId req removeThrows).1 = ⟨200, .ok⟩ ∧
      (∃ T A coverUrl, updateTotal current req.total_count = .fin T ∧
        updateAvailable current req.available_count (.fin T) = .fin A ∧
        0 ≤ A ∧ A ≤ T ∧
        (update s bookId req removeThrows).2.books bookId
          = some ⟨intColumn T, intColumn A, (if 0 < A then "在馆" else "已借出"), coverUrl⟩) ∧
      (∀ t, t ≠ bookId → (update s bookId req removeThrows).2.books t = s.books t) ∧
      (update s bookId req removeThrows).2.borrow = s.borrow ∧
      (update s bookId req removeThrows).2.users = s.users) := by
  unfold update
  simp only [hb]
  split
  · left
    exact ⟨rfl, rfl⟩
  · next coverUrl _ =>
    cases hT : updateTotal current req.total_count with
    | nan => left; exact ⟨rfl, rfl⟩
    | inf negative => left; exact ⟨rfl, rfl⟩
    | fin T =>
      obtain ⟨hT0, hTd⟩ := updateTotal_fin current req.total_count T h0 hT
      cases hA : updateAvailable current req.available_count (.fin T) with
      | nan => left; exact ⟨rfl, rfl⟩
      | inf negative => left; exact ⟨rfl, rfl⟩
      | fin A =>
        obtain ⟨hA0, hAT⟩ := updateAvailable_fin current req.available_count T A hTd hT0 hA
        right
        refine ⟨rfl, ⟨T, A, coverUrl, rfl, hA, hA0, hAT, ?_⟩, ?_, rfl, rfl⟩
        · simp [hb, gtZero]
        · intro t ht
          simp [ht]

/-- The available count `books.create` computes lies between 0 and the
total. -/
theorem createAvailable_fin (f : Field) (T : ℚ) (hT0 : 0 ≤ T) :
    ∃ A, createAvailable f (.fin T) = .fin A ∧ 0 ≤ A ∧ A ≤ T := by
  unfold createAvailable
  simp only
  split_ifs with h1 h2 h3
  · cases hx : f.toNumber with
    | nan => rw [hx] at h2; cases h2
    | inf negative => rw [hx] at h2; cases h2
    | fin v =>
      exact ⟨min (max v 0) T, rfl, le_min (le_max_right _ _) hT0, min_le_right _ _⟩
  · exact ⟨T, rfl, hT0, le_refl T⟩
  · exact ⟨min (max T 0) T, rfl, le_min (le_max_right _ _) hT0, min_le_right _ _⟩
  · exact ⟨T, rfl, hT0, le_refl T⟩

/-- What a `books.create` does: it answers without a write, or it answers 201
and inserts the row of two Numbers `0 < T`, `0 ≤ A ≤ T`. -/
theorem create_written (s : State) (req : CreateReq) (insertId : Nat) :
    ((create s req insertId).1.status ≠ 201 ∧ (create s req insertId).2 = s) ∨
    (∃ T A coverUrl, req.total_count.toNumber = .fin T ∧ 0 < T ∧
      createAvailable req.available_count (.fin T) = .fin A ∧ 0 ≤ A ∧ A ≤ T ∧
      (create s req insertId).1
        = ⟨201, .bookCreated (if insertId = 0 then none else some insertId)⟩ ∧
      (create s req insertId).2.books insertId
        = some ⟨intColumn T, intColumn A, (if 0 < A then "在馆" else "已借出"), coverUrl⟩ ∧
      (∀ t, t ≠ insertId → (create s req insertId).2.books t = s.books t) ∧
      (create s req insertId).2.borrow = s.borrow ∧
      (create s req insertId).2.users = s.users) := by
  unfold create
  split
  · left; exact ⟨by simp, rfl⟩
  · split
    · left; exact ⟨by simp, rfl⟩
    · cases hT : req.total_count.toNumber with
      | nan => left; exact ⟨by simp [isFinite], rfl⟩
      | inf negative => left; exact ⟨by simp [isFinite], rfl⟩
      | fin T =>
        simp only [isFinite, leZero, Bool.not_true, Bool.false_or, decide_eq_true_eq]
        split
        · left; exact ⟨by simp, rfl⟩
        · next hpos =>
          have hpos' : 0 < T := not_le.mp hpos
          obtain ⟨A, hA, hA0, hAT⟩ := createAvailable_fin req.available_count T (le_of_lt hpos')
          split
          · left; exact ⟨by simp, rfl⟩
          · right
            refine ⟨T, A,
              (match req.file with
                | .saved url => if truthyUrl url then url else none
                | _ => none),
              rfl, hpos', hA, hA0, hAT, ?_, ?_, ?_, ?_, ?_⟩
            · rw [hA]
            · rw [hA]
              simp [insertBook, gtZero]
            · intro t ht
              rw [hA]
              simp [insertBook, ht]
            · rw [hA]
            · rw [hA]

theorem two_pow_53 : (2 : ℤ) ^ 53 = 9007199254740992 := by norm_num

theorem toNumber_safe (f : Field) (hs : f.IsSafe) :
    (f.toNumber = .nan ∧ f.toInt = none) ∨
    ∃ n : ℤ, f.toNumber = .fin n ∧ f.toInt = some n ∧ |n| ≤ 2 ^ 53 := by
  cases f with
  | undefined => exact Or.inl ⟨rfl, rfl⟩
  | empty => exact Or.inr ⟨0, by simp [Field.toNumber], rfl, by norm_num⟩
  | num q =>
    obtain ⟨n, hq, hn⟩ := hs
    subst hq
    exact Or.inr ⟨n, ofRat_intCast n hn, by simp [Field.toInt], hn⟩
  | other => exact Or.inl ⟨rfl, rfl⟩

/-- On a form value that denotes a safe integer and a stored total in the safe
range, `updateTotal` is `exactTotal`. -/
theorem updateTotal_exact (current : Book) (f : Field) (hs : f.IsSafe)
    (ht : |current.total_count| ≤ 2 ^ 53) :
    updateTotal current f = .fin ((exactTotal current f : ℤ) : ℚ) ∧
    |exactTotal current f| ≤ 2 ^ 53 := by
  unfold updateTotal exactTotal
  rcases toNumber_safe f hs with ⟨hn, hi⟩ | ⟨n, hn, hi, hb⟩
  · simp only [hn, hi, isFinite, Bool.false_and, Bool.false_eq_true, if_false]
    exact ⟨ofInt_safe _ ht, ht⟩
  · simp only [hn, hi, isFinite, gtZero, Bool.true_and, decide_eq_true_eq]
    by_cases hpos : 0 < n
    · have hpos' : (0 : ℚ) < n := by exact_mod_cast hpos
      rw [if_pos hpos', if_pos hpos]
      exact ⟨rfl, hb⟩
    · have hpos' : ¬ (0 : ℚ) < n := by exact_mod_cast hpos
      rw [if_neg hpos', if_neg hpos]
      exact ⟨ofInt_safe _ ht, ht⟩

/-- On safe integers `updateAvailable` is `exactAvailable`. -/
theorem updateAvailable_exact (current : Book) (g : Field) (T : ℤ) (hs : g.IsSafe)
    (ht0 : 0 ≤ current.total_count)
    (hle : current.available_count ≤ current.total_count)
    (ht : current.total_count ≤ 2 ^ 53)
    (hd : current.total_count - current.available_count ≤ 2 ^ 53)
    (hT0 : 0 ≤ T) (hT : T ≤ 2 ^ 53) :
    updateAvailable current g (.fin T) = .fin ((exactAvailable current g T : ℤ) : ℚ) := by
  rw [two_pow_53] at ht hT hd
  have habs : ∀ n : ℤ, -9007199254740992 ≤ n → n ≤ 9007199254740992 → |n| ≤ 2 ^ 53 := by
    intro n h1 h2
    rw [two_pow_53]
    exact abs_le.mpr ⟨h1, h2⟩
  have h1 : ofInt current.total_count = .fin current.total_count :=
    ofInt_safe _ (habs _ (by omega) ht)
  have h2 : ofInt current.available_count = .fin current.available_count :=
    ofInt_safe _ (habs _ (by omega) (by omega))
  have h3 : JsNumber.sub (.fin current.total_count) (.fin current.available_count)
      = .fin ((current.total_count - current.available_count : ℤ) : ℚ) :=
    sub_safe _ _ (habs _ (by omega) (by omega))
  have h4 : mathMax (.fin ((current.total_count - current.available_count : ℤ) : ℚ)) (.fin 0)
      = .fin ((max (current.total_count - current.available_count) 0 : ℤ) : ℚ) := by
    simp only [mathMax, Int.cast_max, Int.cast_zero]
  have h5 : JsNumber.sub (.fin T)
        (.fin ((max (current.total_count - current.available_count) 0 : ℤ) : ℚ))
      = .fin ((T - max (current.total_count - current.available_count) 0 : ℤ) : ℚ) :=
    sub_safe _ _ (habs _ (by omega) (by omega))
  have h6 : mathMax
        (.fin ((T - max (current.total_count - current.available_count) 0 : ℤ) : ℚ)) (.fin 0)
      = .fin ((max (T - max (current.total_count - current.available_count) 0) 0 : ℤ) : ℚ) := by
    simp only [mathMax, Int.cast_max, Int.cast_zero]
  unfold updateAvailable exactAvailable
  simp only [h1, h2, h3, h4, h5, h6]
  by_cases hu : g ≠ .undefined
  · rw [if_pos hu, if_pos hu]
    rcases toNumber_safe g hs with ⟨hn, hi⟩ | ⟨n, hn, hi, hb⟩
    · simp only [hn, hi, isFinite, Bool.false_eq_true, if_false, mathMax, mathMin,
        Int.cast_max, Int.cast_min]
    · simp only [hn, hi, isFinite, if_true, mathMax, mathMin, Int.cast_max, Int.cast_min]
  · rw [if_neg hu, if_neg hu]
    simp only [mathMin, Int.cast_min]

/-- `books.update` on safe integers: the row written holds `exactTotal` and
`exactAvailable`. -/
theorem update_exact (s : State) (bookId : Nat) (req : UpdateReq) (removeThrows : Bool)
    (current : Book) (hb : s.books bookId = some current)
    (ht0 : 0 ≤ current.total_count)
    (hle : current.available_count ≤ current.total_count)
    (ht : current.total_count ≤ 2 ^ 53)
    (hd : current.total_count - current.available_count ≤ 2 ^ 53)
    (hst : req.total_count.IsSafe) (hsa : req.available_count.IsSafe) :
    ((update s bookId req removeThrows).1.status = 500 ∧
      (update s bookId req removeThrows).2 = s) ∨
    ((update s bookId req removeThrows).1 = ⟨200, .ok⟩ ∧
      (∃ coverUrl, (update s bookId req removeThrows).2.books bookId
        = some ⟨exactTotal current req.total_count,
            exactAvailable current req.available_count (exactTotal current req.total_count),
            (if exactAvailable current req.available_count
                (exactTotal current req.total_count) > 0 then "在馆" else "已借出"),
            coverUrl⟩) ∧
      (∀ t, t ≠ bookId → (update s bookId req removeThrows).2.books t = s.books t) ∧
      (update s bookId req removeThrows).2.borrow = s.borrow ∧
      (update s bookId req removeThrows).2.users = s.users) := by
  have h53 := two_pow_53
  have ht' : |current.total_count| ≤ 2 ^ 53 := abs_le.mpr ⟨by omega, ht⟩
  obtain ⟨hT, hTb⟩ := updateTotal_exact current req.total_count hst ht'
  have hT0 : 0 ≤ exactTotal current req.total_count := by
    unfold exactTotal
    split
    · split <;> omega
    · omega
  have hA := updateAvailable_exact current req.available_count
    (exactTotal current req.total_count) hsa ht0 hle ht hd hT0 (abs_le.mp hTb).2
  rcases update_written s bookId req removeThrows current hb (by omega) with
    h | ⟨hresp, ⟨T, A, coverUrl, hT2, hA2, _, _, hrow⟩, hoth, hbor, husr⟩
  · exact Or.inl h
  · rw [hT] at hT2
    cases hT2
    rw [hA] at hA2
    cases hA2
    refine Or.inr ⟨hresp, ⟨coverUrl, ?_⟩, hoth, hbor, husr⟩
    rw [hrow, intColumn_intCast, intColumn_intCast]
    simp only [Int.cast_pos, gt_iff_lt]

theorem update_row_exact (s : State) (bookId : Nat) (req : UpdateReq) (removeThrows : Bool)
    (current : Book) (hb : s.books bookId = some current)
    (ht0 : 0 ≤ current.total_count)
    (hle : current.available_count ≤ current.total_count)
    (ht : current.total_count ≤ 2 ^ 53)
    (hd : current.total_count - current.available_count ≤ 2 ^ 53)
    (hst : req.total_count.IsSafe) (hsa : req.available_count.IsSafe)
    (hok : (update s bookId req removeThrows).1.status = 200) :
    ∃ coverUrl, (update s bookId req removeThrows).2.books bookId
      = some ⟨exactTotal current req.total_count,
          exactAvailable current req.available_count (exactTotal current req.total_count),
          (if exactAvailable current req.available_count
              (exactTotal current req.total_count) > 0 then "在馆" else "已借出"),
          coverUrl⟩ := by
  rcases update_exact s bookId req removeThrows current hb ht0 hle ht hd hst hsa with
    ⟨h5, _⟩ | ⟨_, hrow, _⟩
  · rw [h5] at hok
    cases hok
  · exact hrow

theorem exactTotal_nonneg (current : Book) (f : Field) (h : 0 ≤ current.total_count) :
    0 ≤ exactTotal current f := by
  unfold exactTotal
  split
  · split <;> omega
  · exact h

theorem exactAvailable_undefined (current : Book) (total : Int) :
    exactAvailable current .undefined total
      = min total (max (total - max (current.total_count - current.available_count) 0) 0) := by
  simp [exactAvailable]

theorem exactAvailable_supplied (current : Book) (f : Field) (total : Int)
    (h : f ≠ .undefined) :
    exactAvailable current f total
      = max (max (total - max (current.total_count - current.available_count) 0) 0)
          (min total (f.toInt.getD current.available_count)) := by
  unfold exactAvailable
  simp only [h, ne_eq, not_false_eq_true, if_true]
  cases f.toInt <;> rfl

/-- `books.update` without a file, once its two Numbers are known to be the
integers `T` and `A`. -/
theorem update_absent_eval (s : State) (bookId : Nat) (req : UpdateReq) (removeThrows : Bool)
    (current : Book) (T A : ℤ) (hb : s.books bookId = some current)
    (hfile : req.file = .absent)
    (hT : updateTotal current req.total_count = .fin T)
    (hA : updateAvailable current req.available_count (.fin T) = .fin A) :
    (update s bookId req removeThrows).1 = ⟨200, .ok⟩ ∧
    (update s bookId req removeThrows).2.books bookId
      = some ⟨T, A, (if 0 < A then "在馆" else "已借出"), current.cover_url⟩ := by
  unfold update
  simp [hb, hfile, hT, hA, intColumn_intCast, gtZero]

/-- `books.update` without a file on safe integers. -/
theorem update_absent_exact (s : State) (bookId : Nat) (req : UpdateReq) (removeThrows : Bool)
    (current : Book) (hb : s.books bookId = some current)
    (ht0 : 0 ≤ current.total_count)
    (hle : current.available_count ≤ current.total_count)
    (ht : current.total_count ≤ 2 ^ 53)
    (hd : current.total_count - current.available_count ≤ 2 ^ 53)
    (hst : req.total_count.IsSafe) (hsa : req.available_count.IsSafe)
    (hfile : req.file = .absent) :
    (update s bookId req removeThrows).1 = ⟨200, .ok⟩ ∧
    (update s bookId req removeThrows).2.books bookId
      = some ⟨exactTotal current req.total_count,
          exactAvailable current req.available_count (exactTotal current req.total_count),
          (if 0 < exactAvailable current req.available_count
              (exactTotal current req.total_count) then "在馆" else "已借出"),
          current.cover_url⟩ := by
  have h53 := two_pow_53
  have ht' : |current.total_count| ≤ 2 ^ 53 := abs_le.mpr ⟨by omega, ht⟩
  obtain ⟨hT, hTb⟩ := updateTotal_exact current req.total_count hst ht'
  have hT0 := exactTotal_nonneg current req.total_count (by omega)
  have hA := updateAvailable_exact current req.available_count
    (exactTotal current req.total_count) hsa ht0 hle ht hd hT0 (abs_le.mp hTb).2
  exact update_absent_eval s bookId req removeThrows current _ _ hb hfile hT hA

theorem lt_overflow (r : ℚ) (h : |r| ≤ 2 ^ (54 : ℤ)) : |r| < 2 ^ (1024 : ℤ) :=
  lt_of_le_of_lt h (zpow_lt_zpow_right₀ (by norm_num) (by norm_num))

/-- The odd integer `2^53 + 1` is half-way between two doubles and rounds to
the even one, `2^53`. -/
theorem ofRat_tie : ofRat 9007199254740993 = .fin 9007199254740992 := by
  have hlog : Int.log 2 |(9007199254740993 : ℚ)| = 53 := by
    rw [abs_of_pos (by norm_num)]
    have h := Int.log_natCast (R := ℚ) 2 9007199254740993
    have hn : Nat.log 2 9007199254740993 = 53 :=
      Nat.log_eq_of_pow_le_of_lt_pow (by norm_num) (by norm_num)
    rw [hn] at h
    exact_mod_cast h
  have hu : ulpExp 9007199254740993 = 1 := by
    unfold ulpExp
    rw [hlog]
    norm_num
  have hfloor : ⌊(9007199254740993 : ℚ) / 2 ^ (1 : ℤ)⌋ = 4503599627370496 := by
    rw [Int.floor_eq_iff]
    norm_num
  have hr : roundHalfEven ((9007199254740993 : ℚ) / 2 ^ (1 : ℤ)) = 4503599627370496 := by
    unfold roundHalfEven
    simp only [hfloor]
    norm_num
  have hval : ((4503599627370496 : ℤ) : ℚ) * 2 ^ (1 : ℤ) = 9007199254740992 := by norm_num
  unfold ofRat
  simp only [hu, hr, hval]
  rw [if_neg (not_le.mpr (lt_overflow _ (by norm_num)))]

/-- A supplied total that parses to the positive double `r` is the total. -/
theorem updateTotal_of_pos (current : Book) (q r : ℚ) (h : ofRat q = .fin r) (hr : 0 < r) :
    updateTotal current (.num q) = .fin r := by
  unfold updateTotal
  simp [Field.toNumber, h, isFinite, gtZero, hr]

/-- Lines 274-289 of `update` without an `available_count`, from the two
differences the handler computes. -/
theorem updateAvailable_absent_eval (current : Book) (T b d : ℚ)
    (hb : JsNumber.sub (ofInt current.total_count) (ofInt current.available_count) = .fin b)
    (hd : JsNumber.sub (.fin T) (.fin (max b 0)) = .fin d) :
    updateAvailable current .undefined (.fin T) = .fin (min T (max d 0)) := by
  unfold updateAvailable
  simp [hb, hd, mathMax, mathMin]

/-- `books.update` without a file, once its two Numbers are known. -/
theorem update_absent_row (s : State) (bookId : Nat) (req : UpdateReq) (removeThrows : Bool)
    (current : Book) (T A : ℚ) (hb : s.books bookId = some current)
    (hfile : req.file = .absent)
    (hT : updateTotal current req.total_count = .fin T)
    (hA : updateAvailable current req.available_count (.fin T) = .fin A) :
    (update s bookId req removeThrows).1 = ⟨200, .ok⟩ ∧
    (update s bookId req removeThrows).2.books bookId
      = some ⟨intColumn T, intColumn A, (if 0 < A then "在馆" else "已借出"),
          current.cover_url⟩ := by
  unfold update
  simp [hb, hfile, hT, hA, gtZero]

theorem sub_three_two (current : Book) (h3 : current.total_count = 3)
    (h2 : current.available_count = 2) :
    JsNumber.sub (ofInt current.total_count) (ofInt current.available_count) = .fin 1 := by
  rw [h3, h2, ofInt_safe 3 (by norm_num), ofInt_safe 2 (by norm_num)]
  have h := sub_safe 3 2 (by norm_num)
  have e : (((3 - 2 : ℤ)) : ℚ) = 1 := by norm_num
  rw [e] at h
  exact h

/-- The difference `(2^53 + 2) - 1` in doubles is `2^53`. -/
theorem sub_largeTotal :
    JsNumber.sub (.fin 9007199254740994) (.fin (max 1 0)) = .fin 9007199254740992 := by
  have e : (9007199254740994 : ℚ) - max 1 0 = 9007199254740993 := by norm_num
  have h : JsNumber.sub (.fin 9007199254740994) (.fin (max 1 0))
      = ofRat ((9007199254740994 : ℚ) - max 1 0) := rfl
  rw [h, e]
  exact ofRat_tie

theorem ofRat_largeTotal : ofRat 9007199254740994 = .fin 9007199254740994 :=
  ofRat_of_repr _ 4503599627370497 1 (by norm_num) (by norm_num) (by norm_num)
    (lt_overflow _ (by norm_num))

theorem intColumn_largeTotal : intColumn 9007199254740994 = 9007199254740994 := by
  have h := intColumn_intCast 9007199254740994
  rwa [Int.cast_ofNat] at h

theorem intColumn_largeAvailable :
    intColumn (min 9007199254740994 (max 9007199254740992 0)) = 9007199254740992 := by
  have e : min (9007199254740994 : ℚ) (max 9007199254740992 0) = 9007199254740992 := by
    norm_num
  have h := intColumn_intCast 9007199254740992
  rw [Int.cast_ofNat] at h
  rw [e]
  exact h

/-- The edit of a title with 3 copies, 2 of them available, to a total of
`2^53 + 2`: the handler computes `2^53 + 2 - 1` in doubles, which is `2^53`. -/
theorem update_largeTotal (s : State) (bookId : Nat) (current : Book) (removeThrows : Bool)
    (hb : s.books bookId = some current) (h3 : current.total_count = 3)
    (h2 : current.available_count = 2) :
    (update s bookId ⟨.num 9007199254740994, .undefined, .absent⟩ removeThrows).1
      = ⟨200, .ok⟩ ∧
    (update s bookId ⟨.num 9007199254740994, .undefined, .absent⟩ removeThrows).2.books bookId
      = some ⟨9007199254740994, 9007199254740992, "在馆", current.cover_url⟩ := by
  have hT := updateTotal_of_pos current _ _ ofRat_largeTotal (by norm_num)
  have hA := updateAvailable_absent_eval current 9007199254740994 1 9007199254740992
    (sub_three_two current h3 h2) sub_largeTotal
  have h := update_absent_row s bookId ⟨.num 9007199254740994, .undefined, .absent⟩
    removeThrows current _ _ hb rfl hT hA
  have hpos : (0 : ℚ) < min 9007199254740994 (max 9007199254740992 0) := by norm_num
  rw [intColumn_largeTotal, intColumn_largeAvailable, if_pos hpos] at h
  exact h

/-- `books.create` without a file, once its two Numbers are known. -/
theorem create_absent_row (s : State) (req : CreateReq) (insertId : Nat) (T A : ℚ)
    (htitle : req.normalizedTitle ≠ "") (hauthor : req.authorStr ≠ "")
    (hfile : req.file = .absent)
    (hT : req.total_count.toNumber = .fin T) (hpos : 0 < T)
    (hA : createAvailable req.available_count (.fin T) = .fin A) :
    (create s req insertId).1
      = ⟨201, .bookCreated (if insertId = 0 then none else some insertId)⟩ ∧
    (create s req insertId).2.books insertId
      = some ⟨intColumn T, intColumn A, (if 0 < A then "在馆" else "已借出"), none⟩ := by
  unfold create
  simp [htitle, hauthor, hfile, hT, hA, isFinite, leZero, gtZero, not_le.mpr hpos, insertBook]

/-- Lines 159-164 of `create` on a supplied value that parses to the double
`v`. -/
theorem createAvailable_num (q v T : ℚ) (hv : ofRat q = .fin v) :
    createAvailable (.num q) (.fin T) = .fin (min (max v 0) T) := by
  unfold createAvailable
  simp [Field.toNumber, hv, isFinite, mathMax, mathMin]

theorem den_one_iff (q : ℚ) : q.den = 1 ↔ ∃ m : ℤ, q = m := by
  constructor
  · intro h
    exact ⟨q.num, ((Rat.den_eq_one_iff q).mp h).symm⟩
  · rintro ⟨m, rfl⟩
    simp

theorem isIntegral_fin (q : ℚ) : (JsNumber.fin q).IsIntegral ↔ ∃ m : ℤ, q = m :=
  den_one_iff q

theorem isIntegral_ofRat (n : ℤ) : (ofRat (n : ℚ)).IsIntegral := by
  cases h : ofRat (n : ℚ) with
  | nan => trivial
  | inf negative => trivial
  | fin r => exact (isIntegral_fin r).mpr (ofRat_intCast_isInt n r h)

theorem isIntegral_toNumber (f : Field) (h : f.IsIntegral) : f.toNumber.IsIntegral := by
  cases f with
  | undefined => trivial
  | empty => exact (isIntegral_fin 0).mpr ⟨0, by simp⟩
  | num q =>
    obtain ⟨m, rfl⟩ := (den_one_iff q).mp h
    exact isIntegral_ofRat m
  | other => trivial

theorem isIntegral_sub (x y : JsNumber) (hx : x.IsIntegral) (hy : y.IsIntegral) :
    (JsNumber.sub x y).IsIntegral := by
  cases x with
  | nan => cases y <;> trivial
  | inf n =>
    cases y with
    | nan => trivial
    | inf m =>
      show (if n = m then JsNumber.nan else JsNumber.inf n).IsIntegral
      split_ifs <;> trivial
    | fin b => trivial
  | fin a =>
    cases y with
    | nan => trivial
    | inf m => trivial
    | fin b =>
      obtain ⟨m, rfl⟩ := (isIntegral_fin a).mp hx
      obtain ⟨n, rfl⟩ := (isIntegral_fin b).mp hy
      have h := isIntegral_ofRat (m - n)
      push_cast at h
      exact h

theorem isIntegral_mathMax (x y : JsNumber) (hx : x.IsIntegral) (hy : y.IsIntegral) :
    (mathMax x y).IsIntegral := by
  cases x with
  | nan => rw [mathMax_nan_left]; trivial
  | inf n =>
    cases n <;> cases y with
    | nan => trivial
    | inf m => cases m <;> trivial
    | fin b => trivial
  | fin a =>
    cases y with
    | nan => trivial
    | inf m => cases m <;> trivial
    | fin b =>
      show (JsNumber.fin (max a b)).IsIntegral
      rcases max_choice a b with h | h <;> rw [h] <;> assumption

theorem isIntegral_mathMin (x y : JsNumber) (hx : x.IsIntegral) (hy : y.IsIntegral) :
    (mathMin x y).IsIntegral := by
  cases x with
  | nan => cases y with
    | nan => trivial
    | inf m => cases m <;> trivial
    | fin b => trivial
  | inf n =>
    cases n <;> cases y with
    | nan => trivial
    | inf m => cases m <;> trivial
    | fin b => trivial
  | fin a =>
    cases y with
    | nan => trivial
    | inf m => cases m <;> trivial
    | fin b =>
      show (JsNumber.fin (min a b)).IsIntegral
      rcases min_choice a b with h | h <;> rw [h] <;> assumption

theorem isIntegral_zero : (JsNumber.fin 0).IsIntegral := (isIntegral_fin 0).mpr ⟨0, by simp⟩

theorem isIntegral_updateTotal (current : Book) (f : Field) (h : f.IsIntegral) :
    (updateTotal current f).IsIntegral := by
  unfold updateTotal
  simp only
  split_ifs
  · exact isIntegral_toNumber f h
  · exact isIntegral_ofRat _

theorem isIntegral_updateAvailable (current : Book) (g : Field) (total : JsNumber)
    (hg : g.IsIntegral) (ht : total.IsIntegral) :
    (updateAvailable current g total).IsIntegral := by
  have hmin : (mathMax (JsNumber.sub total
      (mathMax (JsNumber.sub (ofInt current.total_count) (ofInt current.available_count))
        (.fin 0))) (.fin 0)).IsIntegral :=
    isIntegral_mathMax _ _
      (isIntegral_sub _ _ ht
        (isIntegral_mathMax _ _
          (isIntegral_sub _ _ (isIntegral_ofRat _) (isIntegral_ofRat _)) isIntegral_zero))
      isIntegral_zero
  unfold updateAvailable
  simp only
  split_ifs
  · exact isIntegral_mathMax _ _ hmin (isIntegral_mathMin _ _ ht (isIntegral_toNumber g hg))
  · exact isIntegral_mathMax _ _ hmin (isIntegral_mathMin _ _ ht (isIntegral_ofRat _))
  · exact isIntegral_mathMin _ _ ht hmin

theorem isIntegral_createAvailable (g : Field) (total : JsNumber)
    (hg : g.IsIntegral) (ht : total.IsIntegral) :
    (createAvailable g total).IsIntegral := by
  unfold createAvailable
  simp only
  split_ifs
  · exact isIntegral_mathMin _ _
      (isIntegral_mathMax _ _ (isIntegral_toNumber g hg) isIntegral_zero) ht
  · exact ht
  · exact isIntegral_mathMin _ _ (isIntegral_mathMax _ _ ht isIntegral_zero) ht
  · exact ht

/-- The status the handlers derive from a Number that is an integer and not
negative is the derived status of the count the column stores. -/
theorem derived_of_integral (T A : ℚ) (c : Option String) (hA0 : 0 ≤ A)
    (hint : (JsNumber.fin A).IsIntegral) :
    DerivedStatus ⟨intColumn T, intColumn A, (if 0 < A then "在馆" else "已借出"), c⟩ := by
  obtain ⟨m, rfl⟩ := (isIntegral_fin A).mp hint
  unfold DerivedStatus
  simp only [intColumn_intCast, Int.cast_pos]
  have hm : 0 ≤ m := by exact_mod_cast hA0
  by_cases h0 : m = 0
  · simp [h0]
  · have : 0 < m := by omega
    simp [h0, this]

/-- Whatever the Number, a count the column stores as not 0 goes with the
status `'在馆'`, and the status `'已借出'` with a stored 0. -/
theorem derived_half (A : ℚ) (hA0 : 0 ≤ A) :
    (intColumn A ≠ 0 → (if 0 < A then "在馆" else "已借出") = "在馆") ∧
    ((if 0 < A then "在馆" else "已借出") = "已借出" → intColumn A = 0) := by
  by_cases h : 0 < A
  · simp [h]
  · have hz : A = 0 := le_antisymm (not_lt.mp h) hA0
    subst hz
    simp [intColumn_zero]

theorem lt_overflow_of_nonneg (r : ℚ) (h0 : 0 ≤ r) (h : r ≤ 2 ^ (54 : ℤ)) :
    |r| < 2 ^ (1024 : ℤ) := by
  rw [abs_of_nonneg h0]
  exact lt_of_le_of_lt h (zpow_lt_zpow_right₀ (by norm_num) (by norm_num))

theorem ofRat_one : ofRat 1 = .fin 1 := by
  have h := ofRat_intCast 1 (by norm_num)
  rwa [Int.cast_one] at h

theorem ofRat_quarter : ofRat (1 / 4) = .fin (1 / 4) :=
  ofRat_of_repr _ 1 (-2) (by norm_num) (by norm_num) (by norm_num)
    (lt_overflow_of_nonneg _ (by norm_num) (by norm_num))

theorem ofRat_fiveHalves : ofRat (5 / 2) = .fin (5 / 2) :=
  ofRat_of_repr _ 5 (-1) (by norm_num) (by norm_num) (by norm_num)
    (lt_overflow_of_nonneg _ (by norm_num) (by norm_num))

theorem ofRat_threeHalves : ofRat (3 / 2) = .fin (3 / 2) :=
  ofRat_of_repr _ 3 (-1) (by norm_num) (by norm_num) (by norm_num)
    (lt_overflow_of_nonneg _ (by norm_num) (by norm_num))

theorem intColumn_of_floor (q : ℚ) (n : ℤ) (h0 : 0 ≤ q) (hlo : (n : ℚ) ≤ q + 1 / 2)
    (hhi : q + 1 / 2 < n + 1) : intColumn q = n := by
  unfold intColumn
  rw [if_pos h0, Int.floor_eq_iff]
  exact ⟨hlo, hhi⟩

/-- A new title with a total of 1 and an available count of `'0.25'`: the
handler derives the status from `0.25 > 0`, the column stores 0. -/
theorem create_quarter (s : State) (insertId : Nat) :
    (create s ⟨"《书》", "作者", .num 1, .num (1 / 4), .absent⟩ insertId).1.status = 201 ∧
    (create s ⟨"《书》", "作者", .num 1, .num (1 / 4), .absent⟩ insertId).2.books insertId
      = some ⟨1, 0, "在馆", none⟩ := by
  have hA := createAvailable_num (1 / 4) (1 / 4) 1 ofRat_quarter
  have h := create_absent_row s ⟨"《书》", "作者", .num 1, .num (1 / 4), .absent⟩ insertId
    1 _ (by decide) (by decide) rfl ofRat_one (by norm_num) hA
  have e : min (max (1 / 4 : ℚ) 0) 1 = 1 / 4 := by norm_num
  have h1 : intColumn 1 = 1 := intColumn_of_floor 1 1 (by norm_num) (by norm_num) (by norm_num)
  have h4 : intColumn (1 / 4) = 0 :=
    intColumn_of_floor (1 / 4) 0 (by norm_num) (by norm_num) (by norm_num)
  have hpos : (0 : ℚ) < 1 / 4 := by norm_num
  rw [e, h1, h4, if_pos hpos] at h
  refine ⟨?_, h.2⟩
  rw [h.1]

/-- A new title with a total of `'2.5'` and an available count of `'1.5'`: the
columns store 3 and 2. -/
theorem create_halves (s : State) (insertId : Nat) :
    (create s ⟨"《书》", "作者", .num (5 / 2), .num (3 / 2), .absent⟩ insertId).1.status = 201 ∧
    (create s ⟨"《书》", "作者", .num (5 / 2), .num (3 / 2), .absent⟩ insertId).2.books insertId
      = some ⟨3, 2, "在馆", none⟩ := by
  have hA := createAvailable_num (3 / 2) (3 / 2) (5 / 2) ofRat_threeHalves
  have h := create_absent_row s ⟨"《书》", "作者", .num (5 / 2), .num (3 / 2), .absent⟩ insertId
    (5 / 2) _ (by decide) (by decide) rfl ofRat_fiveHalves (by norm_num) hA
  have e : min (max (3 / 2 : ℚ) 0) (5 / 2) = 3 / 2 := by norm_num
  have h1 : intColumn (5 / 2) = 3 :=
    intColumn_of_floor (5 / 2) 3 (by norm_num) (by norm_num) (by norm_num)
  have h4 : intColumn (3 / 2) = 2 :=
    intColumn_of_floor (3 / 2) 2 (by norm_num) (by norm_num) (by norm_num)
  have hpos : (0 : ℚ) < 3 / 2 := by norm_num
  rw [e, h1, h4, if_pos hpos] at h
  refine ⟨?_, h.2⟩
  rw [h.1]

theorem ofRat_five : ofRat 5 = .fin 5 := by
  have h := ofRat_intCast 5 (by norm_num)
  rwa [Int.cast_ofNat] at h

theorem ofRat_zero : ofRat 0 = .fin 0 := by
  have h := ofRat_intCast 0 (by norm_num)
  rwa [Int.cast_zero] at h

/-- A new title with 5 copies and an available count of 0 is accepted. -/
theorem sample_create_status :
    (create sampleState ⟨"《书》", "作者", .num 5, .num 0, .absent⟩ 3).1.status = 201 := by
  have hA := createAvailable_num 0 0 5 ofRat_zero
  have h := create_absent_row sampleState ⟨"《书》", "作者", .num 5, .num 0, .absent⟩ 3
    5 _ (by decide) (by decide) rfl ofRat_five (by norm_num) hA
  rw [h.1]

/-- The edit of title 2 of the sample catalogue to a total of 1 is accepted. -/
theorem sample_update_status :
    (update sampleState 2 ⟨.num 1, .undefined, .absent⟩ false).1.status = 200 := by
  rw [(update_absent_exact sampleState 2 ⟨.num 1, .undefined, .absent⟩ false
    ⟨3, 0, "已借出", some "/uploads/books/2.jpg"⟩ (by simp [sampleState]) (by decide)
    (by decide) (by norm_num) (by norm_num) ⟨1, by norm_num, by norm_num⟩ trivial rfl).1]

theorem round_abs_le (q : ℚ) : |roundHalfEven (q / 2 ^ ulpExp q)| ≤ 2 ^ 53 := by
  have hpos := two_zpow_pos (ulpExp q)
  have habs : |q / 2 ^ ulpExp q| < 2 ^ (53 : ℤ) := by
    rw [abs_div, abs_of_pos hpos, div_lt_iff₀ hpos, ← zpow_add₀ (by norm_num : (2 : ℚ) ≠ 0)]
    have := abs_lt_ulp q
    rwa [add_comm] at this
  have h53 : ((2 ^ 53 : ℤ) : ℚ) = 2 ^ (53 : ℤ) := by norm_num
  rw [abs_le]
  constructor
  · apply le_roundHalfEven
    have := (abs_lt.mp habs).1
    push_cast
    rw [h53] at *
    linarith
  · apply roundHalfEven_le
    have := (abs_lt.mp habs).2
    rw [h53]
    linarith

theorem ulpExp_le_two (x : ℚ) (h : |x| ≤ 2 ^ (54 : ℤ)) : ulpExp x ≤ 2 := by
  unfold ulpExp
  apply max_le _ (by norm_num)
  by_cases h0 : |x| = 0
  · rw [h0]
    simp
  have hpos : 0 < |x| := lt_of_le_of_ne (abs_nonneg x) (Ne.symm h0)
  have hlt : |x| < (2 : ℚ) ^ (55 : ℤ) :=
    lt_of_le_of_lt h (zpow_lt_zpow_right₀ (by norm_num) (by norm_num))
  have hlt' : |x| < ((2 : ℕ) : ℚ) ^ (55 : ℤ) := by
    rw [Nat.cast_ofNat]
    exact hlt
  have := (Int.lt_zpow_iff_log_lt (by norm_num) hpos).mp hlt'
  omega

/-- A value of magnitude at most `2^54` rounds to a finite double. -/
theorem ofRat_finite (x : ℚ) (h : |x| ≤ 2 ^ (54 : ℤ)) : ∃ d, ofRat x = .fin d := by
  have he := ulpExp_le_two x h
  have hN := (cast_abs_le_53 _).mp (round_abs_le x)
  have hlt : |(roundHalfEven (x / 2 ^ ulpExp x) : ℚ) * 2 ^ ulpExp x| < 2 ^ (1024 : ℤ) := by
    rw [abs_mul, abs_of_pos (two_zpow_pos _)]
    calc |(roundHalfEven (x / 2 ^ ulpExp x) : ℚ)| * 2 ^ ulpExp x
        ≤ 2 ^ (53 : ℤ) * 2 ^ (2 : ℤ) :=
          mul_le_mul hN (zpow_le_zpow_right₀ (by norm_num) he)
            (le_of_lt (two_zpow_pos _)) (le_of_lt (two_zpow_pos _))
      _ < 2 ^ (1024 : ℤ) := by norm_num
  refine ⟨roundHalfEven (x / 2 ^ ulpExp x) * 2 ^ ulpExp x, ?_⟩
  unfold ofRat
  simp only
  rw [if_neg (not_le.mpr hlt)]

/-- Rounding never crosses a double: above the double `y > 0` it stays at or
above `y`. -/
theorem le_ofRat_of_le (y x r : ℚ) (hy : ofRat y = .fin y) (hy0 : 0 < y) (hyx : y ≤ x)
    (h : ofRat x = .fin r) : y ≤ r := by
  have hx0 : 0 < x := lt_of_lt_of_le hy0 hyx
  obtain ⟨N, hN, _⟩ := ofRat_grid y y hy
  have hu := ulpExp_mono y x hy0 hyx
  rw [(ofRat_fin x r h).1]
  rcases eq_or_lt_of_le hu with heq | hlt
  · have hle : ((N : ℤ) : ℚ) ≤ x / 2 ^ ulpExp x := by
      rw [le_div_iff₀ (two_zpow_pos _), ← heq, ← hN]
      exact hyx
    have hr := le_roundHalfEven _ _ hle
    have : ((N : ℤ) : ℚ) ≤ (roundHalfEven (x / 2 ^ ulpExp x) : ℚ) := by exact_mod_cast hr
    calc y = (N : ℚ) * 2 ^ ulpExp x := by rw [← heq]; exact hN
      _ ≤ (roundHalfEven (x / 2 ^ ulpExp x) : ℚ) * 2 ^ ulpExp x :=
        mul_le_mul_of_nonneg_right this (le_of_lt (two_zpow_pos _))
  · have hex : ulpExp x = Int.log 2 |x| - 52 := by
      have hge := ulpExp_ge y
      unfold ulpExp at hlt ⊢
      apply max_eq_left
      by_contra hc
      rw [max_eq_right (le_of_lt (not_le.mp hc))] at hlt
      unfold ulpExp at hge
      omega
    have hxlow : (2 : ℚ) ^ (ulpExp x + 52) ≤ x := by
      have := Int.zpow_log_le_self (b := 2) (r := x) (by norm_num) hx0
      rw [abs_of_pos hx0] at hex
      have e : ulpExp x + 52 = Int.log 2 x := by omega
      rw [e]
      rw [Nat.cast_ofNat] at this
      exact this
    have hle : (((2 ^ 52 : ℤ)) : ℚ) ≤ x / 2 ^ ulpExp x := by
      rw [le_div_iff₀ (two_zpow_pos _)]
      have e : (((2 ^ 52 : ℤ)) : ℚ) * 2 ^ ulpExp x = 2 ^ (ulpExp x + 52) := by
        rw [zpow_add₀ (by norm_num : (2 : ℚ) ≠ 0)]
        norm_num
        ring
      rw [e]
      exact hxlow
    have hr := le_roundHalfEven _ _ hle
    have hr' : (((2 ^ 52 : ℤ)) : ℚ) ≤ (roundHalfEven (x / 2 ^ ulpExp x) : ℚ) := by
      exact_mod_cast hr
    have hylt : y < 2 ^ (ulpExp y + 53) := by
      have := abs_lt_ulp y
      rwa [abs_of_pos hy0] at this
    have hyle : y ≤ 2 ^ (ulpExp x + 52) :=
      le_of_lt (lt_of_lt_of_le hylt (zpow_le_zpow_right₀ (by norm_num) (by omega)))
    calc y ≤ 2 ^ (ulpExp x + 52) := hyle
      _ = (((2 ^ 52 : ℤ)) : ℚ) * 2 ^ ulpExp x := by
        rw [zpow_add₀ (by norm_num : (2 : ℚ) ≠ 0)]
        norm_num
        ring
      _ ≤ (roundHalfEven (x / 2 ^ ulpExp x) : ℚ) * 2 ^ ulpExp x :=
        mul_le_mul_of_nonneg_right hr' (le_of_lt (two_zpow_pos _))

/-- A double of magnitude at least `2^52` is an integer. -/
theorem double_isInt (T : ℚ) (hT : ofRat T = .fin T) (h52 : 2 ^ (52 : ℤ) ≤ T) :
    ∃ n : ℤ, T = n := by
  obtain ⟨N, hN, _⟩ := ofRat_grid T T hT
  have hpos : 0 < T := lt_of_lt_of_le (two_zpow_pos 52) h52
  have hlog : 52 ≤ Int.log 2 |T| := by
    rw [abs_of_pos hpos]
    have h52' : ((2 : ℕ) : ℚ) ^ (52 : ℤ) ≤ T := by
      rw [Nat.cast_ofNat]
      exact h52
    exact (Int.zpow_le_iff_le_log (by norm_num) hpos).mp h52'
  have he : 0 ≤ ulpExp T := by
    unfold ulpExp
    exact le_max_of_le_left (by omega)
  obtain ⟨d, hd⟩ := Int.le.dest he
  refine ⟨N * 2 ^ d, ?_⟩
  simp only [zero_add] at hd
  conv_lhs => rw [hN, ← hd]
  push_cast
  rw [zpow_natCast]

/-- The rounding of `T - b` to a double and of the two counts to integers
never loses a copy: for a double `0 ≤ T ≤ 2^53` and an integer
`0 ≤ b ≤ 2^53`, the column value of `max(T - b, 0)` is at least the column
value of `T` less `b`. -/
theorem column_floor (T d : ℚ) (b : ℤ) (hT : ofRat T = .fin T) (hT0 : 0 ≤ T)
    (hT53 : T ≤ 2 ^ (53 : ℤ)) (hb0 : 0 ≤ b) (hb : b ≤ 2 ^ 53)
    (hd : ofRat (T - b) = .fin d) : intColumn T - b ≤ intColumn (max d 0) := by
  have h53 := two_pow_53
  by_cases h52 : (2 : ℚ) ^ (52 : ℤ) ≤ T
  · obtain ⟨n, rfl⟩ := double_isInt T hT h52
    have hn0 : 0 ≤ n := by exact_mod_cast hT0
    have hn53 : n ≤ 2 ^ 53 := by
      have e : (2 : ℚ) ^ (53 : ℤ) = ((2 ^ 53 : ℤ) : ℚ) := by norm_num
      rw [e] at hT53
      exact_mod_cast hT53
    have hsub := ofRat_intCast (n - b) (abs_le.mpr ⟨by omega, by omega⟩)
    push_cast at hsub
    rw [hsub] at hd
    cases hd
    have e : max ((n : ℚ) - b) 0 = ((max (n - b) 0 : ℤ) : ℚ) := by push_cast; rfl
    rw [e, intColumn_intCast, intColumn_intCast]
    exact le_max_left _ _
  · have hTlt : T < 2 ^ (52 : ℤ) := not_le.mp h52
    have hcol0 : 0 ≤ intColumn (max d 0) := intColumn_nonneg _ (le_max_right _ _)
    by_cases hk : intColumn T - b ≤ 0
    · exact le_trans hk hcol0
    have hk1 : 1 ≤ intColumn T - b := by omega
    have hcolT : intColumn T = ⌊T + 1 / 2⌋ := by
      unfold intColumn
      rw [if_pos hT0]
    have hfl : ((intColumn T : ℤ) : ℚ) ≤ T + 1 / 2 := by
      rw [hcolT]
      exact Int.floor_le _
    have hcol52 : intColumn T ≤ 2 ^ 52 := by
      rw [hcolT]
      have : ⌊T + 1 / 2⌋ < 2 ^ 52 + 1 := by
        rw [Int.floor_lt]
        push_cast
        have e : (2 : ℚ) ^ (52 : ℤ) = 2 ^ 52 := by norm_num
        rw [e] at hTlt
        linarith
      omega
    have hy0 : (0 : ℚ) < ((intColumn T - b : ℤ) : ℚ) - 1 / 2 := by
      have : ((1 : ℤ) : ℚ) ≤ ((intColumn T - b : ℤ) : ℚ) := by exact_mod_cast hk1
      push_cast at this ⊢
      linarith
    have hyx : ((intColumn T - b : ℤ) : ℚ) - 1 / 2 ≤ T - b := by
      push_cast
      linarith
    have hrep : ofRat (((intColumn T - b : ℤ) : ℚ) - 1 / 2)
        = .fin (((intColumn T - b : ℤ) : ℚ) - 1 / 2) := by
      apply ofRat_of_repr _ (2 * (intColumn T - b) - 1) (-1)
      · push_cast
        rw [zpow_neg, zpow_one]
        ring
      · rw [abs_le]
        constructor <;> omega
      · norm_num
      · apply lt_overflow
        rw [abs_of_pos hy0]
        have : ((intColumn T - b : ℤ) : ℚ) ≤ ((2 ^ 52 : ℤ) : ℚ) := by
          exact_mod_cast (by omega : intColumn T - b ≤ 2 ^ 52)
        have e : ((2 ^ 52 : ℤ) : ℚ) ≤ 2 ^ (54 : ℤ) := by norm_num
        linarith
    have hyd := le_ofRat_of_le _ _ d hrep hy0 hyx hd
    have hmono := intColumn_mono _ _ (le_trans hyd (le_max_left d 0))
    have hcoly : intColumn (((intColumn T - b : ℤ) : ℚ) - 1 / 2) = intColumn T - b := by
      apply intColumn_of_floor _ _ (le_of_lt hy0)
      · linarith
      · linarith
    rw [hcoly] at hmono
    exact hmono

theorem le_mathMax_mathMin (T m A : ℚ) (x : JsNumber)
    (h : mathMax (.fin m) (mathMin (.fin T) x) = .fin A) : m ≤ A := by
  cases x with
  | nan => cases h
  | inf negative =>
    cases negative
    · simp only [mathMin, mathMax] at h
      cases h
      exact le_max_left _ _
    · simp only [mathMin, mathMax] at h
      cases h
      exact le_refl _
  | fin v =>
    simp only [mathMin, mathMax] at h
    cases h
    exact le_max_left _ _

/-- The available count `books.update` computes is at least the Number
`max(total - borrowedCount, 0)` it computed first. -/
theorem updateAvailable_floor (current : Book) (f : Field) (T β d A : ℚ)
    (hT : ofRat T = .fin T) (hT0 : 0 ≤ T) (hβ0 : 0 ≤ β)
    (hβ : mathMax (JsNumber.sub (ofInt current.total_count)
      (ofInt current.available_count)) (.fin 0) = .fin β)
    (hd : ofRat (T - β) = .fin d)
    (hA : updateAvailable current f (.fin T) = .fin A) : max d 0 ≤ A := by
  have hsub : JsNumber.sub (.fin T) (.fin β) = .fin d := hd
  have hm : mathMax (.fin d) (.fin 0) = .fin (max d 0) := rfl
  unfold updateAvailable at hA
  simp only at hA
  rw [hβ, hsub, hm] at hA
  by_cases hu : f ≠ .undefined
  · rw [if_pos hu] at hA
    exact le_mathMax_mathMin T _ A _ hA
  · rw [if_neg hu] at hA
    simp only [mathMin] at hA
    cases hA
    have hdT : d ≤ T := ofRat_le_of_le T (T - β) d hT hT0 (by linarith) hd
    exact le_min (max_le hdT hT0) (le_refl _)

theorem ofRat_two_pow_53 : ofRat (2 ^ (53 : ℤ)) = .fin (2 ^ (53 : ℤ)) :=
  ofRat_of_repr _ 1 53 (by norm_num) (by norm_num) (by norm_num)
    (lt_overflow_of_nonneg _ (le_of_lt (two_zpow_pos _))
      (zpow_le_zpow_right₀ (by norm_num) (by norm_num)))

/-- The total `books.update` computes is at most `2^53` when the stored total
and the supplied one are. -/
theorem updateTotal_le (current : Book) (f : Field) (T : ℚ)
    (ht : |current.total_count| ≤ 2 ^ 53)
    (hreq : ∀ q, f = .num q → q ≤ 2 ^ (53 : ℤ))
    (h : updateTotal current f = .fin T) : T ≤ 2 ^ (53 : ℤ) := by
  unfold updateTotal at h
  simp only at h
  split_ifs at h with hc
  · cases f with
    | undefined => cases h
    | empty =>
      cases h
      exact le_of_lt (two_zpow_pos _)
    | num q =>
      exact ofRat_le_of_le _ q T ofRat_two_pow_53 (le_of_lt (two_zpow_pos _))
        (hreq q rfl) h
    | other => cases h
  · rw [ofInt_safe _ ht] at h
    cases h
    exact le_trans (le_abs_self _) ((cast_abs_le_53 _).mp ht)

/-- The copies on loan as `books.update` computes them from stored counts
`0 ≤ a ≤ t ≤ 2^53`. -/
theorem borrowedCount_safe (current : Book) (h0 : 0 ≤ current.available_count)
    (hle : current.available_count ≤ current.total_count)
    (ht : current.total_count ≤ 2 ^ 53) :
    mathMax (JsNumber.sub (ofInt current.total_count) (ofInt current.available_count))
      (.fin 0) = .fin ((current.total_count - current.available_count : ℤ) : ℚ) := by
  have h53 := two_pow_53
  rw [ofInt_safe _ (abs_le.mpr ⟨by omega, ht⟩), ofInt_safe _ (abs_le.mpr ⟨by omega, by omega⟩),
    sub_safe _ _ (abs_le.mpr ⟨by omega, by omega⟩)]
  show JsNumber.fin (max _ 0) = _
  rw [max_eq_left]
  exact_mod_cast (by omega : 0 ≤ current.total_count - current.available_count)

/-- What `books.update` leaves of the copies on loan: for stored counts
`0 ≤ a ≤ t ≤ 2^53` and a supplied total that, if a number, is at most `2^53`,
the row written keeps `T - A ≤ t - a`. -/
theorem update_floor (s : State) (bookId : Nat) (req : UpdateReq) (removeThrows : Bool)
    (current : Book) (hb : s.books bookId = some current)
    (h0 : 0 ≤ current.available_count)
    (hle : current.available_count ≤ current.total_count)
    (ht : current.total_count ≤ 2 ^ 53)
    (hreq : ∀ q, req.total_count = .num q → q ≤ 2 ^ (53 : ℤ)) :
    ∀ b', (update s bookId req removeThrows).2.books bookId = some b' →
      0 ≤ b'.available_count ∧
      b'.total_count - b'.available_count
        ≤ current.total_count - current.available_count := by
  intro b' hb'
  have h53 := two_pow_53
  rcases update_written s bookId req removeThrows current hb (by omega) with
    ⟨_, hs⟩ | ⟨_, ⟨T, A, c, hT, hA, hA0, hAT, hrow⟩, _⟩
  · rw [hs, hb] at hb'
    cases hb'
    exact ⟨h0, le_refl _⟩
  · rw [hrow] at hb'
    cases hb'
    obtain ⟨hT0, hTd⟩ := updateTotal_fin current req.total_count T (by omega) hT
    have hT53 := updateTotal_le current req.total_count T (abs_le.mpr ⟨by omega, ht⟩) hreq hT
    have hβ := borrowedCount_safe current h0 hle ht
    have hβ0 : (0 : ℚ) ≤ ((current.total_count - current.available_count : ℤ) : ℚ) := by
      exact_mod_cast (by omega : 0 ≤ current.total_count - current.available_count)
    have hβ53 : ((current.total_count - current.available_count : ℤ) : ℚ) ≤ 2 ^ (53 : ℤ) := by
      have e : (2 : ℚ) ^ (53 : ℤ) = ((2 ^ 53 : ℤ) : ℚ) := by norm_num
      rw [e]
      exact_mod_cast (by omega : current.total_count - current.available_count ≤ 2 ^ 53)
    obtain ⟨d, hd⟩ := ofRat_finite
      (T - ((current.total_count - current.available_count : ℤ) : ℚ)) (by
        rw [abs_le]
        have e : (2 : ℚ) ^ (54 : ℤ) = 2 * 2 ^ (53 : ℤ) := by norm_num
        constructor <;> linarith)
    have hfl := updateAvailable_floor current req.available_count T _ d A hTd hT0 hβ0 hβ hd hA
    have hcol := column_floor T d (current.total_count - current.available_count) hTd hT0
      hT53 (by omega) (by omega) hd
    have hmono := intColumn_mono _ _ hfl
    have hA0' := intColumn_nonneg A hA0
    dsimp only
    constructor
    · exact hA0'
    · omega

/-- Lines 274-289 of `update` with an `available_count` that parses to the
double `v`, from the two differences the handler computes. -/
theorem updateAvailable_supplied_eval (current : Book) (q T b d v : ℚ)
    (hb : JsNumber.sub (ofInt current.total_count) (ofInt current.available_count) = .fin b)
    (hd : JsNumber.sub (.fin T) (.fin (max b 0)) = .fin d)
    (hv : ofRat q = .fin v) :
    updateAvailable current (.num q) (.fin T) = .fin (max (max d 0) (min T v)) := by
  unfold updateAvailable
  simp [hb, hd, hv, Field.toNumber, isFinite, mathMax, mathMin]

theorem sub_fiveHalves :
    JsNumber.sub (.fin (5 / 2)) (.fin (max 1 0)) = .fin (3 / 2) := by
  have e : (5 / 2 : ℚ) - max 1 0 = 3 / 2 := by norm_num
  have h : JsNumber.sub (.fin (5 / 2)) (.fin (max 1 0)) = ofRat ((5 / 2 : ℚ) - max 1 0) := rfl
  rw [h, e]
  exact ofRat_threeHalves

/-- Title 1 of the sample catalogue (3 copies, 2 available) edited to a total
of `'2.5'` with an `available_count` of `'0.25'`: the columns store 3 and 2. -/
theorem sample_update_halves :
    (update sampleState 1 ⟨.num (5 / 2), .num (1 / 4), .absent⟩ false).2.books 1
      = some ⟨3, 2, "在馆", none⟩ := by
  have hT := updateTotal_of_pos ⟨3, 2, "在馆", none⟩ _ _ ofRat_fiveHalves (by norm_num)
  have hA := updateAvailable_supplied_eval ⟨3, 2, "在馆", none⟩ (1 / 4) (5 / 2) 1 (3 / 2)
    (1 / 4) (sub_three_two _ rfl rfl) sub_fiveHalves ofRat_quarter
  have h := (update_absent_row sampleState 1 ⟨.num (5 / 2), .num (1 / 4), .absent⟩
    false ⟨3, 2, "在馆", none⟩ _ _ (by simp [sampleState]) rfl hT hA).2
  have e : max (max (3 / 2 : ℚ) 0) (min (5 / 2) (1 / 4)) = 3 / 2 := by norm_num
  have h1 : intColumn (5 / 2) = 3 :=
    intColumn_of_floor (5 / 2) 3 (by norm_num) (by norm_num) (by norm_num)
  have h4 : intColumn (3 / 2) = 2 :=
    intColumn_of_floor (3 / 2) 2 (by norm_num) (by norm_num) (by norm_num)
  have hpos : (0 : ℚ) < 3 / 2 := by norm_num
  rw [e, h1, h4, if_pos hpos] at h
  exact h
end CatalogHelpers

section SequenceHelpers

open borrowController

theorem updateBookCounts_isSome (books : Nat → Option Book) (t : Nat) (a : Int) (st : String)
    (i : Nat) : (updateBookCounts books t a st i).isSome = (books i).isSome := by
  unfold updateBookCounts
  by_cases hi : i = t <;> simp [hi]

theorem restoreCopy_isSome (books : Nat → Option Book) (t : Nat) (b : Book) (i : Nat) :
    (restoreCopy books t b i).isSome = (books i).isSome :=
  updateBookCounts_isSome books t _ _ i

theorem mem_markReturned (L : List Loan) (now x : Nat) (l' : Loan)
    (h : l' ∈ markReturned L now x) :
    l' ∈ L ∨ ∃ l ∈ L, l' = { l with return_date := some now, status := "已还" } := by
  unfold markReturned at h
  rw [List.mem_map] at h
  obtain ⟨a, ha, hal⟩ := h
  by_cases hax : a.id = x
  · rw [if_pos hax] at hal
    exact Or.inr ⟨a, ha, hal.symm⟩
  · rw [if_neg hax] at hal
    exact Or.inl (hal ▸ ha)

/-- A state whose loans all carry the title of an earlier loan and whose titles
all still exist keeps every loan on an existing title. -/
theorem titleRefs_of (s s' : State) (h : TitleRefs s)
    (hbor : ∀ l' ∈ s'.borrow, ∃ l ∈ s.borrow, l.book_id = l'.book_id)
    (hbk : ∀ i, (s.books i).isSome = true → (s'.books i).isSome = true) : TitleRefs s' := by
  intro l' hl'
  obtain ⟨l, hl, hid⟩ := hbor l' hl'
  rw [← hid]
  exact hbk _ (h l hl)

theorem titleRefs_autoReturn (now : Nat) (s : State) (r : Loan) (h : TitleRefs s) :
    TitleRefs (usersController.autoReturn now s r) := by
  apply titleRefs_of s _ h
  · intro l' hl'
    rw [autoReturn_borrow] at hl'
    rcases mem_markReturned _ _ _ _ hl' with hl | ⟨l, hl, rfl⟩
    · exact ⟨l', hl, rfl⟩
    · exact ⟨l, hl, rfl⟩
  · intro i hi
    rw [autoReturn_books_apply]
    split
    · simpa using hi
    · exact hi

theorem titleRefs_foldl_autoReturn (now : Nat) (rows : List Loan) (s : State)
    (h : TitleRefs s) : TitleRefs (rows.foldl (usersController.autoReturn now) s) := by
  induction rows generalizing s with
  | nil => exact h
  | cons r rows ih => exact ih _ (titleRefs_autoReturn now s r h)

theorem return_state_cases (s : State) (now : Nat) (borrowId : Option Nat) :
    («return» s now borrowId).2 = s ∨
    ∃ record ∈ s.borrow, («return» s now borrowId).2 = usersController.autoReturn now s record := by
  by_cases hok : («return» s now borrowId).1.status = 200
  · obtain ⟨x, record, rest, book, rfl, hsel, hst, hb⟩ := return_success_of s now borrowId hok
    right
    refine ⟨record, (selectBorrowById_head _ _ _ _ hsel).1, ?_⟩
    rw [return_eq_autoReturn s now x record rest book hsel hst hb]
  · left
    unfold «return» at hok ⊢
    split
    · rfl
    · split
      · rfl
      · simp only
        split
        · rfl
        · split
          · rfl
          · exfalso
            apply hok
            simp [*]

theorem titleRefs_step (s : State) (op : Op) (h : TitleRefs s) : TitleRefs (op.apply s) := by
  cases op with
  | borrow now req =>
    simp only [Op.apply]
    unfold create
    split
    · exact h
    · next t u _ =>
      cases hb : s.books t with
      | none => rw [createTx_notFound s now t u hb]; exact h
      | some b =>
        by_cases hav : b.available_count ≤ 0
        · rw [createTx_outOfStock s now t u b hb hav]; exact h
        · rw [createTx_success s now t u b hb (by omega)]
          intro l hl
          simp only [List.mem_append, List.mem_singleton] at hl
          simp only [updateBookCounts_isSome]
          rcases hl with hl | rfl
          · exact h l hl
          · simp [hb]
  | giveBack now borrowId =>
    simp only [Op.apply]
    rcases return_state_cases s now borrowId with hs | ⟨record, _, hs⟩
    · rw [hs]; exact h
    · rw [hs]; exact titleRefs_autoReturn now s record h
  | adminDeleteLoan borrowId =>
    simp only [Op.apply]
    cases borrowId with
    | none => exact h
    | some x =>
      cases hsel : selectBorrowById s.borrow x with
      | nil => simp only [remove, hsel]; exact h
      | cons record rest =>
        obtain ⟨_, hbor, _, hbooks⟩ := remove_of_select s x record rest hsel
        apply titleRefs_of s _ h
        · intro l' hl'
          rw [hbor, mem_deleteBorrowById] at hl'
          exact ⟨l', hl'.1, rfl⟩
        · intro i hi
          rw [hbooks]
          split
          · split
            · rw [restoreCopy_isSome]; exact hi
            · exact hi
          · exact hi
  | cascadeDeleteTitle bookId removeThrows =>
    simp only [Op.apply]
    cases hb : s.books bookId with
    | none => simp only [booksController.remove, hb]; exact h
    | some b =>
      have hst : (booksController.remove s bookId removeThrows).2
          = { s with borrow := deleteBorrowByBook s.borrow bookId,
                     books := deleteBook s.books bookId } := by
        simp only [booksController.remove, hb]
        split <;> rfl
      rw [hst]
      intro l hl
      simp only [deleteBorrowByBook, List.mem_filter, decide_eq_true_eq] at hl
      simp only [deleteBook, hl.2, if_false]
      exact h l hl.1
  | cascadeDeleteBorrower now caller userId =>
    simp only [Op.apply]
    unfold usersController.remove
    split
    · exact h
    · split
      · exact h
      · exact titleRefs_foldl_autoReturn now _ s h

theorem datesTyped_markReturned (s s' : State) (now x : Nat) (h : DatesTyped s)
    (hbor : s'.borrow = markReturned s.borrow now x) : DatesTyped s' := by
  intro l' hl'
  rw [hbor] at hl'
  rcases mem_markReturned _ _ _ _ hl' with hl | ⟨l, _, rfl⟩
  · exact h l' hl
  · simp [Loan.isClosed]

theorem chronological_markReturned (s s' : State) (now x : Nat) (h : Chronological s)
    (hclock : ClockAfter s now) (hbor : s'.borrow = markReturned s.borrow now x) :
    Chronological s' := by
  intro l' hl' d hd
  rw [hbor] at hl'
  rcases mem_markReturned _ _ _ _ hl' with hl | ⟨l, hl, rfl⟩
  · exact h l' hl d hd
  · simp only [Option.some.injEq] at hd
    subst hd
    exact hclock l hl

theorem clockAfter_markReturned (s s' : State) (now x clock : Nat) (h : ClockAfter s clock)
    (hbor : s'.borrow = markReturned s.borrow now x) : ClockAfter s' clock := by
  intro l' hl'
  rw [hbor] at hl'
  rcases mem_markReturned _ _ _ _ hl' with hl | ⟨l, hl, rfl⟩
  · exact h l' hl
  · exact h l hl

theorem dates_foldl_autoReturn (now : Nat) (rows : List Loan) (s : State) :
    (DatesTyped s → DatesTyped (rows.foldl (usersController.autoReturn now) s)) ∧
    (Chronological s → ClockAfter s now →
      Chronological (rows.foldl (usersController.autoReturn now) s)) := by
  induction rows generalizing s with
  | nil => exact ⟨id, fun h _ => h⟩
  | cons r rows ih =>
    have hbor := autoReturn_borrow now s r
    refine ⟨fun h => (ih _).1 (datesTyped_markReturned s _ now r.id h hbor), fun h hc => ?_⟩
    exact (ih _).2 (chronological_markReturned s _ now r.id h hc hbor)
      (clockAfter_markReturned s _ now r.id now hc hbor)

theorem remove_borrow_subset (s : State) (borrowId : Option Nat) :
    (remove s borrowId).2.borrow ⊆ s.borrow := by
  cases borrowId with
  | none => exact fun l hl => hl
  | some x =>
    cases hsel : selectBorrowById s.borrow x with
    | nil => simp only [remove, hsel]; exact fun l hl => hl
    | cons record rest =>
      rw [(remove_of_select s x record rest hsel).2.1]
      intro l hl
      exact ((mem_deleteBorrowById _ _ _).mp hl).1

theorem create_borrow_cases (s : State) (now : Nat) (req : CreateReq) :
    (create s now req).2.borrow = s.borrow ∨
    ∃ id t u, (create s now req).2.borrow = s.borrow ++ [⟨id, t, u, now, none, "借出"⟩] := by
  unfold create
  split
  · exact Or.inl rfl
  · next t u _ =>
    cases hb : s.books t with
    | none => rw [createTx_notFound s now t u hb]; exact Or.inl rfl
    | some b =>
      by_cases hav : b.available_count ≤ 0
      · rw [createTx_outOfStock s now t u b hb hav]; exact Or.inl rfl
      · rw [createTx_success s now t u b hb (by omega)]
        exact Or.inr ⟨_, _, _, rfl⟩

theorem derived_of_nonneg (a : Int) (h : 0 ≤ a) :
    (if a > 0 then "在馆" else "已借出") = if a = 0 then "已借出" else "在馆" := by
  by_cases h0 : a = 0
  · simp [h0]
  · have : a > 0 := by omega
    simp [h0, this]

theorem restored_derived (b : Book) (h0 : 0 ≤ b.available_count)
    (hle : b.available_count ≤ b.total_count) : DerivedStatus b.restored := by
  unfold DerivedStatus Book.restored stockStatus
  exact derived_of_nonneg _ (by omega)

theorem iterate_restored_derived (n : Nat) (b : Book) (h0 : 0 ≤ b.available_count)
    (hle : b.available_count ≤ b.total_count) : DerivedStatus (Book.restored^[n + 1] b) := by
  rw [Function.iterate_succ_apply']
  obtain ⟨h1, h2⟩ := iterate_restored n b hle
  apply restored_derived
  · rw [h1]
    omega
  · rw [h1, h2]
    omega

end SequenceHelpers

section FaultHelpers

open borrowController

theorem caught_refines (msg : String) (c : Conn) (s : State) (plain : Response × State)
    (h : c.committed = s) : (Run.caught msg c).Refines s plain := by
  subst h
  unfold Run.Refines SameTables
  exact ⟨fun _ => ⟨rfl, rfl, rfl, rfl⟩, fun h => by cases h⟩

theorem sent_refines (r : Response) (st s : State) (plain : Response × State)
    (h : (r, st) = plain) : (Run.sent r st).Refines s plain := by
  unfold Run.Refines
  exact ⟨fun h => (by cases h), fun _ => h⟩

theorem createWithFaults_refines (fails : Nat → Bool) (s : State) (now : Nat)
    (req : CreateReq) : (createWithFaults fails s now req).Refines s (create s now req) := by
  unfold createWithFaults create
  cases hreq : resolve req with
  | error r => exact sent_refines _ _ _ _ rfl
  | ok p =>
    obtain ⟨t, u⟩ := p
    simp only [Conn.beginTransaction]
    by_cases h0 : fails 0 = true
    · rw [if_pos h0]; exact caught_refines _ _ _ _ rfl
    rw [if_neg h0]
    by_cases h1 : fails 1 = true
    · rw [if_pos h1]; exact caught_refines _ _ _ _ rfl
    rw [if_neg h1]
    cases hb : s.books t with
    | none =>
      rw [createTx_notFound s now t u hb]
      exact sent_refines _ _ _ _ rfl
    | some b =>
      simp only
      by_cases hav : b.available_count ≤ 0
      · rw [if_pos hav, createTx_outOfStock s now t u b hb hav]
        exact sent_refines _ _ _ _ rfl
      rw [if_neg hav, createTx_success s now t u b hb (by omega)]
      by_cases h2 : fails 2 = true
      · rw [if_pos h2]; exact caught_refines _ _ _ _ rfl
      rw [if_neg h2]
      by_cases h3 : fails 3 = true
      · rw [if_pos h3]; exact caught_refines _ _ _ _ rfl
      rw [if_neg h3]
      by_cases h4 : fails 4 = true
      · rw [if_pos h4]; exact caught_refines _ _ _ _ rfl
      rw [if_neg h4]
      exact sent_refines _ _ _ _ rfl

theorem returnWithFaults_refines (fails : Nat → Bool) (s : State) (now : Nat)
    (borrowId : Option Nat) :
    (returnWithFaults fails s now borrowId).Refines s («return» s now borrowId) := by
  unfold returnWithFaults «return»
  cases borrowId with
  | none => exact sent_refines _ _ _ _ rfl
  | some x =>
    simp only [Conn.beginTransaction, Conn.query]
    by_cases h0 : fails 0 = true
    · rw [if_pos h0]; exact caught_refines _ _ _ _ rfl
    rw [if_neg h0]
    by_cases h1 : fails 1 = true
    · rw [if_pos h1]; exact caught_refines _ _ _ _ rfl
    rw [if_neg h1]
    cases hsel : selectBorrowById s.borrow x with
    | nil => exact sent_refines _ _ _ _ rfl
    | cons record rest =>
      simp only
      by_cases hst : record.status = "已还"
      · simp only [if_pos hst]
        exact sent_refines _ _ _ _ rfl
      simp only [if_neg hst]
      by_cases h2 : fails 2 = true
      · rw [if_pos h2]; exact caught_refines _ _ _ _ rfl
      rw [if_neg h2]
      by_cases h3 : fails 3 = true
      · rw [if_pos h3]; exact caught_refines _ _ _ _ rfl
      rw [if_neg h3]
      cases hb : s.books record.book_id with
      | none => exact sent_refines _ _ _ _ rfl
      | some book =>
        simp only
        by_cases h4 : fails 4 = true
        · rw [if_pos h4]; exact caught_refines _ _ _ _ rfl
        rw [if_neg h4]
        by_cases h5 : fails 5 = true
        · rw [if_pos h5]; exact caught_refines _ _ _ _ rfl
        rw [if_neg h5]
        exact sent_refines _ _ _ _ rfl

theorem removeWithFaults_refines (fails : Nat → Bool) (s : State) (borrowId : Option Nat) :
    (removeWithFaults fails s borrowId).Refines s (remove s borrowId) := by
  unfold removeWithFaults remove
  cases borrowId with
  | none => exact sent_refines _ _ _ _ rfl
  | some x =>
    simp only [Conn.beginTransaction, Conn.query]
    by_cases h0 : fails 0 = true
    · rw [if_pos h0]; exact caught_refines _ _ _ _ rfl
    rw [if_neg h0]
    by_cases h1 : fails 1 = true
    · rw [if_pos h1]; exact caught_refines _ _ _ _ rfl
    rw [if_neg h1]
    cases hsel : selectBorrowById s.borrow x with
    | nil => exact sent_refines _ _ _ _ rfl
    | cons record rest =>
      simp only
      by_cases h2 : fails 2 = true
      · rw [if_pos h2]; exact caught_refines _ _ _ _ rfl
      rw [if_neg h2]
      by_cases hopen : record.status = "借出"
      · simp only [hopen, decide_True, if_true]
        by_cases h3 : fails 3 = true
        · rw [if_pos h3]; exact caught_refines _ _ _ _ rfl
        rw [if_neg h3]
        cases hb : s.books record.book_id with
        | none =>
          simp only
          by_cases h4 : fails 4 = true
          · rw [if_pos h4]; exact caught_refines _ _ _ _ rfl
          rw [if_neg h4]
          exact sent_refines _ _ _ _ rfl
        | some book =>
          simp only
          by_cases h4 : fails 4 = true
          · rw [if_pos h4]; exact caught_refines _ _ _ _ rfl
          rw [if_neg h4]
          by_cases h5 : fails 5 = true
          · rw [if_pos h5]; exact caught_refines _ _ _ _ rfl
          rw [if_neg h5]
          exact sent_refines _ _ _ _ rfl
      · simp only [hopen, decide_False, Bool.false_eq_true, if_false]
        by_cases h3 : fails 3 = true
        · rw [if_pos h3]; exact caught_refines _ _ _ _ rfl
        rw [if_neg h3]
        exact sent_refines _ _ _ _ rfl

theorem autoReturnWithFaults_spec (fails : Nat → Bool) (now : Nat) (rows : List Loan)
    (k : Nat) (c : Conn) :
    (∀ c', usersController.autoReturnWithFaults fails now k c rows = .error c' →
      c'.committed = c.committed) ∧
    (∀ c' k', usersController.autoReturnWithFaults fails now k c rows = .ok (c', k') →
      c'.committed = c.committed ∧
      c'.working = rows.foldl (usersController.autoReturn now) c.working) := by
  induction rows generalizing k c with
  | nil =>
    unfold usersController.autoReturnWithFaults
    refine ⟨fun c' h => (by cases h), fun c' k' h => ?_⟩
    cases h
    exact ⟨rfl, rfl⟩
  | cons r rows ih =>
    unfold usersController.autoReturnWithFaults
    simp only [Conn.query]
    by_cases h0 : fails k = true
    · rw [if_pos h0]
      refine ⟨fun c' h => ?_, fun c' k' h => by cases h⟩
      cases h
      rfl
    rw [if_neg h0]
    by_cases h1 : fails (k + 1) = true
    · rw [if_pos h1]
      refine ⟨fun c' h => ?_, fun c' k' h => by cases h⟩
      cases h
      rfl
    rw [if_neg h1]
    cases hb : c.working.books r.book_id with
    | none =>
      simp only
      have hstep : usersController.autoReturn now c.working r
          = { c.working with borrow := markReturned c.working.borrow now r.id } := by
        simp [usersController.autoReturn, hb]
      rw [List.foldl_cons, hstep]
      exact ih (k + 2) _
    | some book =>
      simp only
      by_cases h2 : fails (k + 2) = true
      · rw [if_pos h2]
        refine ⟨fun c' h => ?_, fun c' k' h => by cases h⟩
        cases h
        rfl
      rw [if_neg h2]
      have hstep : usersController.autoReturn now c.working r
          = { c.working with
              borrow := markReturned c.working.borrow now r.id
              books := restoreCopy c.working.books r.book_id book } := by
        simp [usersController.autoReturn, hb]
      rw [List.foldl_cons, hstep]
      exact ih (k + 3) _

theorem usersRemoveWithFaults_refines (fails : Nat → Bool) (s : State) (now : Nat)
    (caller : Option AuthUser) (userId : Nat) :
    (usersController.removeWithFaults fails s now caller userId).Refines s
      (usersController.remove s now caller userId) := by
  unfold usersController.removeWithFaults usersController.remove
  by_cases hc : caller.map (fun u => u.id) = some userId
  · simp only [if_pos hc]
    exact sent_refines _ _ _ _ rfl
  simp only [if_neg hc, Conn.beginTransaction, Conn.query]
  by_cases h0 : fails 0 = true
  · rw [if_pos h0]; exact caught_refines _ _ _ _ rfl
  rw [if_neg h0]
  by_cases h1 : fails 1 = true
  · rw [if_pos h1]; exact caught_refines _ _ _ _ rfl
  rw [if_neg h1]
  cases hu : s.users userId with
  | none => exact sent_refines _ _ _ _ rfl
  | some usr =>
    simp only
    by_cases h2 : fails 2 = true
    · rw [if_pos h2]; exact caught_refines _ _ _ _ rfl
    rw [if_neg h2]
    have hspec := autoReturnWithFaults_spec fails now (selectOpenBorrowByUser s.borrow userId)
      3 ⟨s, s⟩
    cases hloop : usersController.autoReturnWithFaults fails now 3 ⟨s, s⟩
        (selectOpenBorrowByUser s.borrow userId) with
    | error c =>
      simp only
      exact caught_refines _ _ _ _ (hspec.1 c hloop)
    | ok p =>
      obtain ⟨c1, k⟩ := p
      obtain ⟨hcom, hwork⟩ := hspec.2 c1 k hloop
      simp only at hcom hwork ⊢
      by_cases h3 : fails k = true
      · rw [if_pos h3]; exact caught_refines _ _ _ _ hcom
      rw [if_neg h3]
      by_cases h4 : fails (k + 1) = true
      · rw [if_pos h4]; exact caught_refines _ _ _ _ hcom
      rw [if_neg h4]
      apply sent_refines
      simp only [Conn.commit, hwork]

/-- When no database call throws, the run of `books.remove` with faults is the
handler `remove`, the throw of `storage.removeByUrl` being the fault numbered
5. -/
theorem booksRemoveWithFaults_eq (fails : Nat → Bool) (s : State) (bookId : Nat)
    (h : ∀ k, k < 5 → fails k = false) :
    ((booksController.removeWithFaults fails s bookId).response,
      (booksController.removeWithFaults fails s bookId).state)
      = booksController.remove s bookId (fails 5) := by
  unfold booksController.removeWithFaults booksController.remove
  simp only [Conn.beginTransaction, Conn.query, Conn.commit, h 0 (by decide), h 1 (by decide),
    h 2 (by decide), h 3 (by decide), h 4 (by decide), Bool.false_eq_true, if_false]
  cases hb : s.books bookId with
  | none => rfl
  | some row =>
    simp only [booksController.truthyUrl]
    by_cases hc : (row.cover_url.isSome && row.cover_url != some "" && fails 5) = true
    · rw [if_pos hc, if_pos hc]
      rfl
    · rw [if_neg hc, if_neg hc]
      rfl

/-- A throw of a database call of `books.remove`, all of which precede the
commit, leaves the titles, loans and borrowers as they were. -/
theorem booksRemoveWithFaults_before_commit (fails : Nat → Bool) (s : State) (bookId : Nat)
    (h5 : fails 5 = false)
    (ht : (booksController.removeWithFaults fails s bookId).threw = true) :
    (booksController.removeWithFaults fails s bookId).response.status = 500 ∧
    SameTables s (booksController.removeWithFaults fails s bookId).state := by
  unfold booksController.removeWithFaults at ht ⊢
  simp only [Conn.beginTransaction, Conn.query, Conn.commit, h5, Bool.and_false,
    Bool.false_eq_true, if_false] at ht ⊢
  by_cases h0 : fails 0 = true
  · rw [if_pos h0]; exact (caught_refines _ _ s (⟨200, .ok⟩, s) rfl).1 rfl
  rw [if_neg h0] at ht ⊢
  by_cases h1 : fails 1 = true
  · rw [if_pos h1]; exact (caught_refines _ _ s (⟨200, .ok⟩, s) rfl).1 rfl
  rw [if_neg h1] at ht ⊢
  cases hb : s.books bookId with
  | none =>
    rw [hb] at ht
    cases ht
  | some row =>
    rw [hb] at ht
    simp only at ht ⊢
    by_cases h2 : fails 2 = true
    · rw [if_pos h2]; exact (caught_refines _ _ s (⟨200, .ok⟩, s) rfl).1 rfl
    rw [if_neg h2] at ht ⊢
    by_cases h3 : fails 3 = true
    · rw [if_pos h3]; exact (caught_refines _ _ s (⟨200, .ok⟩, s) rfl).1 rfl
    rw [if_neg h3] at ht ⊢
    by_cases h4 : fails 4 = true
    · rw [if_pos h4]; exact (caught_refines _ _ s (⟨200, .ok⟩, s) rfl).1 rfl
    rw [if_neg h4] at ht
    cases ht

theorem caught_threw_iff (msg : String) (c : Conn) (fails : Nat → Bool) (n i : Nat)
    (hi : i < n) (hf : fails i = true) :
    (Run.caught msg c).threw = true ↔ ∃ k, k < n ∧ fails k = true :=
  ⟨fun _ => ⟨i, hi, hf⟩, fun _ => rfl⟩

theorem sent_threw_iff (r : Response) (st : State) (fails : Nat → Bool) (n : Nat)
    (h : ∀ k, k < n → fails k = false) :
    (Run.sent r st).threw = true ↔ ∃ k, k < n ∧ fails k = true := by
  constructor
  · intro h'
    cases h'
  · rintro ⟨k, hk, hf⟩
    rw [h k hk] at hf
    cases hf

theorem createWithFaults_threw (fails : Nat → Bool) (s : State) (now : Nat)
    (req : CreateReq) :
    (createWithFaults fails s now req).threw = true ↔
      ∃ k, k < createCalls s req ∧ fails k = true := by
  unfold createWithFaults createCalls
  cases hreq : resolve req with
  | error r => exact sent_threw_iff _ _ _ _ (fun k hk => absurd hk (Nat.not_lt_zero k))
  | ok p =>
    obtain ⟨t, u⟩ := p
    simp only [Conn.beginTransaction]
    by_cases h0 : fails 0 = true
    · rw [if_pos h0]
      apply caught_threw_iff _ _ _ _ 0 _ h0
      repeat' split
      all_goals omega
    rw [if_neg h0]
    by_cases h1 : fails 1 = true
    · rw [if_pos h1]
      apply caught_threw_iff _ _ _ _ 1 _ h1
      repeat' split
      all_goals omega
    rw [if_neg h1]
    have h01 : ∀ k, k < 2 → fails k = false := by
      intro k hk
      interval_cases k <;> simp [h0, h1]
    cases hb : s.books t with
    | none => exact sent_threw_iff _ _ _ _ h01
    | some b =>
      simp only
      by_cases hav : b.available_count ≤ 0
      · rw [if_pos hav, if_pos hav]
        exact sent_threw_iff _ _ _ _ h01
      rw [if_neg hav, if_neg hav]
      by_cases h2 : fails 2 = true
      · rw [if_pos h2]; exact caught_threw_iff _ _ _ _ 2 (by decide) h2
      rw [if_neg h2]
      by_cases h3 : fails 3 = true
      · rw [if_pos h3]; exact caught_threw_iff _ _ _ _ 3 (by decide) h3
      rw [if_neg h3]
      by_cases h4 : fails 4 = true
      · rw [if_pos h4]; exact caught_threw_iff _ _ _ _ 4 (by decide) h4
      rw [if_neg h4]
      apply sent_threw_iff
      intro k hk
      interval_cases k <;> simp [h0, h1, h2, h3, h4]

theorem returnWithFaults_threw (fails : Nat → Bool) (s : State) (now : Nat)
    (borrowId : Option Nat) :
    (returnWithFaults fails s now borrowId).threw = true ↔
      ∃ k, k < returnCalls s borrowId ∧ fails k = true := by
  unfold returnWithFaults returnCalls
  cases borrowId with
  | none => exact sent_threw_iff _ _ _ _ (fun k hk => absurd hk (Nat.not_lt_zero k))
  | some x =>
    simp only [Conn.beginTransaction, Conn.query]
    by_cases h0 : fails 0 = true
    · rw [if_pos h0]
      apply caught_threw_iff _ _ _ _ 0 _ h0
      repeat' split
      all_goals omega
    rw [if_neg h0]
    by_cases h1 : fails 1 = true
    · rw [if_pos h1]
      apply caught_threw_iff _ _ _ _ 1 _ h1
      repeat' split
      all_goals omega
    rw [if_neg h1]
    have h01 : ∀ k, k < 2 → fails k = false := by
      intro k hk
      interval_cases k <;> simp [h0, h1]
    cases hsel : selectBorrowById s.borrow x with
    | nil => exact sent_threw_iff _ _ _ _ h01
    | cons record rest =>
      simp only
      by_cases hst : record.status = "已还"
      · simp only [if_pos hst]
        exact sent_threw_iff _ _ _ _ h01
      simp only [if_neg hst]
      by_cases h2 : fails 2 = true
      · rw [if_pos h2]
        apply caught_threw_iff _ _ _ _ 2 _ h2
        repeat' split
        all_goals omega
      rw [if_neg h2]
      by_cases h3 : fails 3 = true
      · rw [if_pos h3]
        apply caught_threw_iff _ _ _ _ 3 _ h3
        repeat' split
        all_goals omega
      rw [if_neg h3]
      cases hb : s.books record.book_id with
      | none =>
        apply sent_threw_iff
        intro k hk
        interval_cases k <;> simp [h0, h1, h2, h3]
      | some book =>
        simp only
        by_cases h4 : fails 4 = true
        · rw [if_pos h4]; exact caught_threw_iff _ _ _ _ 4 (by decide) h4
        rw [if_neg h4]
        by_cases h5 : fails 5 = true
        · rw [if_pos h5]; exact caught_threw_iff _ _ _ _ 5 (by decide) h5
        rw [if_neg h5]
        apply sent_threw_iff
        intro k hk
        interval_cases k <;> simp [h0, h1, h2, h3, h4, h5]

theorem removeWithFaults_threw (fails : Nat → Bool) (s : State) (borrowId : Option Nat) :
    (removeWithFaults fails s borrowId).threw = true ↔
      ∃ k, k < removeCalls s borrowId ∧ fails k = true := by
  unfold removeWithFaults removeCalls
  cases borrowId with
  | none => exact sent_threw_iff _ _ _ _ (fun k hk => absurd hk (Nat.not_lt_zero k))
  | some x =>
    simp only [Conn.beginTransaction, Conn.query]
    by_cases h0 : fails 0 = true
    · rw [if_pos h0]
      apply caught_threw_iff _ _ _ _ 0 _ h0
      repeat' split
      all_goals omega
    rw [if_neg h0]
    by_cases h1 : fails 1 = true
    · rw [if_pos h1]
      apply caught_threw_iff _ _ _ _ 1 _ h1
      repeat' split
      all_goals omega
    rw [if_neg h1]
    have h01 : ∀ k, k < 2 → fails k = false := by
      intro k hk
      interval_cases k <;> simp [h0, h1]
    cases hsel : selectBorrowById s.borrow x with
    | nil => exact sent_threw_iff _ _ _ _ h01
    | cons record rest =>
      simp only
      by_cases h2 : fails 2 = true
      · rw [if_pos h2]
        apply caught_threw_iff _ _ _ _ 2 _ h2
        repeat' split
        all_goals omega
      rw [if_neg h2]
      by_cases hopen : record.status = "借出"
      · simp only [hopen, decide_True, if_true]
        by_cases h3 : fails 3 = true
        · rw [if_pos h3]
          apply caught_threw_iff _ _ _ _ 3 _ h3
          repeat' split
          all_goals omega
        rw [if_neg h3]
        cases hb : s.books record.book_id with
        | none =>
          simp only
          by_cases h4 : fails 4 = true
          · rw [if_pos h4]; exact caught_threw_iff _ _ _ _ 4 (by decide) h4
          rw [if_neg h4]
          apply sent_threw_iff
          intro k hk
          interval_cases k <;> simp [h0, h1, h2, h3, h4]
        | some book =>
          simp only
          by_cases h4 : fails 4 = true
          · rw [if_pos h4]; exact caught_threw_iff _ _ _ _ 4 (by decide) h4
          rw [if_neg h4]
          by_cases h5 : fails 5 = true
          · rw [if_pos h5]; exact caught_threw_iff _ _ _ _ 5 (by decide) h5
          rw [if_neg h5]
          apply sent_threw_iff
          intro k hk
          interval_cases k <;> simp [h0, h1, h2, h3, h4, h5]
      · simp only [hopen, decide_False, Bool.false_eq_true, if_false]
        by_cases h3 : fails 3 = true
        · rw [if_pos h3]; exact caught_threw_iff _ _ _ _ 3 (by decide) h3
        rw [if_neg h3]
        apply sent_threw_iff
        intro k hk
        interval_cases k <;> simp [h0, h1, h2, h3]

theorem autoReturnCalls_congr (books books' : Nat → Option Book) (rows : List Loan)
    (h : ∀ i, (books' i).isSome = (books i).isSome) :
    usersController.autoReturnCalls books' rows = usersController.autoReturnCalls books rows := by
  unfold usersController.autoReturnCalls
  simp only [h]

theorem autoReturnWithFaults_calls (fails : Nat → Bool) (now : Nat) (rows : List Loan)
    (k : Nat) (c : Conn) :
    (∀ c', usersController.autoReturnWithFaults fails now k c rows = .error c' →
      ∃ j, k ≤ j ∧ j < k + usersController.autoReturnCalls c.working.books rows ∧
        fails j = true) ∧
    (∀ c' k', usersController.autoReturnWithFaults fails now k c rows = .ok (c', k') →
      k' = k + usersController.autoReturnCalls c.working.books rows ∧
      ∀ j, k ≤ j → j < k' → fails j = false) := by
  induction rows generalizing k c with
  | nil =>
    unfold usersController.autoReturnWithFaults
    refine ⟨fun c' h => (by cases h), fun c' k' h => ?_⟩
    cases h
    refine ⟨by simp [usersController.autoReturnCalls], fun j h1 h2 => ?_⟩
    omega
  | cons r rows ih =>
    unfold usersController.autoReturnWithFaults
    simp only [Conn.query]
    have hsum : usersController.autoReturnCalls c.working.books (r :: rows)
        = (if (c.working.books r.book_id).isSome then 3 else 2)
          + usersController.autoReturnCalls c.working.books rows := by
      simp [usersController.autoReturnCalls]
    have hge : 2 ≤ usersController.autoReturnCalls c.working.books (r :: rows) := by
      rw [hsum]
      split_ifs <;> omega
    by_cases h0 : fails k = true
    · rw [if_pos h0]
      exact ⟨fun c' _ => ⟨k, Nat.le_refl k, by omega, h0⟩, fun c' k' h => by cases h⟩
    rw [if_neg h0]
    by_cases h1 : fails (k + 1) = true
    · rw [if_pos h1]
      exact ⟨fun c' _ => ⟨k + 1, by omega, by omega, h1⟩, fun c' k' h => by cases h⟩
    rw [if_neg h1]
    cases hb : c.working.books r.book_id with
    | none =>
      simp only
      rw [hsum, hb]
      simp only [Option.isSome_none, Bool.false_eq_true, if_false]
      obtain ⟨ih1, ih2⟩ := ih (k + 2)
        ⟨c.committed, { c.working with borrow := markReturned c.working.borrow now r.id }⟩
      simp only at ih1 ih2
      constructor
      · intro c' h
        obtain ⟨j, hj1, hj2, hj3⟩ := ih1 c' h
        exact ⟨j, by omega, by omega, hj3⟩
      · intro c' k' h
        obtain ⟨hk, hall⟩ := ih2 c' k' h
        refine ⟨by omega, fun j hj1 hj2 => ?_⟩
        by_cases hjk : j = k
        · subst hjk; simpa using h0
        by_cases hjk1 : j = k + 1
        · subst hjk1; simpa using h1
        exact hall j (by omega) hj2
    | some book =>
      simp only
      rw [hsum, hb]
      simp only [Option.isSome_some, if_true]
      by_cases h2 : fails (k + 2) = true
      · rw [if_pos h2]
        exact ⟨fun c' _ => ⟨k + 2, by omega, by omega, h2⟩, fun c' k' h => by cases h⟩
      rw [if_neg h2]
      obtain ⟨ih1, ih2⟩ := ih (k + 3)
        ⟨c.committed,
          { c.working with
            borrow := markReturned c.working.borrow now r.id
            books := restoreCopy c.working.books r.book_id book }⟩
      simp only at ih1 ih2
      rw [autoReturnCalls_congr c.working.books _ rows
        (fun i => restoreCopy_isSome c.working.books r.book_id book i)] at ih1 ih2
      constructor
      · intro c' h
        obtain ⟨j, hj1, hj2, hj3⟩ := ih1 c' h
        exact ⟨j, by omega, by omega, hj3⟩
      · intro c' k' h
        obtain ⟨hk, hall⟩ := ih2 c' k' h
        refine ⟨by omega, fun j hj1 hj2 => ?_⟩
        by_cases hjk : j = k
        · subst hjk; simpa using h0
        by_cases hjk1 : j = k + 1
        · subst hjk1; simpa using h1
        by_cases hjk2 : j = k + 2
        · subst hjk2; simpa using h2
        exact hall j (by omega) hj2

theorem usersRemoveWithFaults_threw (fails : Nat → Bool) (s : State) (now : Nat)
    (caller : Option AuthUser) (userId : Nat) :
    (usersController.removeWithFaults fails s now caller userId).threw = true ↔
      ∃ k, k < usersController.removeCalls s caller userId ∧ fails k = true := by
  unfold usersController.removeWithFaults usersController.removeCalls
  by_cases hc : caller.map (fun u => u.id) = some userId
  · simp only [if_pos hc]
    exact sent_threw_iff _ _ _ _ (fun k hk => absurd hk (Nat.not_lt_zero k))
  simp only [if_neg hc, Conn.beginTransaction, Conn.query]
  by_cases h0 : fails 0 = true
  · rw [if_pos h0]
    apply caught_threw_iff _ _ _ _ 0 _ h0
    cases s.users userId <;> simp only <;> omega
  rw [if_neg h0]
  by_cases h1 : fails 1 = true
  · rw [if_pos h1]
    apply caught_threw_iff _ _ _ _ 1 _ h1
    cases s.users userId <;> simp only <;> omega
  rw [if_neg h1]
  cases hu : s.users userId with
  | none =>
    apply sent_threw_iff
    intro k hk
    interval_cases k <;> simp [h0, h1]
  | some usr =>
    simp only
    by_cases h2 : fails 2 = true
    · rw [if_pos h2]
      exact caught_threw_iff _ _ _ _ 2 (by omega) h2
    rw [if_neg h2]
    have hcalls := autoReturnWithFaults_calls fails now
      (selectOpenBorrowByUser s.borrow userId) 3 ⟨s, s⟩
    cases hloop : usersController.autoReturnWithFaults fails now 3 ⟨s, s⟩
        (selectOpenBorrowByUser s.borrow userId) with
    | error c =>
      simp only
      obtain ⟨j, hj1, hj2, hj3⟩ := hcalls.1 c hloop
      simp only at hj2
      exact caught_threw_iff _ _ _ _ j (by omega) hj3
    | ok p =>
      obtain ⟨c1, k⟩ := p
      obtain ⟨hk, hall⟩ := hcalls.2 c1 k hloop
      simp only at hk ⊢
      by_cases h3 : fails k = true
      · rw [if_pos h3]; exact caught_threw_iff _ _ _ _ k (by omega) h3
      rw [if_neg h3]
      by_cases h4 : fails (k + 1) = true
      · rw [if_pos h4]; exact caught_threw_iff _ _ _ _ (k + 1) (by omega) h4
      rw [if_neg h4]
      apply sent_threw_iff
      intro j hj
      by_cases hj0 : j = 0
      · subst hj0; simpa using h0
      by_cases hj1 : j = 1
      · subst hj1; simpa using h1
      by_cases hj2 : j = 2
      · subst hj2; simpa using h2
      by_cases hjk : j = k
      · subst hjk; simpa using h3
      by_cases hjk1 : j = k + 1
      · subst hjk1; simpa using h4
      exact hall j (by omega) (by omega)

/-- A run that refines the handler and throws exactly when one of the first
`n` calls of the plan fails: a failing call gives 500 with the tables kept, no
failing call gives the handler's answer and state. -/
theorem refines_of_calls (r : Run) (s : State) (plain : Response × State)
    (fails : Nat → Bool) (n : Nat) (href : r.Refines s plain)
    (hiff : r.threw = true ↔ ∃ k, k < n ∧ fails k = true) :
    ((∃ k, k < n ∧ fails k = true) → r.response.status = 500 ∧ SameTables s r.state) ∧
    ((∀ k, k < n → fails k = false) → r.threw = false ∧ (r.response, r.state) = plain) := by
  obtain ⟨h1, h2⟩ := href
  refine ⟨fun h => h1 (hiff.mpr h), fun h => ?_⟩
  have hf : r.threw = false := by
    cases ht : r.threw with
    | false => rfl
    | true =>
      obtain ⟨k, hk, hfk⟩ := hiff.mp ht
      rw [h k hk] at hfk
      cases hfk
  exact ⟨hf, h2 hf⟩

end FaultHelpers

/-- Witness of C10, the case `n = 3` of the specification: three borrows of
title 1 of `threeCopies`, then a fourth by user 9. -/
theorem borrow_until_exhausted_witness :
    (createMany threeCopies threeCalls).1.length = 3 ∧
    (∀ r ∈ (createMany threeCopies threeCalls).1, r.status = 201) ∧
    (∃ b', (createMany threeCopies threeCalls).2.books 1 = some b' ∧
      b'.available_count = 0 ∧ b'.total_count = (3 : Nat) ∧ b'.status = ALL_LOANED) ∧
    OutOfStock
      (borrowController.create (createMany threeCopies threeCalls).2 4 (userReq 9 1)).1 ∧
    (borrowController.create (createMany threeCopies threeCalls).2 4 (userReq 9 1)).2
      = (createMany threeCopies threeCalls).2 :=
  borrow_until_exhausted 3 (by decide) threeCopies 1 ⟨3, 3, "在馆", none⟩ threeCalls 4
    (userReq 9 1) (by simp [threeCopies]) rfl rfl rfl
    (by
      intro c hc
      simp only [threeCalls, List.mem_cons, List.mem_singleton, List.not_mem_nil,
        or_false] at hc
      rcases hc with rfl | rfl | rfl <;>
        exact ⟨_, resolve_userReq _ _ (by decide) (by decide)⟩)
    ⟨9, resolve_userReq 9 1 (by decide) (by decide)⟩

/-- C12, as stated, fails: on title 2 of the sample catalogue (3 copies, none
available, so 3 on loan) a `books.update` that sets the total to 1 writes
`(1, 0)`, 1 copy on loan; on title 1 (3 copies, 2 available, so 1 on loan) a
`books.update` that supplies `available_count = 3` writes `(3, 3)`, none on
loan. -/
theorem capacity_edit_changes_borrowed :
    (sampleState.books 2 = some ⟨3, 0, "已借出", some "/uploads/books/2.jpg"⟩ ∧
      (booksController.update sampleState 2 ⟨.num 1, .undefined, .absent⟩ false).2.books 2
        = some ⟨1, 0, "已借出", some "/uploads/books/2.jpg"⟩ ∧
      (1 : Int) - 0 ≠ 3 - 0) ∧
    (sampleState.books 1 = some ⟨3, 2, "在馆", none⟩ ∧
      (booksController.update sampleState 1 ⟨.undefined, .num 3, .absent⟩ false).2.books 1
        = some ⟨3, 3, "在馆", none⟩ ∧
      (3 : Int) - 3 ≠ 3 - 2) := by
  have h1 := (update_absent_exact sampleState 2 ⟨.num 1, .undefined, .absent⟩ false
    ⟨3, 0, "已借出", some "/uploads/books/2.jpg"⟩ (by simp [sampleState]) (by decide)
    (by decide) (by norm_num) (by norm_num) ⟨1, by norm_num, by norm_num⟩ trivial rfl).2
  have h2 := (update_absent_exact sampleState 1 ⟨.undefined, .num 3, .absent⟩ false
    ⟨3, 2, "在馆", none⟩ (by simp [sampleState]) (by decide)
    (by decide) (by norm_num) (by norm_num) trivial ⟨3, by norm_num, by norm_num⟩ rfl).2
  simp [booksController.exactTotal, booksController.exactAvailable,
    booksController.Field.toInt] at h1 h2
  exact ⟨⟨by simp [sampleState], h1, by decide⟩, ⟨by simp [sampleState], h2, by decide⟩⟩

/-- C12, amended. For a title with `0 ≤ available ≤ total ≤ 2^53` and a
`books.update` that answers 200 and whose `total_count`, if it denotes a
number, denotes one that is at most `2^53` (whole or fractional), the number
of copies on loan never grows
(`new_total - new_available ≤ old_total - old_available`); when `total_count`
and `available_count` denote integers of magnitude at most `2^53` (or no
number), it is unchanged exactly when the written total is at least
`old_total - old_available` and the request supplies no `available_count`, or
one whose value, capped at the written total, does not exceed
`new_total - (old_total - old_available)`. -/
theorem capacity_edit_borrowed (s : State) (bookId : Nat)
    (req : booksController.UpdateReq) (removeThrows : Bool) (current : Book)
    (hb : s.books bookId = some current)
    (h0 : 0 ≤ current.available_count) (hle : current.available_count ≤ current.total_count)
    (ht : current.total_count ≤ 2 ^ 53)
    (hreq : ∀ q, req.total_count = .num q → q ≤ 2 ^ 53)
    (hok : (booksController.update s bookId req removeThrows).1.status = 200) :
    ∃ b', (booksController.update s bookId req removeThrows).2.books bookId = some b' ∧
      b'.total_count - b'.available_count
        ≤ current.total_count - current.available_count ∧
      (req.total_count.IsSafe → req.available_count.IsSafe →
        (b'.total_count - b'.available_count
            = current.total_count - current.available_count ↔
          current.total_count - current.available_count ≤ b'.total_count ∧
          (req.available_count = .undefined ∨
            min b'.total_count (req.available_count.toInt.getD current.available_count)
              ≤ b'.total_count - (current.total_count - current.available_count)))) := by
  have h53 := two_pow_53
  have hreq' : ∀ q, req.total_count = .num q → q ≤ 2 ^ (53 : ℤ) := by
    intro q hq
    have := hreq q hq
    have e : (2 : ℚ) ^ (53 : ℤ) = 2 ^ 53 := by norm_num
    rw [e]
    exact this
  rcases update_written s bookId req removeThrows current hb (by omega) with
    ⟨h5, _⟩ | ⟨_, ⟨T₀, A₀, c₀, _, _, _, _, hrow₀⟩, _⟩
  · rw [h5] at hok
    cases hok
  refine ⟨_, hrow₀, (update_floor s bookId req removeThrows current hb h0 hle ht hreq'
    _ hrow₀).2, ?_⟩
  intro hst hsa
  obtain ⟨coverUrl, hrow⟩ := update_row_exact s bookId req removeThrows current hb
    (by omega) hle ht (by omega) hst hsa hok
  rw [hrow₀] at hrow
  simp only [Option.some.injEq, Book.mk.injEq] at hrow
  obtain ⟨e1, e2, _, _⟩ := hrow
  dsimp only
  rw [e1, e2]
  have hT := exactTotal_nonneg current req.total_count (by omega)
  generalize booksController.exactTotal current req.total_count = T at hT
  by_cases hu : req.available_count = .undefined
  · rw [hu, exactAvailable_undefined]
    simp only [true_or, and_true]
    omega
  · rw [exactAvailable_supplied current _ T hu]
    generalize req.available_count.toInt.getD current.available_count = a
    simp only [hu, false_or]
    omega

/-- Witness of C12 as amended: the total of title 1 of the sample catalogue
(3 copies, 2 available) is raised to 5. -/
theorem capacity_edit_borrowed_witness :
    ∃ b', (booksController.update sampleState 1 ⟨.num 5, .undefined, .absent⟩ false).2.books 1
        = some b' ∧
      b'.total_count - b'.available_count ≤ (3 : Int) - 2 ∧
      ((booksController.Field.num 5).IsSafe → booksController.Field.undefined.IsSafe →
        (b'.total_count - b'.available_count = (3 : Int) - 2 ↔
          (3 : Int) - 2 ≤ b'.total_count ∧
          (booksController.Field.undefined = booksController.Field.undefined ∨
            min b'.total_count (booksController.Field.undefined.toInt.getD 2)
              ≤ b'.total_count - ((3 : Int) - 2)))) :=
  capacity_edit_borrowed sampleState 1 ⟨.num 5, .undefined, .absent⟩ false
    ⟨3, 2, "在馆", none⟩ (by simp [sampleState]) (by decide) (by decide) (by norm_num)
    (by
      intro q hq
      cases hq
      norm_num)
    (by rw [(update_absent_exact sampleState 1 ⟨.num 5, .undefined, .absent⟩ false
      ⟨3, 2, "在馆", none⟩ (by simp [sampleState]) (by decide) (by decide) (by norm_num)
      (by norm_num) ⟨5, by norm_num, by norm_num⟩ trivial rfl).1])

/-- C13, as stated, fails: the handler computes in doubles.  On title 1 of the
sample catalogue (3 copies, 2 available, so 1 on loan) a `books.update` that
supplies the total `2^53 + 2 = 9007199254740994`, a finite number `> 0`, and no
`available_count` answers 200 and writes the available count
`9007199254740992`: the difference `9007199254740994 - 1` is no double and
rounds to `2^53`.  The formula gives `9007199254740993`. -/
theorem capacity_formula_rounds :
    sampleState.books 1 = some ⟨3, 2, "在馆", none⟩ ∧
    (booksController.update sampleState 1
      ⟨.num 9007199254740994, .undefined, .absent⟩ false).1 = ⟨200, .ok⟩ ∧
    (booksController.update sampleState 1
      ⟨.num 9007199254740994, .undefined, .absent⟩ false).2.books 1
      = some ⟨9007199254740994, 9007199254740992, "在馆", none⟩ ∧
    min (9007199254740994 : Int) (max (9007199254740994 - ((3 : Int) - 2)) 0)
      = 9007199254740993 ∧
    (9007199254740992 : Int) ≠ 9007199254740993 :=
  ⟨by simp [sampleState],
   (update_largeTotal sampleState 1 ⟨3, 2, "在馆", none⟩ false (by simp [sampleState])
      rfl rfl).1,
   (update_largeTotal sampleState 1 ⟨3, 2, "在馆", none⟩ false (by simp [sampleState])
      rfl rfl).2,
   by norm_num, by norm_num⟩

/-- C13, amended. Capacity change formula: for a title with
`available ≤ total`, `0 ≤ total ≤ 2^53` and at most `2^53` copies on loan, and
a `books.update` that supplies a new total that denotes an integer `T` with
`0 < T ≤ 2^53` and no `available_count` and answers 200, the written total is
`T` and the written available count is
`min(T, max(T - (old_total - old_available), 0))`. -/
theorem capacity_change_formula (s : State) (bookId : Nat)
    (req : booksController.UpdateReq) (removeThrows : Bool) (current : Book) (T : Int)
    (hb : s.books bookId = some current)
    (hT : req.total_count = .num T) (hpos : 0 < T) (hT53 : T ≤ 2 ^ 53)
    (hno : req.available_count = .undefined)
    (hle : current.available_count ≤ current.total_count)
    (ht0 : 0 ≤ current.total_count) (ht : current.total_count ≤ 2 ^ 53)
    (hd : current.total_count - current.available_count ≤ 2 ^ 53)
    (hok : (booksController.update s bookId req removeThrows).1.status = 200) :
    ∃ b', (booksController.update s bookId req removeThrows).2.books bookId = some b' ∧
      b'.total_count = T ∧
      b'.available_count
        = min T (max (T - (current.total_count - current.available_count)) 0) := by
  have hst : req.total_count.IsSafe := by
    rw [hT]
    exact ⟨T, rfl, abs_le.mpr ⟨by omega, hT53⟩⟩
  have hsa : req.available_count.IsSafe := by
    rw [hno]
    trivial
  obtain ⟨coverUrl, hrow⟩ := update_row_exact s bookId req removeThrows current hb
    ht0 hle ht hd hst hsa hok
  have hT' : booksController.exactTotal current req.total_count = T := by
    simp [booksController.exactTotal, booksController.Field.toInt, hT, hpos]
  refine ⟨_, hrow, hT', ?_⟩
  simp only [hT', hno, exactAvailable_undefined]
  omega

/-- Witness of C13 as amended: the total of title 2 of the sample catalogue
(3 copies, none available) is set to 5. -/
theorem capacity_change_formula_witness :
    ∃ b', (booksController.update sampleState 2
          ⟨.num ((5 : Int) : ℚ), .undefined, .absent⟩ false).2.books 2 = some b' ∧
      b'.total_count = 5 ∧
      b'.available_count = min (5 : Int) (max (5 - ((3 : Int) - 0)) 0) :=
  capacity_change_formula sampleState 2 ⟨.num ((5 : Int) : ℚ), .undefined, .absent⟩ false
    ⟨3, 0, "已借出", some "/uploads/books/2.jpg"⟩ 5 (by simp [sampleState]) rfl
    (by decide) (by norm_num) rfl (by decide) (by decide) (by norm_num) (by norm_num)
    (by rw [(update_absent_exact sampleState 2
      ⟨.num ((5 : Int) : ℚ), .undefined, .absent⟩ false
      ⟨3, 0, "已借出", some "/uploads/books/2.jpg"⟩ (by simp [sampleState]) (by decide)
      (by decide) (by norm_num) (by norm_num) ⟨5, rfl, by norm_num⟩ trivial rfl).1])

/-- C14. Catalog writes stay in range: a `books.create` answers 201 only when
`Number(total_count)` is finite and `> 0`, and the row it inserts has
`0 ≤ available_count ≤ total_count`; after a `books.update` on a title that
had `0 ≤ available ≤ total` the title again has
`0 ≤ available_count ≤ total_count`, whatever `total_count` and
`available_count` the form carries (absent, empty, any number, whole or
fractional, of any sign and magnitude, or a value that is not a finite
number); both handlers keep the range invariant of the whole catalogue. -/
theorem catalog_writes_in_range (s : State) :
    (∀ req insertId, (booksController.create s req insertId).1.status = 201 →
      (∃ T, req.total_count.toNumber = .fin T ∧ 0 < T) ∧
      ∃ b, (booksController.create s req insertId).2.books insertId = some b ∧
        0 ≤ b.available_count ∧ b.available_count ≤ b.total_count) ∧
    (∀ bookId req removeThrows current, s.books bookId = some current →
      0 ≤ current.available_count → current.available_count ≤ current.total_count →
      ∀ b', (booksController.update s bookId req removeThrows).2.books bookId = some b' →
        0 ≤ b'.available_count ∧ b'.available_count ≤ b'.total_count) ∧
    (InRange s →
      (∀ req insertId, InRange (booksController.create s req insertId).2) ∧
      (∀ bookId req removeThrows,
        InRange (booksController.update s bookId req removeThrows).2)) := by
  have hupd : ∀ bookId req removeThrows current, s.books bookId = some current →
      0 ≤ current.available_count → current.available_count ≤ current.total_count →
      ∀ b', (booksController.update s bookId req removeThrows).2.books bookId = some b' →
        0 ≤ b'.available_count ∧ b'.available_count ≤ b'.total_count := by
    intro bookId req removeThrows current hb h0 hle b' hb'
    rcases update_written s bookId req removeThrows current hb (by omega) with
      ⟨_, hs⟩ | ⟨_, ⟨T, A, c, _, _, hA0, hAT, hrow⟩, _⟩
    · rw [hs, hb] at hb'
      cases hb'
      exact ⟨h0, hle⟩
    · rw [hrow] at hb'
      cases hb'
      exact ⟨intColumn_nonneg A hA0, intColumn_mono A T hAT⟩
  have hcre : ∀ req insertId, (booksController.create s req insertId).1.status = 201 →
      (∃ T, req.total_count.toNumber = .fin T ∧ 0 < T) ∧
      ∃ b, (booksController.create s req insertId).2.books insertId = some b ∧
        0 ≤ b.available_count ∧ b.available_count ≤ b.total_count := by
    intro req insertId hok
    rcases create_written s req insertId with ⟨hne, _⟩ |
      ⟨T, A, c, hT, hpos, _, hA0, hAT, _, hrow, _⟩
    · exact absurd hok hne
    · exact ⟨⟨T, hT, hpos⟩, _, hrow, intColumn_nonneg A hA0, intColumn_mono A T hAT⟩
  refine ⟨hcre, hupd, fun hin => ⟨?_, ?_⟩⟩
  · intro req insertId t b hb
    rcases create_written s req insertId with ⟨_, hs⟩ |
      ⟨T, A, c, _, _, _, hA0, hAT, _, hrow, hoth, _⟩
    · rw [hs] at hb
      exact hin t b hb
    · by_cases ht : t = insertId
      · subst ht
        rw [hrow] at hb
        cases hb
        exact ⟨intColumn_nonneg A hA0, intColumn_mono A T hAT⟩
      · rw [hoth t ht] at hb
        exact hin t b hb
  · intro bookId req removeThrows t b hb
    cases hcur : s.books bookId with
    | none =>
      have hs : (booksController.update s bookId req removeThrows).2 = s := by
        simp [booksController.update, hcur]
      rw [hs] at hb
      exact hin t b hb
    | some current =>
      by_cases ht : t = bookId
      · subst ht
        exact hupd t req removeThrows current hcur (hin t current hcur).1
          (hin t current hcur).2 b hb
      · rcases update_written s bookId req removeThrows current hcur
          (by have := hin bookId current hcur; omega) with ⟨_, hs⟩ | ⟨_, _, hoth, _⟩
        · rw [hs] at hb
          exact hin t b hb
        · rw [hoth t ht] at hb
          exact hin t b hb

/-- Witness of C14: a title is created with the total `'2.5'` and the
available count `'1.5'`, and title 1 of the sample catalogue is edited with a
total that is no number and an oversized fractional available count. -/
theorem catalog_writes_in_range_witness :
    ((∃ T, (booksController.Field.num (5 / 2)).toNumber = .fin T ∧ 0 < T) ∧
      ∃ b, (booksController.create sampleState
          ⟨"《书》", "作者", .num (5 / 2), .num (3 / 2), .absent⟩ 3).2.books 3 = some b ∧
        0 ≤ b.available_count ∧ b.available_count ≤ b.total_count) ∧
    (∀ b', (booksController.update sampleState 1
          ⟨.other, .num (201 / 2), .absent⟩ false).2.books 1 = some b' →
        0 ≤ b'.available_count ∧ b'.available_count ≤ b'.total_count) :=
  ⟨(catalog_writes_in_range sampleState).1
      ⟨"《书》", "作者", .num (5 / 2), .num (3 / 2), .absent⟩ 3 (create_halves sampleState 3).1,
   (catalog_writes_in_range sampleState).2.1 1 ⟨.other, .num (201 / 2), .absent⟩ false
      ⟨3, 2, "在馆", none⟩ (by simp [sampleState]) (by decide) (by decide)⟩

/-- C17. Return of an unknown loan: when no loan has id `x`, `borrow.return`
answers NotFound and leaves the whole state, loans and titles alike, as it
was. -/
theorem return_unknown_loan (s : State) (now x : Nat) (h : ∀ l ∈ s.borrow, l.id ≠ x) :
    NotFound (borrowController.«return» s now (some x)).1 ∧
    (borrowController.«return» s now (some x)).1 = ⟨404, .error "借阅记录不存在"⟩ ∧
    (borrowController.«return» s now (some x)).2 = s := by
  have hsel : selectBorrowById s.borrow x = [] := by
    unfold selectBorrowById
    rw [List.filter_eq_nil_iff]
    intro l hl
    simpa using h l hl
  simp only [borrowController.«return», hsel, NotFound, and_self]

/-- Witness of C17: the sample catalogue has no loan 9. -/
theorem return_unknown_loan_witness :
    NotFound (borrowController.«return» sampleState 20 (some 9)).1 ∧
    (borrowController.«return» sampleState 20 (some 9)).1 = ⟨404, .error "借阅记录不存在"⟩ ∧
    (borrowController.«return» sampleState 20 (some 9)).2 = sampleState :=
  return_unknown_loan sampleState 20 9 (by decide)

/-- C11, as stated, fails: in the sample catalogue every loan references an
existing title and an existing borrower; after `users.remove` of user 7 the
loans of user 7 are still stored, and after a `borrow.create` by an
administrator for the unknown user 42 a loan of user 42 is stored. -/
theorem dangling_borrower_reference :
    (TitleRefs sampleState ∧ BorrowerRefs sampleState) ∧
    ¬ BorrowerRefs (run sampleState [.cascadeDeleteBorrower 20 (some ⟨1, "admin"⟩) 7]) ∧
    ¬ BorrowerRefs (run sampleState [.borrow 20 ⟨some ⟨1, "admin"⟩, some 42, some 1⟩]) := by
  decide

/-- C11, amended. Starting from a state in which every loan references an
existing title, after any sequence of `borrow.create`, `borrow.return`,
`borrow.remove`, `books.remove` and `users.remove` every loan still references
an existing title. -/
theorem title_references_preserved (s : State) (ops : List Op) (h : TitleRefs s) :
    TitleRefs (run s ops) := by
  unfold run
  induction ops generalizing s with
  | nil => exact h
  | cons op ops ih => exact ih _ (titleRefs_step s op h)

/-- Witness of C11 as amended: user 9 borrows title 1 of the sample catalogue,
loan 2 is returned, loan 4 is deleted, title 2 is deleted and user 7 is
deleted. -/
theorem title_references_preserved_witness :
    TitleRefs sampleState ∧
    TitleRefs (run sampleState
      [.borrow 20 (userReq 9 1), .giveBack 21 (some 2), .adminDeleteLoan (some 4),
       .cascadeDeleteTitle 2 false, .cascadeDeleteBorrower 22 (some ⟨1, "admin"⟩) 7]) :=
  ⟨by decide, title_references_preserved sampleState _ (by decide)⟩

/-- C18: the code at the failing input. The plain user 8 sends
`DELETE /api/borrow/1` for loan 1, an OPEN loan of user 7 on title 1 of the
sample catalogue: the answer is 200, not an Unauthorized one, the loan is gone
and title 1 goes from 2 to 3 available copies; the same caller is answered 403
by `DELETE /api/books/1` and `DELETE /api/users/7`, which leave the state as
it was. -/
theorem delete_loan_by_plain_user :
    (borrowRoutes.delete sampleState (.verified ⟨8, "user"⟩) (some 1)).1
      = ⟨200, .message "借阅记录已删除"⟩ ∧
    ¬ Unauthorized (borrowRoutes.delete sampleState (.verified ⟨8, "user"⟩) (some 1)).1 ∧
    (⟨1, 1, 7, 10, none, "借出"⟩ : Loan) ∈ sampleState.borrow ∧
    (⟨1, 1, 7, 10, none, "借出"⟩ : Loan)
      ∉ (borrowRoutes.delete sampleState (.verified ⟨8, "user"⟩) (some 1)).2.borrow ∧
    sampleState.books 1 = some ⟨3, 2, "在馆", none⟩ ∧
    (borrowRoutes.delete sampleState (.verified ⟨8, "user"⟩) (some 1)).2.books 1
      = some ⟨3, 3, "在馆", none⟩ ∧
    (booksRoutes.delete sampleState (.verified ⟨8, "user"⟩) 1 false).1
      = ⟨403, .authError "需要管理员权限"⟩ ∧
    (usersRoutes.delete sampleState 20 (.verified ⟨8, "user"⟩) 7).1
      = ⟨403, .authError "需要管理员权限"⟩ := by
  decide

/-- C20: the code at the failing input. Title 2 of the sample catalogue has a
cover; when `storage.removeByUrl` throws, `books.remove` answers 500 although
the title and its three loans are already deleted, in the run with faults as
in the handler above; a throw before the commit leaves the tables as they
were. -/
theorem books_remove_failure_after_commit :
    (booksController.remove sampleState 2 true).1 = ⟨500, .error "删除图书失败"⟩ ∧
    sampleState.books 2 = some ⟨3, 0, "已借出", some "/uploads/books/2.jpg"⟩ ∧
    (booksController.remove sampleState 2 true).2.books 2 = none ∧
    sampleState.borrow.length = 5 ∧
    (booksController.remove sampleState 2 true).2.borrow
      = [⟨1, 1, 7, 10, none, "借出"⟩, ⟨3, 1, 7, 12, some 13, "已还"⟩] ∧
    (booksController.removeWithFaults (fun k => k == 5) sampleState 2).response
      = ⟨500, .error "删除图书失败"⟩ ∧
    (booksController.removeWithFaults (fun k => k == 5) sampleState 2).state.books 2 = none ∧
    (booksController.removeWithFaults (fun k => k == 3) sampleState 2).response
      = ⟨500, .error "删除图书失败"⟩ ∧
    (booksController.removeWithFaults (fun k => k == 3) sampleState 2).state.books 2
      = sampleState.books 2 ∧
    (booksController.removeWithFaults (fun k => k == 3) sampleState 2).state.borrow
      = sampleState.borrow := by
  decide

/-- C16. Loan well-formedness: from a state in which every loan has
`return_date` non-null exactly when it is CLOSED, the state left by one
`borrow.create`, `borrow.return`, `borrow.remove` or `users.remove` has the
same property; and if moreover every `return_date` is at or after its
`borrow_date` and the clock reading of the call is not before any stored
`borrow_date`, every `return_date` of the state left is at or after its
`borrow_date`. -/
theorem loan_dates_preserved (s : State) (h : DatesTyped s) :
    ((∀ now req, DatesTyped (borrowController.create s now req).2) ∧
     (∀ now borrowId, DatesTyped (borrowController.«return» s now borrowId).2) ∧
     (∀ borrowId, DatesTyped (borrowController.remove s borrowId).2) ∧
     (∀ now caller userId, DatesTyped (usersController.remove s now caller userId).2)) ∧
    (Chronological s →
      (∀ now req, Chronological (borrowController.create s now req).2) ∧
      (∀ now borrowId, ClockAfter s now →
        Chronological (borrowController.«return» s now borrowId).2) ∧
      (∀ borrowId, Chronological (borrowController.remove s borrowId).2) ∧
      (∀ now caller userId, ClockAfter s now →
        Chronological (usersController.remove s now caller userId).2)) := by
  refine ⟨⟨?_, ?_, ?_, ?_⟩, fun hch => ⟨?_, ?_, ?_, ?_⟩⟩
  · intro now req l hl
    rcases create_borrow_cases s now req with hs | ⟨id, t, u, hs⟩
    · rw [hs] at hl
      exact h l hl
    · rw [hs, List.mem_append, List.mem_singleton] at hl
      rcases hl with hl | rfl
      · exact h l hl
      · simp [Loan.isClosed]
  · intro now borrowId
    rcases return_state_cases s now borrowId with hs | ⟨record, _, hs⟩
    · rw [hs]; exact h
    · rw [hs]
      exact datesTyped_markReturned s _ now record.id h (autoReturn_borrow now s record)
  · intro borrowId l hl
    exact h l (remove_borrow_subset s borrowId hl)
  · intro now caller userId
    unfold usersController.remove
    split
    · exact h
    · split
      · exact h
      · exact (dates_foldl_autoReturn now _ s).1 h
  · intro now req l hl d hd
    rcases create_borrow_cases s now req with hs | ⟨id, t, u, hs⟩
    · rw [hs] at hl
      exact hch l hl d hd
    · rw [hs, List.mem_append, List.mem_singleton] at hl
      rcases hl with hl | rfl
      · exact hch l hl d hd
      · cases hd
  · intro now borrowId hclock
    rcases return_state_cases s now borrowId with hs | ⟨record, _, hs⟩
    · rw [hs]; exact hch
    · rw [hs]
      exact chronological_markReturned s _ now record.id hch hclock
        (autoReturn_borrow now s record)
  · intro borrowId l hl d hd
    exact hch l (remove_borrow_subset s borrowId hl) d hd
  · intro now caller userId hclock
    unfold usersController.remove
    split
    · exact hch
    · split
      · exact hch
      · exact (dates_foldl_autoReturn now _ s).2 hch hclock

/-- Witness of C16 on the sample catalogue, with calls at time 20. -/
theorem loan_dates_preserved_witness :
    (DatesTyped sampleState ∧ Chronological sampleState ∧ ClockAfter sampleState 20) ∧
    (∀ now req, DatesTyped (borrowController.create sampleState now req).2) ∧
    Chronological (borrowController.«return» sampleState 20 (some 2)).2 ∧
    Chronological (usersController.remove sampleState 20 (some ⟨1, "admin"⟩) 7).2 :=
  ⟨⟨by unfold DatesTyped Loan.isClosed; decide, by unfold Chronological; decide,
      by unfold ClockAfter; decide⟩,
   (loan_dates_preserved sampleState (by unfold DatesTyped Loan.isClosed; decide)).1.1,
   ((loan_dates_preserved sampleState (by unfold DatesTyped Loan.isClosed; decide)).2
      (by unfold Chronological; decide)).2.1 20 (some 2) (by unfold ClockAfter; decide),
   ((loan_dates_preserved sampleState (by unfold DatesTyped Loan.isClosed; decide)).2
      (by unfold Chronological; decide)).2.2.2 20 (some ⟨1, "admin"⟩) 7
      (by unfold ClockAfter; decide)⟩

/-- C15, as stated, fails: the handlers of the books controller derive the
status from the Number they computed, and the integer column stores it
rounded.  A `books.create` with the total 1 and the available count `'0.25'`
on the sample catalogue (every title of which has
`0 ≤ available_count ≤ total_count`) answers 201 and inserts the row
`(1, 0, '在馆')`: the written available count is 0 and the status is not
`'已借出'`. -/
theorem status_of_fraction :
    InRange sampleState ∧
    (booksController.create sampleState
      ⟨"《书》", "作者", .num 1, .num (1 / 4), .absent⟩ 3).1.status = 201 ∧
    (booksController.create sampleState
      ⟨"《书》", "作者", .num 1, .num (1 / 4), .absent⟩ 3).2.books 3
      = some ⟨1, 0, "在馆", none⟩ ∧
    ¬ DerivedStatus ⟨1, 0, "在馆", none⟩ :=
  ⟨sampleState_inRange, (create_quarter sampleState 3).1, (create_quarter sampleState 3).2,
    by unfold DerivedStatus; decide⟩

/-- C15, amended. Derived status: from a state with `0 ≤ available_count ≤
total_count` for every title, the title row written by a successful
`borrow.create`, by `borrow.return` or `borrow.remove` on an OPEN loan (in a
table whose `id` is a primary key) or by `users.remove` for a title on which
the deleted borrower held an OPEN loan has status `'已借出'` (ALL_LOANED) when
the written `available_count` is 0 and `'在馆'` (IN_STOCK) otherwise.  The row
written by a `books.create` that answers 201 or by a `books.update` that
answers 200 has one of the two statuses, `'在馆'` whenever the written
`available_count` is not 0 and a written `available_count` of 0 whenever the
status is `'已借出'`; its status is `'已借出'` exactly when the written
`available_count` is 0 if the `total_count` and the `available_count` of the
form denote integers (or no number). -/
theorem derived_status_written (s : State) (hin : InRange s) :
    (∀ now req t u b, borrowController.resolve req = .ok (t, u) → s.books t = some b →
      0 < b.available_count →
      ∃ b', (borrowController.create s now req).2.books t = some b' ∧ DerivedStatus b') ∧
    (∀ now l b, PrimaryKey s → l ∈ s.borrow → l.isOpen → s.books l.book_id = some b →
      ∃ b', (borrowController.«return» s now (some l.id)).2.books l.book_id = some b' ∧
        DerivedStatus b') ∧
    (∀ l b, PrimaryKey s → l ∈ s.borrow → l.isOpen → s.books l.book_id = some b →
      ∃ b', (borrowController.remove s (some l.id)).2.books l.book_id = some b' ∧
        DerivedStatus b') ∧
    (∀ now caller userId usr l b, s.users userId = some usr →
      caller.map (fun c => c.id) ≠ some userId →
      l ∈ s.borrow → l.user_id = userId → l.isOpen → s.books l.book_id = some b →
      ∃ b', (usersController.remove s now caller userId).2.books l.book_id = some b' ∧
        DerivedStatus b') ∧
    (∀ req insertId, (booksController.create s req insertId).1.status = 201 →
      ∃ b', (booksController.create s req insertId).2.books insertId = some b' ∧
        (b'.status = "在馆" ∨ b'.status = "已借出") ∧
        (b'.available_count ≠ 0 → b'.status = "在馆") ∧
        (b'.status = "已借出" → b'.available_count = 0) ∧
        (req.total_count.IsIntegral → req.available_count.IsIntegral →
          DerivedStatus b')) ∧
    (∀ bookId req removeThrows current, s.books bookId = some current →
      (booksController.update s bookId req removeThrows).1.status = 200 →
      ∃ b', (booksController.update s bookId req removeThrows).2.books bookId = some b' ∧
        (b'.status = "在馆" ∨ b'.status = "已借出") ∧
        (b'.available_count ≠ 0 → b'.status = "在馆") ∧
        (b'.status = "已借出" → b'.available_count = 0) ∧
        (req.total_count.IsIntegral → req.available_count.IsIntegral →
          DerivedStatus b')) := by
  refine ⟨?_, ?_, ?_, ?_, ?_, ?_⟩
  · intro now req t u b hreq hb hav
    rw [create_of_resolve hreq, createTx_success s now t u b hb hav]
    refine ⟨⟨b.total_count, b.available_count - 1, stockStatus (b.available_count - 1),
        b.cover_url⟩, by simp [updateBookCounts, hb], ?_⟩
    unfold DerivedStatus stockStatus
    exact derived_of_nonneg _ (by omega)
  · intro now l b hpk hl hopen hb
    obtain ⟨rest, hsel⟩ := selectBorrowById_of_mem s l hpk hl
    have hst : l.status ≠ "已还" := by
      unfold Loan.isOpen at hopen
      rw [hopen]
      decide
    rw [return_eq_autoReturn s now l.id l rest b hsel hst hb]
    simp only [autoReturn_books_some now s l b hb, restoreCopy_self _ _ _ hb]
    exact ⟨_, rfl, restored_derived b (hin _ b hb).1 (hin _ b hb).2⟩
  · intro l b hpk hl hopen hb
    obtain ⟨rest, hsel⟩ := selectBorrowById_of_mem s l hpk hl
    obtain ⟨_, _, _, hbooks⟩ := remove_of_select s l.id l rest hsel
    unfold Loan.isOpen at hopen
    rw [hbooks, if_pos hopen]
    simp only [hb, restoreCopy_self _ _ _ hb]
    exact ⟨_, rfl, restored_derived b (hin _ b hb).1 (hin _ b hb).2⟩
  · intro now caller userId usr l b hu hcaller hl hlu hopen hb
    rw [usersRemove_of_user s now caller userId usr hu hcaller]
    simp only [foldl_autoReturn_books, hb, Option.map_some']
    have hmem : l ∈ selectOpenBorrowByUser s.borrow userId :=
      (mem_selectOpenBorrowByUser _ _ _).mpr ⟨hl, hlu, hopen⟩
    have hpos : 0 < (selectOpenBorrowByUser s.borrow userId).countP
        (fun r => r.book_id = l.book_id) :=
      List.countP_pos_iff.mpr ⟨l, hmem, by simp⟩
    obtain ⟨n, hn⟩ := Nat.exists_eq_succ_of_ne_zero (Nat.pos_iff_ne_zero.mp hpos)
    rw [hn]
    exact ⟨_, rfl, iterate_restored_derived n b (hin _ b hb).1 (hin _ b hb).2⟩
  · intro req insertId hok
    rcases create_written s req insertId with ⟨hne, _⟩ |
      ⟨T, A, c, hT, _, hA, hA0, _, _, hrow, _⟩
    · exact absurd hok hne
    · refine ⟨_, hrow, ?_, (derived_half A hA0).1, (derived_half A hA0).2, ?_⟩
      · dsimp only
        split_ifs
        · exact Or.inl rfl
        · exact Or.inr rfl
      · intro hit hia
        have hi := isIntegral_createAvailable req.available_count (.fin T) hia
          (by rw [← hT]; exact isIntegral_toNumber _ hit)
        rw [hA] at hi
        exact derived_of_integral T A c hA0 hi
  · intro bookId req removeThrows current hb hok
    rcases update_written s bookId req removeThrows current hb
      (by have := hin _ current hb; omega) with ⟨h5, _⟩ |
      ⟨_, ⟨T, A, c, hT, hA, hA0, _, hrow⟩, _⟩
    · rw [h5] at hok
      cases hok
    · refine ⟨_, hrow, ?_, (derived_half A hA0).1, (derived_half A hA0).2, ?_⟩
      · dsimp only
        split_ifs
        · exact Or.inl rfl
        · exact Or.inr rfl
      · intro hit hia
        have hi := isIntegral_updateAvailable current req.available_count (.fin T) hia
          (by rw [← hT]; exact isIntegral_updateTotal current _ hit)
        rw [hA] at hi
        exact derived_of_integral T A c hA0 hi

/-- Witness of C15 as amended on the sample catalogue: user 9 borrows title 1,
loan 2 is returned, loan 1 is deleted, user 8 is deleted, a title is created
with 5 copies and no available one, and the total of title 2 is set to 1. -/
theorem derived_status_written_witness :
    InRange sampleState ∧
    (∃ b', (borrowController.create sampleState 20 (userReq 9 1)).2.books 1 = some b' ∧
      DerivedStatus b') ∧
    (∃ b', (borrowController.«return» sampleState 20 (some 2)).2.books 2 = some b' ∧
      DerivedStatus b') ∧
    (∃ b', (borrowController.remove sampleState (some 1)).2.books 1 = some b' ∧
      DerivedStatus b') ∧
    (∃ b', (usersController.remove sampleState 20 (some ⟨1, "admin"⟩) 8).2.books 2 = some b' ∧
      DerivedStatus b') ∧
    (∃ b', (booksController.create sampleState
        ⟨"《书》", "作者", .num 5, .num 0, .absent⟩ 3).2.books 3 = some b' ∧
      (b'.status = "在馆" ∨ b'.status = "已借出") ∧
      (b'.available_count ≠ 0 → b'.status = "在馆") ∧
      (b'.status = "已借出" → b'.available_count = 0) ∧
      ((booksController.Field.num 5).IsIntegral → (booksController.Field.num 0).IsIntegral →
        DerivedStatus b')) ∧
    (∃ b', (booksController.update sampleState 2
        ⟨.num 1, .undefined, .absent⟩ false).2.books 2 = some b' ∧
      (b'.status = "在馆" ∨ b'.status = "已借出") ∧
      (b'.available_count ≠ 0 → b'.status = "在馆") ∧
      (b'.status = "已借出" → b'.available_count = 0) ∧
      ((booksController.Field.num 1).IsIntegral → booksController.Field.undefined.IsIntegral →
        DerivedStatus b')) :=
  ⟨sampleState_inRange,
   (derived_status_written sampleState sampleState_inRange).1 20 (userReq 9 1) 1 9
     ⟨3, 2, "在馆", none⟩ (resolve_userReq 9 1 (by decide) (by decide))
     (by simp [sampleState]) (by decide),
   (derived_status_written sampleState sampleState_inRange).2.1 20
     ⟨2, 2, 7, 11, none, "借出"⟩ ⟨3, 0, "已借出", some "/uploads/books/2.jpg"⟩
     sampleState_primaryKey (by simp [sampleState]) rfl (by simp [sampleState]),
   (derived_status_written sampleState sampleState_inRange).2.2.1
     ⟨1, 1, 7, 10, none, "借出"⟩ ⟨3, 2, "在馆", none⟩
     sampleState_primaryKey (by simp [sampleState]) rfl (by simp [sampleState]),
   (derived_status_written sampleState sampleState_inRange).2.2.2.1 20
     (some ⟨1, "admin"⟩) 8 ⟨"user"⟩ ⟨4, 2, 8, 14, none, "借出"⟩
     ⟨3, 0, "已借出", some "/uploads/books/2.jpg"⟩ (by simp [sampleState]) (by decide)
     (by simp [sampleState]) rfl rfl (by simp [sampleState]),
   (derived_status_written sampleState sampleState_inRange).2.2.2.2.1
     ⟨"《书》", "作者", .num 5, .num 0, .absent⟩ 3 sample_create_status,
   (derived_status_written sampleState sampleState_inRange).2.2.2.2.2 2
     ⟨.num 1, .undefined, .absent⟩ false
     ⟨3, 0, "已借出", some "/uploads/books/2.jpg"⟩ (by simp [sampleState])
     sample_update_status⟩

/-- C19. Abort is total: run `borrow.create`, `borrow.return`, `borrow.remove`
or `users.remove` with any plan `fails` of throwing storage calls
(`beginTransaction`, the queries, `commit`, numbered in the order the handler
issues them). If the plan makes one of the calls the handler issues throw, the
answer is 500 and the titles, loans and borrowers held by the released
connection are exactly those of the state before the call; if it makes none of
them throw, the answer and the state are those of the handler. -/
theorem abort_is_total (fails : Nat → Bool) (s : State) :
    (∀ now req,
      ((∃ k, k < borrowController.createCalls s req ∧ fails k = true) →
        (borrowController.createWithFaults fails s now req).response.status = 500 ∧
        SameTables s (borrowController.createWithFaults fails s now req).state) ∧
      ((∀ k, k < borrowController.createCalls s req → fails k = false) →
        (borrowController.createWithFaults fails s now req).threw = false ∧
        ((borrowController.createWithFaults fails s now req).response,
          (borrowController.createWithFaults fails s now req).state)
          = borrowController.create s now req)) ∧
    (∀ now borrowId,
      ((∃ k, k < borrowController.returnCalls s borrowId ∧ fails k = true) →
        (borrowController.returnWithFaults fails s now borrowId).response.status = 500 ∧
        SameTables s (borrowController.returnWithFaults fails s now borrowId).state) ∧
      ((∀ k, k < borrowController.returnCalls s borrowId → fails k = false) →
        (borrowController.returnWithFaults fails s now borrowId).threw = false ∧
        ((borrowController.returnWithFaults fails s now borrowId).response,
          (borrowController.returnWithFaults fails s now borrowId).state)
          = borrowController.«return» s now borrowId)) ∧
    (∀ borrowId,
      ((∃ k, k < borrowController.removeCalls s borrowId ∧ fails k = true) →
        (borrowController.removeWithFaults fails s borrowId).response.status = 500 ∧
        SameTables s (borrowController.removeWithFaults fails s borrowId).state) ∧
      ((∀ k, k < borrowController.removeCalls s borrowId → fails k = false) →
        (borrowController.removeWithFaults fails s borrowId).threw = false ∧
        ((borrowController.removeWithFaults fails s borrowId).response,
          (borrowController.removeWithFaults fails s borrowId).state)
          = borrowController.remove s borrowId)) ∧
    (∀ now caller userId,
      ((∃ k, k < usersController.removeCalls s caller userId ∧ fails k = true) →
        (usersController.removeWithFaults fails s now caller userId).response.status = 500 ∧
        SameTables s (usersController.removeWithFaults fails s now caller userId).state) ∧
      ((∀ k, k < usersController.removeCalls s caller userId → fails k = false) →
        (usersController.removeWithFaults fails s now caller userId).threw = false ∧
        ((usersController.removeWithFaults fails s now caller userId).response,
          (usersController.removeWithFaults fails s now caller userId).state)
          = usersController.remove s now caller userId)) :=
  ⟨fun now req => refines_of_calls _ s _ fails _ (createWithFaults_refines fails s now req)
      (createWithFaults_threw fails s now req),
   fun now borrowId => refines_of_calls _ s _ fails _
      (returnWithFaults_refines fails s now borrowId)
      (returnWithFaults_threw fails s now borrowId),
   fun borrowId => refines_of_calls _ s _ fails _ (removeWithFaults_refines fails s borrowId)
      (removeWithFaults_threw fails s borrowId),
   fun now caller userId => refines_of_calls _ s _ fails _
      (usersRemoveWithFaults_refines fails s now caller userId)
      (usersRemoveWithFaults_threw fails s now caller userId)⟩

/-- Witness of C19 on the sample catalogue: the UPDATE of `borrow.create`
(call 3) throws after the INSERT, the `commit` of `borrow.return` (call 5)
throws, the UPDATE of `books` in `borrow.remove` (call 4) throws, and in
`users.remove` of user 7 the UPDATE for the second loan (call 6) throws; each
of these handlers changes the tables when nothing throws. -/
theorem abort_is_total_witness :
    ((borrowController.createWithFaults (fun k => k == 3) sampleState 20
        (userReq 9 1)).response.status = 500 ∧
      SameTables sampleState
        (borrowController.createWithFaults (fun k => k == 3) sampleState 20
          (userReq 9 1)).state) ∧
    ((borrowController.returnWithFaults (fun k => k == 5) sampleState 20
        (some 2)).response.status = 500 ∧
      SameTables sampleState
        (borrowController.returnWithFaults (fun k => k == 5) sampleState 20 (some 2)).state) ∧
    ((borrowController.removeWithFaults (fun k => k == 4) sampleState
        (some 1)).response.status = 500 ∧
      SameTables sampleState
        (borrowController.removeWithFaults (fun k => k == 4) sampleState (some 1)).state) ∧
    ((usersController.removeWithFaults (fun k => k == 6) sampleState 20
        (some ⟨1, "admin"⟩) 7).response.status = 500 ∧
      SameTables sampleState
        (usersController.removeWithFaults (fun k => k == 6) sampleState 20
          (some ⟨1, "admin"⟩) 7).state) ∧
    (borrowController.create sampleState 20 (userReq 9 1)).2.borrow ≠ sampleState.borrow ∧
    (borrowController.«return» sampleState 20 (some 2)).2.borrow ≠ sampleState.borrow ∧
    (borrowController.remove sampleState (some 1)).2.borrow ≠ sampleState.borrow ∧
    (usersController.remove sampleState 20 (some ⟨1, "admin"⟩) 7).2.borrow
      ≠ sampleState.borrow :=
  ⟨((abort_is_total (fun k => k == 3) sampleState).1 20 (userReq 9 1)).1
      ⟨3, by decide, rfl⟩,
   ((abort_is_total (fun k => k == 5) sampleState).2.1 20 (some 2)).1 ⟨5, by decide, rfl⟩,
   ((abort_is_total (fun k => k == 4) sampleState).2.2.1 (some 1)).1 ⟨4, by decide, rfl⟩,
   ((abort_is_total (fun k => k == 6) sampleState).2.2.2 20 (some ⟨1, "admin"⟩) 7).1
      ⟨6, by decide, rfl⟩,
   by decide, by decide, by decide, by decide⟩

section LendingHelpers

open borrowController

theorem resolve_ok_spec (req : CreateReq) (t u : Nat) (h : resolve req = .ok (t, u)) :
    ∃ c, req.user = some c ∧ req.book_id = some t ∧ t ≠ 0 ∧ u ≠ 0 ∧
      ((c.role = "admin" ∧ req.user_id = some u) ∨ (c.role ≠ "admin" ∧ u = c.id) ∨
        (truthy req.user_id = false ∧ u = c.id)) := by
  unfold resolve at h
  simp only at h
  cases hbook : req.book_id with
  | none => simp [hbook, truthy] at h
  | some t' =>
    by_cases ht0 : t' = 0
    · simp [hbook, truthy, ht0] at h
    cases huser : req.user with
    | none => simp [hbook, huser, truthy, ht0] at h
    | some c =>
      by_cases hadm : c.role = "admin"
      · cases hreq : req.user_id with
        | none =>
          by_cases hc0 : c.id = 0
          · simp [hbook, huser, hreq, truthy, hadm, ht0, hc0] at h
          · simp [hbook, huser, hreq, truthy, hadm, ht0, hc0] at h
            obtain ⟨rfl, rfl⟩ := h
            exact ⟨c, rfl, rfl, ht0, hc0, Or.inr (Or.inr ⟨rfl, rfl⟩)⟩
        | some v =>
          by_cases hv : v = 0
          · by_cases hc0 : c.id = 0
            · simp [hbook, huser, hreq, truthy, hadm, ht0, hv, hc0] at h
            · simp [hbook, huser, hreq, truthy, hadm, ht0, hv, hc0] at h
              obtain ⟨rfl, rfl⟩ := h
              exact ⟨c, rfl, rfl, ht0, hc0, Or.inr (Or.inr ⟨by simp [truthy, hv], rfl⟩)⟩
          · simp [hbook, huser, hreq, truthy, hadm, ht0, hv] at h
            obtain ⟨rfl, rfl⟩ := h
            exact ⟨c, rfl, rfl, ht0, hv, Or.inl ⟨hadm, rfl⟩⟩
      · by_cases hc0 : c.id = 0
        · simp [hbook, huser, truthy, hadm, ht0, hc0] at h
        · simp [hbook, huser, truthy, hadm, ht0, hc0] at h
          obtain ⟨rfl, rfl⟩ := h
          exact ⟨c, rfl, rfl, ht0, hc0, Or.inr (Or.inl ⟨hadm, rfl⟩)⟩

theorem create_status (s : State) (now : Nat) (req : CreateReq) :
    ((create s now req).1.status = 201 ∧
      ∃ t u b, resolve req = .ok (t, u) ∧ s.books t = some b ∧ 0 < b.available_count) ∨
    (create s now req).1.status = 400 ∨ (create s now req).1.status = 404 := by
  cases hreq : resolve req with
  | error r =>
    have hc : (create s now req).1 = r := by simp [create, hreq]
    rw [hc]
    rcases resolve_error_status req r hreq with hr | hr <;> subst hr <;> exact Or.inr (Or.inl rfl)
  | ok p =>
    obtain ⟨t, u⟩ := p
    rw [create_of_resolve hreq]
    cases hb : s.books t with
    | none =>
      rw [createTx_notFound s now t u hb]
      exact Or.inr (Or.inr rfl)
    | some b =>
      by_cases hav : b.available_count ≤ 0
      · rw [createTx_outOfStock s now t u b hb hav]
        exact Or.inr (Or.inl rfl)
      · rw [createTx_success s now t u b hb (by omega)]
        exact Or.inl ⟨rfl, t, u, b, rfl, hb, by omega⟩

theorem return_status (s : State) (now : Nat) (borrowId : Option Nat) :
    («return» s now borrowId).1.status = 200 ∨ («return» s now borrowId).1.status = 400 ∨
    («return» s now borrowId).1.status = 404 := by
  unfold «return»
  split
  · exact Or.inr (Or.inl rfl)
  · split
    · exact Or.inr (Or.inr rfl)
    · simp only
      split
      · exact Or.inr (Or.inl rfl)
      · split
        · exact Or.inr (Or.inr rfl)
        · exact Or.inl rfl

theorem markReturned_eq_map (s : State) (now : Nat) (l : Loan) (hpk : PrimaryKey s)
    (hl : l ∈ s.borrow) :
    markReturned s.borrow now l.id
      = s.borrow.map fun r =>
          if r = l then { l with return_date := some now, status := "已还" } else r := by
  unfold markReturned
  apply List.map_congr_left
  intro r hr
  by_cases hrl : r = l
  · subst hrl
    simp
  · have hid : r.id ≠ l.id := fun h => hrl (List.inj_on_of_nodup_map hpk hr hl h)
    rw [if_neg hid, if_neg hrl]

theorem mem_deleteBorrowById_iff (s : State) (l : Loan) (hpk : PrimaryKey s)
    (hl : l ∈ s.borrow) (r : Loan) :
    r ∈ deleteBorrowById s.borrow l.id ↔ r ∈ s.borrow ∧ r ≠ l := by
  rw [mem_deleteBorrowById]
  constructor
  · rintro ⟨hr, hne⟩
    exact ⟨hr, fun h => hne (by rw [h])⟩
  · rintro ⟨hr, hne⟩
    exact ⟨hr, fun h => hne (List.inj_on_of_nodup_map hpk hr hl h)⟩

end LendingHelpers

section TitleHelpers

open booksController

theorem trim_nil : trim [] = [] := rfl

theorem trim_head_not (cs : List Char) (h : trim cs ≠ []) :
    isWhiteSpace ((trim cs).head h) = false := by
  unfold trim at h ⊢
  obtain ⟨t, ht⟩ := List.rdropWhile_prefix isWhiteSpace (cs.dropWhile isWhiteSpace)
  have hz : cs.dropWhile isWhiteSpace ≠ [] := by
    intro hz
    rw [hz] at h
    exact h rfl
  have hhead : ((cs.dropWhile isWhiteSpace).rdropWhile isWhiteSpace).head h
      = (cs.dropWhile isWhiteSpace).head hz := by
    have := @List.head_append_of_ne_nil _ t _ (by rw [ht]; exact hz) h
    rw [← this]
    congr 1
  rw [hhead]
  exact List.head_dropWhile_not isWhiteSpace cs hz

theorem trim_last_not (cs : List Char) (h : trim cs ≠ []) :
    isWhiteSpace ((trim cs).getLast h) = false := by
  unfold trim at h ⊢
  have := List.rdropWhile_last_not isWhiteSpace (cs.dropWhile isWhiteSpace) h
  simpa using this

theorem trim_eq_self (cs : List Char) (h : cs ≠ [])
    (hhead : isWhiteSpace (cs.head h) = false)
    (hlast : isWhiteSpace (cs.getLast h) = false) : trim cs = cs := by
  unfold trim
  have hd : cs.dropWhile isWhiteSpace = cs := by
    cases cs with
    | nil => exact absurd rfl h
    | cons c rest =>
      simp only [List.head_cons] at hhead
      simp [List.dropWhile_cons, hhead]
  rw [hd, List.rdropWhile_eq_self_iff]
  intro hl
  simp [hlast]

theorem trim_idempotent (cs : List Char) : trim (trim cs) = trim cs := by
  by_cases h : trim cs = []
  · rw [h]
    rfl
  · exact trim_eq_self _ h (trim_head_not cs h) (trim_last_not cs h)

theorem wrapTitleChars_shape (value : List Char) :
    wrapTitleChars value = [] ∨
    ∃ inner, wrapTitleChars value = '《' :: (inner ++ ['》']) ∧ inner ≠ [] ∧
      trim inner = inner := by
  unfold wrapTitleChars
  simp only
  split_ifs <;>
    first
      | exact Or.inl rfl
      | exact Or.inr ⟨_, rfl, by assumption, trim_idempotent _⟩

theorem wrapTitleChars_wrapped (inner : List Char) (hne : inner ≠ [])
    (htrim : trim inner = inner) :
    wrapTitleChars ('《' :: (inner ++ ['》'])) = '《' :: (inner ++ ['》']) := by
  have hw : trim ('《' :: (inner ++ ['》'])) = '《' :: (inner ++ ['》']) := by
    apply trim_eq_self _ (by simp)
    · simp only [List.head_cons]
      decide
    · rw [List.getLast_cons (by simp), List.getLast_append_singleton]
      decide
  unfold wrapTitleChars
  simp only [hw]
  rw [if_neg (by simp)]
  simp only [List.head?_cons, List.tail_cons, if_true]
  rw [if_pos (List.getLast?_concat inner), List.dropLast_concat, htrim, if_neg hne]

theorem wrapTitleChars_idempotent (value : List Char) :
    wrapTitleChars (wrapTitleChars value) = wrapTitleChars value := by
  rcases wrapTitleChars_shape value with h | ⟨inner, h, hne, htrim⟩
  · rw [h]
    rfl
  · rw [h]
    exact wrapTitleChars_wrapped inner hne htrim

end TitleHelpers

section RaceHelpers

open borrowController

theorem stage_step_world (s : State) (t u₁ now₁ u₂ now₂ : Nat) (st : String)
    (cv : Option String) (hb : s.books t = some ⟨1, 1, st, cv⟩) (x : Stage × Stage)
    (second : Bool) (hx : Stage.reachable x.1 x.2 = true) :
    (Stage.world s t u₁ now₁ u₂ now₂ x).step second
      = (Stage.stepPair x second).map (Stage.world s t u₁ now₁ u₂ now₂) := by
  obtain ⟨a, b⟩ := x
  cases a <;> cases b <;> cases second <;>
    first
    | (exfalso; revert hx; decide)
    | simp [Stage.world, Stage.stepPair, Stage.step, Stage.holds, World.step, Tx.step,
        Tx.holds, Stage.pc, Stage.db, hb, updateBookCounts, stockStatus]


theorem stage_reachable_all :
    ∀ (x : Stage × Stage) (second : Bool), Stage.reachable x.1 x.2 = true →
      (Stage.stepPair x second).all (fun y =>
        Stage.reachable y.1 y.2 && decide (y.1.rank + y.2.rank = x.1.rank + x.2.rank + 1))
        = true := by
  decide

theorem stage_reachable_step (x : Stage × Stage) (second : Bool) (y : Stage × Stage)
    (hx : Stage.reachable x.1 x.2 = true) (hstep : Stage.stepPair x second = some y) :
    Stage.reachable y.1 y.2 = true ∧ y.1.rank + y.2.rank = x.1.rank + x.2.rank + 1 := by
  have h := stage_reachable_all x second hx
  rw [hstep] at h
  simpa using h

theorem stage_progress :
    ∀ x : Stage × Stage, Stage.reachable x.1 x.2 = true →
      x.1.rank + x.2.rank ≤ 8 ∧
      (x.1.rank + x.2.rank < 8 → ∃ second, (Stage.stepPair x second).isSome = true) ∧
      (x.1.rank + x.2.rank = 8 → x = (.won, .lost) ∨ x = (.lost, .won)) := by
  decide

theorem stage_run (s : State) (t u₁ now₁ u₂ now₂ : Nat) (st : String)
    (cv : Option String) (hb : s.books t = some ⟨1, 1, st, cv⟩) (schedule : List Bool) :
    ∀ x : Stage × Stage, Stage.reachable x.1 x.2 = true →
      (Stage.world s t u₁ now₁ u₂ now₂ x).admits schedule = true →
      ∃ y : Stage × Stage, Stage.reachable y.1 y.2 = true ∧
        (Stage.world s t u₁ now₁ u₂ now₂ x).run schedule = Stage.world s t u₁ now₁ u₂ now₂ y ∧
        y.1.rank + y.2.rank = x.1.rank + x.2.rank + schedule.length := by
  induction schedule with
  | nil =>
    intro x hx _
    exact ⟨x, hx, rfl, rfl⟩
  | cons second schedule ih =>
    intro x hx hadm
    unfold World.admits at hadm
    unfold World.run
    rw [stage_step_world s t u₁ now₁ u₂ now₂ st cv hb x second hx] at hadm ⊢
    cases hstep : Stage.stepPair x second with
    | none =>
      rw [hstep] at hadm
      cases hadm
    | some y =>
      rw [hstep] at hadm
      simp only [Option.map_some'] at hadm ⊢
      obtain ⟨hy, hrank⟩ := stage_reachable_step x second y hx hstep
      obtain ⟨z, hz, hrun, hzr⟩ := ih y hy hadm
      refine ⟨z, hz, hrun, ?_⟩
      rw [hzr, hrank, List.length_cons]
      omega

theorem stage_finished :
    ∀ x : Stage × Stage, Stage.reachable x.1 x.2 = true →
      (x.1 = .won ∨ x.1 = .lost) → (x.2 = .won ∨ x.2 = .lost) →
      x = (.won, .lost) ∨ x = (.lost, .won) := by
  decide

theorem stage_answer (seq : Nat) (t u now : Nat) (a : Stage)
    (h : (Tx.answer ⟨t, u, now, Stage.pc seq a⟩).isSome = true) : a = .won ∨ a = .lost := by
  cases a <;> simp [Tx.answer, Stage.pc] at h ⊢

/-- A transaction of `create` that runs alone, next to a transaction that holds
no lock on its title, leaves the answer and the state of `createTx`. -/
theorem run_alone_eq_createTx (db : State) (t u now : Nat) (other : Tx)
    (hother : other.holds t = false) :
    ((⟨db, ⟨t, u, now, .start⟩, other⟩ : World).run
        [false, false, false, false, false]).first.answer
      = some (createTx db now t u).1 ∧
    ((⟨db, ⟨t, u, now, .start⟩, other⟩ : World).run
        [false, false, false, false, false]).db = (createTx db now t u).2 := by
  cases hb : db.books t with
  | none => simp [World.run, World.step, Tx.step, Tx.answer, createTx, hother, hb]
  | some book =>
    by_cases hav : book.available_count ≤ 0
    · simp [World.run, World.step, Tx.step, Tx.answer, createTx, hother, hb, hav]
    · simp [World.run, World.step, Tx.step, Tx.answer, createTx, hother, hb, hav]

theorem lastCopy_accounting : Accounting lastCopy := by
  intro t b hb
  unfold openLoans
  simp only [lastCopy] at hb ⊢
  split_ifs at hb
  cases hb
  simp

end RaceHelpers

/-- C24. Borrower identity cannot be spoofed: when `borrow.create` answers 201
the request has an authenticated caller and exactly one loan is appended; if
the caller's role is not `admin` the loan's borrower is the caller's own id,
whatever `user_id` the body carries; the loan is recorded against another id
only when the caller's role is `admin` and the body supplies that id as
`user_id`; and an `admin` who supplies a `user_id` other than 0 gets the loan
recorded against it. -/
theorem borrower_not_spoofable (s : State) (now : Nat) (req : borrowController.CreateReq)
    (hok : (borrowController.create s now req).1.status = 201) :
    ∃ c l, req.user = some c ∧
      (borrowController.create s now req).2.borrow = s.borrow ++ [l] ∧
      (c.role ≠ "admin" → l.user_id = c.id) ∧
      (l.user_id ≠ c.id → c.role = "admin" ∧ req.user_id = some l.user_id) ∧
      (c.role = "admin" → ∀ v, req.user_id = some v → v ≠ 0 → l.user_id = v) := by
  rcases create_status s now req with ⟨_, t, u, b, hreq, hb, hav⟩ | h4 | h4
  · obtain ⟨c, hc, _, _, hu0, hcases⟩ := resolve_ok_spec req t u hreq
    refine ⟨c, ⟨s.borrowSeq + 1, t, u, now, none, "借出"⟩, hc, ?_, ?_, ?_, ?_⟩
    · rw [create_of_resolve hreq, createTx_success s now t u b hb hav]
    · intro hna
      rcases hcases with ⟨hadm, _⟩ | ⟨_, hu⟩ | ⟨_, hu⟩
      · exact absurd hadm hna
      · exact hu
      · exact hu
    · intro hne
      rcases hcases with ⟨hadm, hreqid⟩ | ⟨_, hu⟩ | ⟨_, hu⟩
      · exact ⟨hadm, hreqid⟩
      · exact absurd hu hne
      · exact absurd hu hne
    · intro hadm v hv hv0
      rcases hcases with ⟨_, hreqid⟩ | ⟨hna, _⟩ | ⟨hfalsy, _⟩
      · rw [hv] at hreqid
        cases hreqid
        rfl
      · exact absurd hadm hna
      · rw [hv] at hfalsy
        simp [truthy, hv0] at hfalsy
  · rw [h4] at hok
    cases hok
  · rw [h4] at hok
    cases hok

/-- Witness of C24: the plain user 9 sends `user_id = 7` with a request for
title 1 of the sample catalogue. -/
theorem borrower_not_spoofable_witness :
    ∃ c l, (some ⟨9, "user"⟩ : Option AuthUser) = some c ∧
      (borrowController.create sampleState 20 ⟨some ⟨9, "user"⟩, some 7, some 1⟩).2.borrow
        = sampleState.borrow ++ [l] ∧
      (c.role ≠ "admin" → l.user_id = c.id) ∧
      (l.user_id ≠ c.id → c.role = "admin" ∧ (some 7 : Option Nat) = some l.user_id) ∧
      (c.role = "admin" → ∀ v, (some 7 : Option Nat) = some v → v ≠ 0 → l.user_id = v) :=
  borrower_not_spoofable sampleState 20 ⟨some ⟨9, "user"⟩, some 7, some 1⟩ (by decide)

/-- C25. Frame of the lending operations: a `borrow.create` that answers 201
for title `t` leaves every other title as it was and only appends a loan to
the loans that were there; a `borrow.return` that answers 200 on loan `l`
(in a table whose `id` is a primary key) replaces `l` by its closed copy and
touches no other loan and no title other than the one `l` references;
`borrow.remove` on loan `l` removes `l`, keeps every other loan and touches no
title other than the one `l` references; none of the three changes the
`users` table. -/
theorem lending_frame (s : State) :
    (∀ now req t u, borrowController.resolve req = .ok (t, u) →
      (borrowController.create s now req).1.status = 201 →
      (∀ t', t' ≠ t → (borrowController.create s now req).2.books t' = s.books t') ∧
      (∃ l, (borrowController.create s now req).2.borrow = s.borrow ++ [l]) ∧
      (borrowController.create s now req).2.users = s.users) ∧
    (∀ now l, PrimaryKey s → l ∈ s.borrow →
      (borrowController.«return» s now (some l.id)).1.status = 200 →
      (borrowController.«return» s now (some l.id)).2.borrow
        = s.borrow.map (fun r =>
            if r = l then { l with return_date := some now, status := "已还" } else r) ∧
      (∀ t', t' ≠ l.book_id →
        (borrowController.«return» s now (some l.id)).2.books t' = s.books t') ∧
      (borrowController.«return» s now (some l.id)).2.users = s.users) ∧
    (∀ l, PrimaryKey s → l ∈ s.borrow →
      (borrowController.remove s (some l.id)).1.status = 200 ∧
      (∀ r, r ∈ (borrowController.remove s (some l.id)).2.borrow ↔ r ∈ s.borrow ∧ r ≠ l) ∧
      (∀ t', t' ≠ l.book_id →
        (borrowController.remove s (some l.id)).2.books t' = s.books t') ∧
      (borrowController.remove s (some l.id)).2.users = s.users) := by
  refine ⟨?_, ?_, ?_⟩
  · intro now req t u hreq hok
    rcases create_status s now req with ⟨_, t2, u2, b, hreq2, hb, hav⟩ | h4 | h4
    · rw [hreq] at hreq2
      cases hreq2
      rw [create_of_resolve hreq, createTx_success s now t u b hb hav]
      refine ⟨fun t' ht' => by simp [updateBookCounts, ht'], ⟨_, rfl⟩, rfl⟩
    · rw [h4] at hok
      cases hok
    · rw [h4] at hok
      cases hok
  · intro now l hpk hl hok
    obtain ⟨x, record, rest, book, hx, hsel, hst, hb⟩ :=
      return_success_of s now (some l.id) hok
    cases hx
    obtain ⟨rest2, hsel2⟩ := selectBorrowById_of_mem s l hpk hl
    rw [hsel2] at hsel
    cases hsel
    rw [return_eq_autoReturn s now l.id l rest book hsel2 hst hb]
    refine ⟨?_, ?_, autoReturn_users now s l⟩
    · rw [autoReturn_borrow]
      exact markReturned_eq_map s now l hpk hl
    · intro t' ht'
      rw [autoReturn_books_apply, if_neg (Ne.symm ht')]
  · intro l hpk hl
    obtain ⟨rest, hsel⟩ := selectBorrowById_of_mem s l hpk hl
    obtain ⟨hresp, hbor, husers, hbooks⟩ := remove_of_select s l.id l rest hsel
    refine ⟨by rw [hresp], ?_, ?_, husers⟩
    · intro r
      rw [hbor]
      exact mem_deleteBorrowById_iff s l hpk hl r
    · intro t' ht'
      rw [hbooks]
      split
      · split
        · exact restoreCopy_other _ _ _ _ ht'
        · rfl
      · rfl

/-- Witness of C25 on the sample catalogue: user 9 borrows title 1, loan 2 is
returned and loan 4 is deleted. -/
theorem lending_frame_witness :
    ((∀ t', t' ≠ 1 →
        (borrowController.create sampleState 20 (userReq 9 1)).2.books t'
          = sampleState.books t') ∧
      (∃ l, (borrowController.create sampleState 20 (userReq 9 1)).2.borrow
        = sampleState.borrow ++ [l]) ∧
      (borrowController.create sampleState 20 (userReq 9 1)).2.users = sampleState.users) ∧
    ((borrowController.«return» sampleState 20 (some 2)).2.borrow
        = sampleState.borrow.map (fun r =>
            if r = ⟨2, 2, 7, 11, none, "借出"⟩ then ⟨2, 2, 7, 11, some 20, "已还"⟩ else r) ∧
      (∀ t', t' ≠ 2 →
        (borrowController.«return» sampleState 20 (some 2)).2.books t'
          = sampleState.books t') ∧
      (borrowController.«return» sampleState 20 (some 2)).2.users = sampleState.users) ∧
    ((borrowController.remove sampleState (some 4)).1.status = 200 ∧
      (∀ r, r ∈ (borrowController.remove sampleState (some 4)).2.borrow
        ↔ r ∈ sampleState.borrow ∧ r ≠ ⟨4, 2, 8, 14, none, "借出"⟩) ∧
      (∀ t', t' ≠ 2 →
        (borrowController.remove sampleState (some 4)).2.books t' = sampleState.books t') ∧
      (borrowController.remove sampleState (some 4)).2.users = sampleState.users) :=
  ⟨(lending_frame sampleState).1 20 (userReq 9 1) 1 9
      (resolve_userReq 9 1 (by decide) (by decide)) (by decide),
   (lending_frame sampleState).2.1 20 ⟨2, 2, 7, 11, none, "借出"⟩ sampleState_primaryKey
      (by simp [sampleState]) (by decide),
   (lending_frame sampleState).2.2 ⟨4, 2, 8, 14, none, "借出"⟩ sampleState_primaryKey
      (by simp [sampleState])⟩

/-- C26, as stated, fails: the handler computes in doubles.  On title 1 of the
sample catalogue (3 copies, 2 available, so 1 on loan) a `books.update` that
supplies the total `2^53 + 2 = 9007199254740994` and no `available_count`
answers 200 and writes the counts `(9007199254740994, 9007199254740992)`:
2 copies on loan, and an available count below
`max(T - (t - a), 0) = 9007199254740993`. -/
theorem capacity_floor_rounds :
    sampleState.books 1 = some ⟨3, 2, "在馆", none⟩ ∧
    (booksController.update sampleState 1
      ⟨.num 9007199254740994, .undefined, .absent⟩ false).1.status = 200 ∧
    (∃ b', (booksController.update sampleState 1
        ⟨.num 9007199254740994, .undefined, .absent⟩ false).2.books 1 = some b' ∧
      b'.total_count = 9007199254740994 ∧ b'.available_count = 9007199254740992 ∧
      ¬ max (b'.total_count - ((3 : Int) - 2)) 0 ≤ b'.available_count ∧
      ¬ b'.total_count - b'.available_count ≤ (3 : Int) - 2) := by
  obtain ⟨h1, h2⟩ := update_largeTotal sampleState 1 ⟨3, 2, "在馆", none⟩ false
    (by simp [sampleState]) rfl rfl
  refine ⟨by simp [sampleState], by rw [h1], ⟨_, h2, rfl, rfl, ?_, ?_⟩⟩
  · norm_num
  · norm_num

/-- C26, amended. A catalog edit with a total of at most `2^53` never records
more copies on loan than before: for a title with counts `(t, a)`,
`0 ≤ a ≤ t ≤ 2^53`, and every `books.update` request on it whose
`total_count`, if it denotes a number, denotes one that is at most `2^53`
(whole or fractional), with any `available_count` or none and whether it
answers 200 or 500, the counts `(T, A)` the title has afterwards satisfy
`A ≥ max(T - (t - a), 0)` and `T - A ≤ t - a`. -/
theorem capacity_edit_floor (s : State) (bookId : Nat) (req : booksController.UpdateReq)
    (removeThrows : Bool) (current : Book) (hb : s.books bookId = some current)
    (h0 : 0 ≤ current.available_count)
    (hle : current.available_count ≤ current.total_count)
    (ht : current.total_count ≤ 2 ^ 53)
    (hreq : ∀ q, req.total_count = .num q → q ≤ 2 ^ 53) :
    ∀ b', (booksController.update s bookId req removeThrows).2.books bookId = some b' →
      max (b'.total_count - (current.total_count - current.available_count)) 0
        ≤ b'.available_count ∧
      b'.total_count - b'.available_count
        ≤ current.total_count - current.available_count := by
  intro b' hb'
  have hreq' : ∀ q, req.total_count = .num q → q ≤ 2 ^ (53 : ℤ) := by
    intro q hq
    have := hreq q hq
    have e : (2 : ℚ) ^ (53 : ℤ) = 2 ^ 53 := by norm_num
    rw [e]
    exact this
  obtain ⟨hA0, hfl⟩ := update_floor s bookId req removeThrows current hb h0 hle ht hreq' b' hb'
  exact ⟨max_le (by omega) hA0, hfl⟩

/-- Witness of C26 as amended: title 1 of the sample catalogue (3 copies, 2
available) is edited to a total of `'2.5'` with an explicit `available_count`
of `'0.25'`; the columns store `(3, 2)`, one copy on loan as before. -/
theorem capacity_edit_floor_witness :
    ∃ b', (booksController.update sampleState 1
          ⟨.num (5 / 2), .num (1 / 4), .absent⟩ false).2.books 1 = some b' ∧
      b'.total_count = 3 ∧ b'.available_count = 2 ∧
      max (b'.total_count - ((3 : Int) - 2)) 0 ≤ b'.available_count ∧
      b'.total_count - b'.available_count ≤ (3 : Int) - 2 :=
  ⟨⟨3, 2, "在馆", none⟩, sample_update_halves, rfl, rfl,
    capacity_edit_floor sampleState 1 ⟨.num (5 / 2), .num (1 / 4), .absent⟩ false
      ⟨3, 2, "在馆", none⟩ (by simp [sampleState]) (by decide) (by decide) (by norm_num)
      (by
        intro q hq
        cases hq
        norm_num)
      ⟨3, 2, "在馆", none⟩ sample_update_halves⟩

/-- C27. Deleting a loan whose title row is missing: for an OPEN loan `l` (in
a table whose `id` is a primary key) whose title does not exist,
`borrow.remove` answers 200, removes `l` and no other loan and leaves the
`books` table as it was, whereas `borrow.return` answers NotFound and leaves
the whole state as it was, `l` still OPEN. -/
theorem orphan_loan_remove_return (s : State) (now : Nat) (l : Loan) (hpk : PrimaryKey s)
    (hl : l ∈ s.borrow) (hopen : l.isOpen) (hb : s.books l.book_id = none) :
    ((borrowController.remove s (some l.id)).1 = ⟨200, .message "借阅记录已删除"⟩ ∧
      (∀ r, r ∈ (borrowController.remove s (some l.id)).2.borrow ↔ r ∈ s.borrow ∧ r ≠ l) ∧
      (borrowController.remove s (some l.id)).2.books = s.books) ∧
    (NotFound (borrowController.«return» s now (some l.id)).1 ∧
      (borrowController.«return» s now (some l.id)).2 = s ∧
      l ∈ (borrowController.«return» s now (some l.id)).2.borrow) := by
  obtain ⟨rest, hsel⟩ := selectBorrowById_of_mem s l hpk hl
  obtain ⟨hresp, hbor, _, hbooks⟩ := remove_of_select s l.id l rest hsel
  unfold Loan.isOpen at hopen
  have hst : l.status ≠ "已还" := by rw [hopen]; decide
  have hret : borrowController.«return» s now (some l.id)
      = (⟨404, .error "图书不存在"⟩, s) := by
    simp only [borrowController.«return», hsel, hst, if_false, hb]
  refine ⟨⟨hresp, ?_, ?_⟩, ?_⟩
  · intro r
    rw [hbor]
    exact mem_deleteBorrowById_iff s l hpk hl r
  · rw [hbooks, if_pos hopen]
    simp only [hb]
  · rw [hret]
    exact ⟨rfl, rfl, hl⟩

/-- Witness of C27: loan 1 of `orphanState` references title 5, which does not
exist. -/
theorem orphan_loan_remove_return_witness :
    ((borrowController.remove orphanState (some 1)).1 = ⟨200, .message "借阅记录已删除"⟩ ∧
      (∀ r, r ∈ (borrowController.remove orphanState (some 1)).2.borrow
        ↔ r ∈ orphanState.borrow ∧ r ≠ ⟨1, 5, 7, 10, none, "借出"⟩) ∧
      (borrowController.remove orphanState (some 1)).2.books = orphanState.books) ∧
    (NotFound (borrowController.«return» orphanState 20 (some 1)).1 ∧
      (borrowController.«return» orphanState 20 (some 1)).2 = orphanState ∧
      (⟨1, 5, 7, 10, none, "借出"⟩ : Loan)
        ∈ (borrowController.«return» orphanState 20 (some 1)).2.borrow) :=
  orphan_loan_remove_return orphanState 20 ⟨1, 5, 7, 10, none, "借出"⟩
    (by unfold PrimaryKey orphanState; decide) (by simp [orphanState]) rfl
    (by simp [orphanState])

/-- C22. Last-copy race. Two `borrow.create` requests on a title with
`total_count = 1` and `available_count = 1` run side by side, their storage
calls interleaved by any schedule that never picks a transaction waiting for
the row lock. Every such schedule has at most 8 calls; after fewer than 8 one
of the two transactions can issue its next call; after 8 both have answered;
and once both have answered, one got 201 and the other OutOfStock, the loan of
the first is the one loan added, the title has `available_count = 0` with
status ALL_LOANED, and the OPEN loans on it are one more than before (exactly
one when the accounting invariant held before). -/
theorem last_copy_race (s : State) (t u₁ now₁ u₂ now₂ : Nat) (b : Book)
    (hb : s.books t = some b) (htot : b.total_count = 1) (hav : b.available_count = 1)
    (schedule : List Bool) (w : borrowController.World)
    (hadm : (borrowController.concurrentCreate s t u₁ now₁ u₂ now₂).admits schedule = true)
    (hw : w = (borrowController.concurrentCreate s t u₁ now₁ u₂ now₂).run schedule) :
    schedule.length ≤ 8 ∧
    (schedule.length < 8 → ∃ second, (w.step second).isSome = true) ∧
    (schedule.length = 8 → w.first.answer.isSome = true ∧ w.second.answer.isSome = true) ∧
    (w.first.answer.isSome = true → w.second.answer.isSome = true →
      ((w.first.answer = some ⟨201, .borrowCreated (some (s.borrowSeq + 1))⟩ ∧
          (∃ r, w.second.answer = some r ∧ OutOfStock r) ∧
          w.db.borrow = s.borrow ++ [⟨s.borrowSeq + 1, t, u₁, now₁, none, "借出"⟩]) ∨
        (w.second.answer = some ⟨201, .borrowCreated (some (s.borrowSeq + 1))⟩ ∧
          (∃ r, w.first.answer = some r ∧ OutOfStock r) ∧
          w.db.borrow = s.borrow ++ [⟨s.borrowSeq + 1, t, u₂, now₂, none, "借出"⟩])) ∧
      w.db.books t = some { b with available_count := 0, status := ALL_LOANED } ∧
      openLoans w.db t = openLoans s t + 1 ∧
      (Accounting s → openLoans w.db t = 1) ∧
      (∀ t', t' ≠ t → w.db.books t' = s.books t') ∧
      w.db.users = s.users) := by
  obtain ⟨tot, av, st, cv⟩ := b
  simp only at htot hav
  subst htot hav
  have hinit : borrowController.concurrentCreate s t u₁ now₁ u₂ now₂
      = Stage.world s t u₁ now₁ u₂ now₂ (.start, .start) := rfl
  rw [hinit] at hadm hw
  obtain ⟨y, hy, hrun, hrank⟩ :=
    stage_run s t u₁ now₁ u₂ now₂ st cv hb schedule (.start, .start) rfl hadm
  rw [hrun] at hw
  have hrank2 : y.1.rank + y.2.rank = schedule.length := by
    rw [hrank]
    simp [Stage.rank]
  obtain ⟨hle, hprog, hend⟩ := stage_progress y hy
  have hopen0 : Accounting s → openLoans s t = 0 := by
    intro hacc
    have := hacc t _ hb
    simp only at this
    omega
  have houtcome : y = (.won, .lost) ∨ y = (.lost, .won) →
      ((w.first.answer = some ⟨201, .borrowCreated (some (s.borrowSeq + 1))⟩ ∧
          (∃ r, w.second.answer = some r ∧ OutOfStock r) ∧
          w.db.borrow = s.borrow ++ [⟨s.borrowSeq + 1, t, u₁, now₁, none, "借出"⟩]) ∨
        (w.second.answer = some ⟨201, .borrowCreated (some (s.borrowSeq + 1))⟩ ∧
          (∃ r, w.first.answer = some r ∧ OutOfStock r) ∧
          w.db.borrow = s.borrow ++ [⟨s.borrowSeq + 1, t, u₂, now₂, none, "借出"⟩])) ∧
      w.db.books t = some ⟨1, 0, ALL_LOANED, cv⟩ ∧
      openLoans w.db t = openLoans s t + 1 ∧
      (Accounting s → openLoans w.db t = 1) ∧
      (∀ t', t' ≠ t → w.db.books t' = s.books t') ∧
      w.db.users = s.users := by
    intro hcase
    have hcount : ∀ u now, (s.borrow ++ [(⟨s.borrowSeq + 1, t, u, now, none, "借出"⟩ : Loan)]).countP
        (fun l => l.book_id = t ∧ l.status = "借出")
        = s.borrow.countP (fun l => l.book_id = t ∧ l.status = "借出") + 1 := by
      intro u now
      rw [countP_append_open _ _ _ rfl]
      simp
    rcases hcase with h | h
    · subst h
      subst hw
      have hbooks : (Stage.world s t u₁ now₁ u₂ now₂ (.won, .lost)).db.books
          = updateBookCounts s.books t 0 "已借出" := by
        simp [Stage.world, Stage.db, stockStatus]
      have hborrow : (Stage.world s t u₁ now₁ u₂ now₂ (.won, .lost)).db.borrow
          = s.borrow ++ [⟨s.borrowSeq + 1, t, u₁, now₁, none, "借出"⟩] := by
        simp [Stage.world, Stage.db]
      have hol : openLoans (Stage.world s t u₁ now₁ u₂ now₂ (.won, .lost)).db t
          = openLoans s t + 1 := by
        unfold openLoans
        rw [hborrow]
        exact hcount u₁ now₁
      refine ⟨Or.inl ⟨?_, ⟨_, rfl, rfl⟩, hborrow⟩, ?_, hol, ?_, ?_, ?_⟩
      · simp [Stage.world, Stage.pc, borrowController.Tx.answer]
      · rw [hbooks]
        simp [updateBookCounts, hb, ALL_LOANED]
      · intro hacc
        rw [hol, hopen0 hacc]
      · intro t' ht'
        rw [hbooks]
        simp [updateBookCounts, ht']
      · simp [Stage.world, Stage.db]
    · subst h
      subst hw
      have hbooks : (Stage.world s t u₁ now₁ u₂ now₂ (.lost, .won)).db.books
          = updateBookCounts s.books t 0 "已借出" := by
        simp [Stage.world, Stage.db, stockStatus]
      have hborrow : (Stage.world s t u₁ now₁ u₂ now₂ (.lost, .won)).db.borrow
          = s.borrow ++ [⟨s.borrowSeq + 1, t, u₂, now₂, none, "借出"⟩] := by
        simp [Stage.world, Stage.db]
      have hol : openLoans (Stage.world s t u₁ now₁ u₂ now₂ (.lost, .won)).db t
          = openLoans s t + 1 := by
        unfold openLoans
        rw [hborrow]
        exact hcount u₂ now₂
      refine ⟨Or.inr ⟨?_, ⟨_, rfl, rfl⟩, hborrow⟩, ?_, hol, ?_, ?_, ?_⟩
      · simp [Stage.world, Stage.pc, borrowController.Tx.answer]
      · rw [hbooks]
        simp [updateBookCounts, hb, ALL_LOANED]
      · intro hacc
        rw [hol, hopen0 hacc]
      · intro t' ht'
        rw [hbooks]
        simp [updateBookCounts, ht']
      · simp [Stage.world, Stage.db]
  refine ⟨by omega, ?_, ?_, ?_⟩
  · intro hlt
    obtain ⟨second, hsome⟩ := hprog (by omega)
    refine ⟨second, ?_⟩
    rw [hw, stage_step_world s t u₁ now₁ u₂ now₂ st cv hb y second hy]
    simpa using hsome
  · intro h8
    subst hw
    rcases hend (by omega) with h | h
    · subst h
      simp [Stage.world, Stage.pc, borrowController.Tx.answer]
    · subst h
      simp [Stage.world, Stage.pc, borrowController.Tx.answer]
  · intro h1 h2
    subst hw
    exact houtcome (stage_finished y hy (stage_answer _ _ _ _ _ h1) (stage_answer _ _ _ _ _ h2))

/-- Witness of C22: users 7 and 8 race for the one copy of title 1 of
`lastCopy`; the second request begins first, the first one locks the row
first. -/
theorem last_copy_race_witness :
    (borrowController.concurrentCreate lastCopy 1 7 10 8 11).admits
        [true, false, false, true, false, false, false, false] = false ∧
    (borrowController.concurrentCreate lastCopy 1 7 10 8 11).admits
        [true, false, false, false, false, false, true, true] = true ∧
    ((borrowController.concurrentCreate lastCopy 1 7 10 8 11).run
        [true, false, false, false, false, false, true, true]).first.answer
      = some ⟨201, .borrowCreated (some 1)⟩ ∧
    ((borrowController.concurrentCreate lastCopy 1 7 10 8 11).run
        [true, false, false, false, false, false, true, true]).second.answer
      = some ⟨400, .error "该书库存不足"⟩ ∧
    ((borrowController.concurrentCreate lastCopy 1 7 10 8 11).run
        [true, false, false, false, false, false, true, true]).db.books 1
      = some ⟨1, 0, "已借出", none⟩ ∧
    openLoans ((borrowController.concurrentCreate lastCopy 1 7 10 8 11).run
        [true, false, false, false, false, false, true, true]).db 1 = 1 :=
  ⟨by decide, by decide, by decide, by decide, by decide,
    ((last_copy_race lastCopy 1 7 10 8 11 ⟨1, 1, "在馆", none⟩ (by simp [lastCopy]) rfl rfl
      [true, false, false, false, false, false, true, true] _ (by decide) rfl).2.2.2
      (by decide) (by decide)).2.2.2.1
      lastCopy_accounting⟩

/-- C23. The handlers `borrow.return` and `borrow.remove` classify the same
loans as open. For a loan `l` of a stored state (every loan OPEN or CLOSED,
`id` a primary key) and every state of its title: `borrow.return` on `l` does
not fail with AlreadyClosed exactly when `l` is OPEN; `borrow.remove` on `l`
writes the restoring increment to the title exactly when `l` is OPEN (and the
title exists), and changes no title otherwise; and the two handlers leave the
same `books` table. -/
theorem return_remove_classification (s : State) (now : Nat) (l : Loan)
    (hpk : PrimaryKey s) (hty : StatusTyped s) (hl : l ∈ s.borrow) :
    (¬ AlreadyClosed (borrowController.«return» s now (some l.id)).1 ↔ l.isOpen) ∧
    (borrowController.remove s (some l.id)).2.books =
      (if l.isOpen then
        match s.books l.book_id with
        | some b => restoreCopy s.books l.book_id b
        | none => s.books
      else s.books) ∧
    (borrowController.«return» s now (some l.id)).2.books
      = (borrowController.remove s (some l.id)).2.books := by
  obtain ⟨rest, hsel⟩ := selectBorrowById_of_mem s l hpk hl
  obtain ⟨_, _, _, hbooks⟩ := remove_of_select s l.id l rest hsel
  rcases hty l hl with hopen | hclosed
  · have hopen2 := hopen
    unfold Loan.isOpen at hopen2
    have hst : l.status ≠ "已还" := by rw [hopen2]; decide
    rw [hbooks, if_pos hopen2, if_pos hopen]
    cases hb : s.books l.book_id with
    | none =>
      have hret : borrowController.«return» s now (some l.id)
          = (⟨404, .error "图书不存在"⟩, s) := by
        simp only [borrowController.«return», hsel, hst, if_false, hb]
      rw [hret]
      refine ⟨⟨fun _ => hopen, fun _ h => ?_⟩, rfl, rfl⟩
      unfold AlreadyClosed at h
      cases h
    | some b =>
      rw [return_eq_autoReturn s now l.id l rest b hsel hst hb]
      refine ⟨⟨fun _ => hopen, fun _ h => ?_⟩, rfl, autoReturn_books_some now s l b hb⟩
      unfold AlreadyClosed at h
      cases h
  · have hclosed2 := hclosed
    unfold Loan.isClosed at hclosed2
    have hno : l.status ≠ "借出" := by rw [hclosed2]; decide
    have hno2 : ¬ l.isOpen := hno
    have hr : borrowController.«return» s now (some l.id)
        = (⟨400, .error "该记录已归还"⟩, s) := by
      simp only [borrowController.«return», hsel, hclosed2, if_true]
    rw [hr, hbooks, if_neg hno, if_neg hno2]
    exact ⟨⟨fun h => absurd rfl h, fun h => absurd h hno2⟩, rfl, rfl⟩

/-- Witness of C23 on the sample catalogue: loan 1 is OPEN and its title 1
exists with 2 of 3 copies available; both handlers raise it to 3. -/
theorem return_remove_classification_witness :
    (¬ AlreadyClosed (borrowController.«return» sampleState 20 (some 1)).1 ↔
      (⟨1, 1, 7, 10, none, "借出"⟩ : Loan).isOpen) ∧
    (borrowController.remove sampleState (some 1)).2.books =
      (if (⟨1, 1, 7, 10, none, "借出"⟩ : Loan).isOpen then
        match sampleState.books 1 with
        | some b => restoreCopy sampleState.books 1 b
        | none => sampleState.books
      else sampleState.books) ∧
    (borrowController.«return» sampleState 20 (some 1)).2.books
      = (borrowController.remove sampleState (some 1)).2.books :=
  return_remove_classification sampleState 20 ⟨1, 1, 7, 10, none, "借出"⟩
    sampleState_primaryKey sampleState_statusTyped (by simp [sampleState])

/-- C21. Stable error statuses: run `borrow.create` or `borrow.return` with any
plan `fails` of throwing storage calls. If the plan makes one of the calls the
handler issues throw (a storage failure), the answer is 500. If it makes none
of them throw, the answer is not 500: it is 201 (resp. 200), 400 or 404, a
missing title or loan is answered NotFound with status 404, an exhausted title
OutOfStock with status 400 and a returned loan AlreadyClosed with status
400. -/
theorem stable_error_statuses (fails : Nat → Bool) (s : State) (now : Nat) :
    (∀ req,
      ((∃ k, k < borrowController.createCalls s req ∧ fails k = true) →
        (borrowController.createWithFaults fails s now req).response.status = 500) ∧
      ((∀ k, k < borrowController.createCalls s req → fails k = false) →
        ((borrowController.createWithFaults fails s now req).response.status = 201 ∨
          (borrowController.createWithFaults fails s now req).response.status = 400 ∨
          (borrowController.createWithFaults fails s now req).response.status = 404) ∧
        (∀ t u, borrowController.resolve req = .ok (t, u) → s.books t = none →
          NotFound (borrowController.createWithFaults fails s now req).response ∧
          (borrowController.createWithFaults fails s now req).response
            = ⟨404, .error "图书不存在"⟩) ∧
        (∀ t u b, borrowController.resolve req = .ok (t, u) → s.books t = some b →
          b.available_count ≤ 0 →
          OutOfStock (borrowController.createWithFaults fails s now req).response ∧
          (borrowController.createWithFaults fails s now req).response.status = 400))) ∧
    (∀ borrowId,
      ((∃ k, k < borrowController.returnCalls s borrowId ∧ fails k = true) →
        (borrowController.returnWithFaults fails s now borrowId).response.status = 500) ∧
      ((∀ k, k < borrowController.returnCalls s borrowId → fails k = false) →
        ((borrowController.returnWithFaults fails s now borrowId).response.status = 200 ∨
          (borrowController.returnWithFaults fails s now borrowId).response.status = 400 ∨
          (borrowController.returnWithFaults fails s now borrowId).response.status = 404) ∧
        (∀ x, borrowId = some x → (∀ l ∈ s.borrow, l.id ≠ x) →
          NotFound (borrowController.returnWithFaults fails s now borrowId).response ∧
          (borrowController.returnWithFaults fails s now borrowId).response
            = ⟨404, .error "借阅记录不存在"⟩) ∧
        (∀ l ∈ s.borrow, borrowId = some l.id → PrimaryKey s → l.isClosed →
          AlreadyClosed (borrowController.returnWithFaults fails s now borrowId).response ∧
          (borrowController.returnWithFaults fails s now borrowId).response.status = 400))) := by
  constructor
  · intro req
    obtain ⟨h1, h2⟩ := refines_of_calls _ s _ fails _ (createWithFaults_refines fails s now req)
      (createWithFaults_threw fails s now req)
    refine ⟨fun h => (h1 h).1, fun h => ?_⟩
    obtain ⟨_, heq⟩ := h2 h
    have hresp := congrArg (fun p => p.1) heq
    simp only at hresp
    rw [hresp]
    refine ⟨?_, ?_, ?_⟩
    · rcases create_status s now req with ⟨h, _⟩ | h | h
      · exact Or.inl h
      · exact Or.inr (Or.inl h)
      · exact Or.inr (Or.inr h)
    · intro t u hres hb
      rw [create_of_resolve hres, createTx_notFound s now t u hb]
      exact ⟨rfl, rfl⟩
    · intro t u b hres hb hav
      rw [create_of_resolve hres, createTx_outOfStock s now t u b hb hav]
      exact ⟨rfl, rfl⟩
  · intro borrowId
    obtain ⟨h1, h2⟩ := refines_of_calls _ s _ fails _
      (returnWithFaults_refines fails s now borrowId)
      (returnWithFaults_threw fails s now borrowId)
    refine ⟨fun h => (h1 h).1, fun h => ?_⟩
    obtain ⟨_, heq⟩ := h2 h
    have hresp := congrArg (fun p => p.1) heq
    simp only at hresp
    rw [hresp]
    refine ⟨return_status s now borrowId, ?_, ?_⟩
    · intro x hx hno
      subst hx
      have hsel : selectBorrowById s.borrow x = [] := by
        unfold selectBorrowById
        rw [List.filter_eq_nil_iff]
        intro l hl
        simpa using hno l hl
      simp only [borrowController.«return», hsel, NotFound, and_self]
    · intro l hl hid hpk hclosed
      subst hid
      obtain ⟨rest, hsel⟩ := selectBorrowById_of_mem s l hpk hl
      unfold Loan.isClosed at hclosed
      simp only [borrowController.«return», hsel, hclosed, if_true, AlreadyClosed, and_self]

/-- Witness of C21 on the sample catalogue: a `borrow.create` whose INSERT
(call 2) throws is answered 500; without a throw, a `borrow.create` on the
exhausted title 2 is answered OutOfStock and a `borrow.return` of the CLOSED
loan 3 is answered AlreadyClosed. -/
theorem stable_error_statuses_witness :
    (borrowController.createWithFaults (fun k => k == 2) sampleState 20
        (userReq 9 1)).response.status = 500 ∧
    (OutOfStock
        (borrowController.createWithFaults (fun _ => false) sampleState 20
          (userReq 9 2)).response ∧
      (borrowController.createWithFaults (fun _ => false) sampleState 20
        (userReq 9 2)).response.status = 400) ∧
    (AlreadyClosed
        (borrowController.returnWithFaults (fun _ => false) sampleState 20 (some 3)).response ∧
      (borrowController.returnWithFaults (fun _ => false) sampleState 20
        (some 3)).response.status = 400) :=
  ⟨((stable_error_statuses (fun k => k == 2) sampleState 20).1 (userReq 9 1)).1
      ⟨2, by decide, rfl⟩,
   (((stable_error_statuses (fun _ => false) sampleState 20).1 (userReq 9 2)).2
      (fun _ _ => rfl)).2.2 2 9 ⟨3, 0, "已借出", some "/uploads/books/2.jpg"⟩
      (resolve_userReq 9 2 (by decide) (by decide)) (by simp [sampleState]) (by decide),
   (((stable_error_statuses (fun _ => false) sampleState 20).2 (some 3)).2
      (fun _ _ => rfl)).2.2 ⟨3, 1, 7, 12, some 13, "已还"⟩ (by simp [sampleState]) rfl
      sampleState_primaryKey rfl⟩

/-- C28. The function `wrapTitle` is idempotent, and its result is either the
empty string or `'《'`, a non-empty inner part and `'》'`, the inner part
neither starting nor ending with a character that `trim` strips. -/
theorem wrapTitle_idempotent (value : String) :
    booksController.wrapTitle (booksController.wrapTitle value)
      = booksController.wrapTitle value ∧
    (booksController.wrapTitle value = "" ∨
      ∃ inner : List Char,
        (booksController.wrapTitle value).data = '《' :: (inner ++ ['》']) ∧
        ∃ h : inner ≠ [],
          booksController.isWhiteSpace (inner.head h) = false ∧
          booksController.isWhiteSpace (inner.getLast h) = false) := by
  constructor
  · unfold booksController.wrapTitle
    rw [wrapTitleChars_idempotent]
  · rcases wrapTitleChars_shape value.data with h | ⟨inner, h, hne, htrim⟩
    · left
      unfold booksController.wrapTitle
      rw [h]
    · right
      refine ⟨inner, h, hne, ?_, ?_⟩
      · have := trim_head_not inner (by rw [htrim]; exact hne)
        simpa [htrim] using this
      · have := trim_last_not inner (by rw [htrim]; exact hne)
        simpa [htrim] using this

end Library
